import Mathlib

set_option autoImplicit false

/-!
# Virtual-cluster syncer: downward pod synchronisation

A shallow embedding of

* `pkg/syncer/conversion/mutate.go` (the pod mutation pipeline),
* `pkg/syncer/resources/pod/dws.go` (the pod reconciler),
* `pkg/syncer/resources/persistentvolumeclaim/checker.go` (the PVC checker).

Go values that are mutated through pointers are passed and returned
explicitly.  Slices are lists (a nil slice is the empty list), a pointer that
may be nil is an `Option`, and a Go `map[string]string` is an association list
with pairwise distinct keys.  Calls into the Kubernetes client libraries and
into packages of the repository whose source is not part of this development
are taken as parameters (`Ext`, `World`).
-/

namespace VirtualCluster

/-! ## Errors and results -/

/-- A Go `error` value.  `reason` is the `metav1.StatusReason` carried by an API
status error and is empty for a plain error such as one built by `fmt.Errorf`. -/
structure Err where
  reason : String
  msg : String
deriving DecidableEq, Repr

/-- The function `fmt.Errorf(format, ...)`: a plain error with the rendered text. -/
def Errorf (text : String) : Err := { reason := "", msg := text }

/-- The function `errors.IsNotFound`; a nil error is not a not-found error. -/
def IsNotFound : Option Err → Bool
  | some e => e.reason == "NotFound"
  | none => false

/-- The function `errors.IsAlreadyExists`. -/
def IsAlreadyExists : Option Err → Bool
  | some e => e.reason == "AlreadyExists"
  | none => false

/-- Outcome of a Go function whose only result is an `error`: it returns nil,
returns a non-nil error, or does not return because of a run-time panic
(a nil-pointer dereference). -/
inductive Ret where
  | nil
  | err (e : Err)
  | panic
deriving DecidableEq, Repr

/-- The outcome of returning the error value `e` (nil when `e` is `none`). -/
def Ret.ofErr : Option Err → Ret
  | none => Ret.nil
  | some e => Ret.err e

/-- Outcome of a Go function with results `(value, error)`. -/
inductive Res (α : Type) where
  | ok (a : α)
  | err (e : Err)
  | panic
deriving DecidableEq, Repr

/-! ## Kubernetes objects (the fields the code reads or writes) -/

structure OwnerReference where
  kind : String
  name : String
  uid : String
deriving DecidableEq, Repr

structure ObjectMeta where
  name : String := ""
  generateName : String := ""
  ns : String := ""
  uid : String := ""
  labels : List (String × String) := []
  ownerReferences : List OwnerReference := []
  deletionTimestamp : Option Nat := none
  deletionGracePeriodSeconds : Option Int := none
deriving DecidableEq, Repr

structure ObjectFieldSelector where
  fieldPath : String
deriving DecidableEq, Repr

/-- The type `v1.EnvVarSource`; `other` stands for the sources that are not a
field reference (resource field, config-map key, secret key). -/
structure EnvVarSource where
  fieldRef : Option ObjectFieldSelector := none
  other : Option String := none
deriving DecidableEq, Repr

structure EnvVar where
  name : String
  value : String := ""
  valueFrom : Option EnvVarSource := none
deriving DecidableEq, Repr

structure VolumeMount where
  name : String
  readOnly : Bool := false
  mountPath : String := ""
deriving DecidableEq, Repr

structure Container where
  name : String := ""
  env : List EnvVar := []
  volumeMounts : List VolumeMount := []
deriving DecidableEq, Repr

structure SecretVolumeSource where
  secretName : String
deriving DecidableEq, Repr

/-- The type `v1.Volume`; `secret` is the `Secret` member of the volume source,
`other` stands for any other volume source. -/
structure Volume where
  name : String
  secret : Option SecretVolumeSource := none
  other : Option String := none
deriving DecidableEq, Repr

structure HostAlias where
  ip : String
  hostnames : List String
deriving DecidableEq, Repr

structure PodDNSConfigOption where
  name : String
  value : Option String
deriving DecidableEq, Repr

structure PodDNSConfig where
  nameservers : List String := []
  searches : List String := []
  options : List PodDNSConfigOption := []
deriving DecidableEq, Repr

/-- The constants of type `v1.DNSPolicy` (a string type). -/
def DNSClusterFirstWithHostNet : String := "ClusterFirstWithHostNet"
def DNSClusterFirst : String := "ClusterFirst"
def DNSDefault : String := "Default"
def DNSNone : String := "None"

structure PodSpec where
  nodeName : String := ""
  serviceAccountName : String := ""
  hostNetwork : Bool := false
  hostAliases : List HostAlias := []
  containers : List Container := []
  initContainers : List Container := []
  volumes : List Volume := []
  dnsPolicy : String := ""
  dnsConfig : Option PodDNSConfig := none
  subdomain : String := ""
  enableServiceLinks : Option Bool := none
  automountServiceAccountToken : Option Bool := none
deriving DecidableEq, Repr

structure PodCondition where
  type : String
  status : String
deriving DecidableEq, Repr

structure PodStatus where
  phase : String := ""
  conditions : List PodCondition := []
  hostIP : String := ""
  podIP : String := ""
deriving DecidableEq, Repr

structure Pod where
  meta : ObjectMeta := {}
  spec : PodSpec := {}
  status : PodStatus := {}
deriving DecidableEq, Repr

structure Secret where
  meta : ObjectMeta := {}
  type : String := ""
  data : List (String × String) := []
deriving DecidableEq, Repr

structure Service where
  meta : ObjectMeta := {}
  clusterIP : String := ""
deriving DecidableEq, Repr

structure ReplicaSet where
  meta : ObjectMeta := {}
deriving DecidableEq, Repr

structure ObjectReference where
  apiVersion : String := ""
  kind : String := ""
  ns : String := ""
  name : String := ""
  uid : String := ""
deriving DecidableEq, Repr

/-- The type `v1.Event`. -/
structure K8sEvent where
  meta : ObjectMeta := {}
  involvedObject : ObjectReference := {}
  type : String := ""
  reason : String := ""
  message : String := ""
  firstTimestamp : Nat := 0
  lastTimestamp : Nat := 0
  reportingController : String := ""
deriving DecidableEq, Repr

structure PersistentVolumeClaim where
  meta : ObjectMeta := {}
  spec : String := ""
deriving DecidableEq, Repr

structure Preconditions where
  uid : Option String := none
deriving DecidableEq, Repr

/-- The type `metav1.DeleteOptions`. -/
structure DeleteOptions where
  gracePeriodSeconds : Option Int := none
  preconditions : Option Preconditions := none
  propagationPolicy : Option String := none
deriving DecidableEq, Repr

/-- The function `metav1.NewDeleteOptions(grace)`. -/
def NewDeleteOptions (grace : Int) : DeleteOptions :=
  { gracePeriodSeconds := some grace }

/-- The function `metav1.NewUIDPreconditions(uid)`. -/
def NewUIDPreconditions (uid : String) : Preconditions :=
  { uid := some uid }

/-- The function `metav1.NewPreconditionDeleteOptions(uid)`. -/
def NewPreconditionDeleteOptions (uid : String) : DeleteOptions :=
  { preconditions := some { uid := some uid } }

/-! ## Go maps -/

/-- Lookup `m[k]` in a Go `map[string]string`; a missing key gives the empty string. -/
def mapGet (m : List (String × String)) (k : String) : String :=
  match m.find? (fun kv => kv.1 == k) with
  | some kv => kv.2
  | none => ""

/-- Assignment `m[k] = v` in a Go map. -/
def mapSet {β : Type} (m : List (String × β)) (k : String) (v : β) : List (String × β) :=
  if m.any (fun kv => kv.1 == k) then
    m.map (fun kv => if kv.1 == k then (k, v) else kv)
  else
    m ++ [(k, v)]

/-! ## Collaborators that are not part of this development -/

/-- The constants of package `constants` and of package `conversion` that the
code refers to; their values are not fixed here. -/
structure Constants where
  LabelExtendDeploymentName : String
  LabelExtendDeploymentUID : String
  SyncStatusKey : String
  SyncStatusReady : String
  TenantDNSServerNS : String
  TenantDNSServerServiceName : String
  DefaultDeletionPolicy : String
  masterServiceNamespace : String
  masterServices : List String

/-- The type `reconciler.EventType`. -/
inductive EventType where
  | AddEvent
  | UpdateEvent
  | DeleteEvent
deriving DecidableEq, Repr

/-- A call that has an effect outside the running function, with the error it
answered with (`none` for success).  The log of a run lists the calls to the
host API server (reads included), the writes to a tenant cluster and the work
queue operations, in the order in which they were issued; reads from the
informer caches and from a tenant cluster are not logged.  The entry `mutated`
is not a call: it marks the return of the mutation pipeline. -/
inductive Call where
  /-- Call `utils.GetSecret(c.client, ns, saName)`. -/
  | hostSecretGet (ns saName : String)
  /-- Call `c.client.Services(ns).Get(name, ...)`. -/
  | hostServiceGet (ns name : String)
  /-- Call `c.client.Secrets(ns).Create(secret)`. -/
  | hostSecretCreate (ns : String) (secret : Secret) (resp : Option Err)
  /-- Call `c.client.Pods(ns).Create(pod)`. -/
  | hostPodCreate (ns : String) (pod : Pod) (resp : Option Err)
  /-- Call `c.client.Pods(ns).Update(pod)`. -/
  | hostPodUpdate (ns : String) (pod : Pod) (resp : Option Err)
  /-- Call `c.client.Pods(ns).Delete(name, opts)`. -/
  | hostPodDelete (ns name : String) (opts : DeleteOptions) (resp : Option Err)
  /-- Call `c.pvcClient.PersistentVolumeClaims(ns).Delete(name, opts)`. -/
  | hostPVCDelete (ns name : String) (opts : DeleteOptions) (resp : Option Err)
  /-- Call `tenantClient.CoreV1().Events(ns).Create(event)` in a tenant cluster. -/
  | tenantEventCreate (cluster ns : String) (event : K8sEvent) (resp : Option Err)
  /-- Call `c.enqueuePod(pod)`. -/
  | enqueuePod (pod : Pod)
  /-- Call `RequeueObject(cluster, obj, event)` of the multi-cluster controller. -/
  | requeueObject (cluster : String) (obj : PersistentVolumeClaim) (event : EventType)
      (resp : Option Err)
  /-- Call `c.updateClusterVNodePodMap(cluster, vPod, event)`. -/
  | updateClusterVNodePodMap (cluster : String) (vPod : Pod) (event : EventType)
  /-- Return of `Mutate` with the given outcome. -/
  | mutated (ret : Ret)
deriving DecidableEq, Repr

structure ServiceAccount where
  meta : ObjectMeta := {}
  secrets : List ObjectReference := []
deriving DecidableEq, Repr

/-- A `clientcmdapi.Context`. -/
structure KubeContext where
  cluster : String := ""
  authInfo : String := ""
deriving DecidableEq, Repr

/-- A `clientcmdapi.Cluster`. -/
structure KubeCluster where
  server : String := ""
deriving DecidableEq, Repr

/-- A `clientcmdapi.AuthInfo`. -/
structure KubeAuthInfo where
  token : String := ""
deriving DecidableEq, Repr

/-- A `clientcmdapi.Config`; the three maps hold pointers, so a key may be bound
to nil. -/
structure KubeConfig where
  currentContext : String := ""
  contexts : List (String × Option KubeContext) := []
  clusters : List (String × Option KubeCluster) := []
  authInfos : List (String × Option KubeAuthInfo) := []
deriving DecidableEq, Repr

/-- The type `clientcmd.ClientConfig`: the result of its method `RawConfig()`. -/
structure ClientConfig where
  RawConfig : Except Err KubeConfig

/-- The clientset of one tenant cluster, as far as the code calls it. -/
structure TenantClient where
  /-- Call `AppsV1().ReplicaSets(ns).Get(name, ...)`. -/
  replicaSetsGet : String → String → Except Err ReplicaSet
  /-- Call `CoreV1().Events(ns).Create(event)`; only the error is used. -/
  eventsCreate : String → K8sEvent → Option Err
  /-- Call `utils.GetSecret(tenantClient.CoreV1(), ns, saName)`. -/
  getSecret : String → String → Except Err Secret
  /-- Call `CoreV1().ServiceAccounts(ns).Get(name, ...)`. -/
  serviceAccountsGet : String → String → Except Err ServiceAccount
  /-- Call `CoreV1().Secrets(ns).Get(name, ...)`. -/
  secretsGet : String → String → Except Err Secret

/-- The type `mc.MultiClusterController`, as far as the code calls it.  The
methods that only read are functions; `RequeueObject` gives the error it
answers with. -/
structure MultiClusterController where
  GetClusterDomain : String → Except Err String
  GetClusterClient : String → Except Err TenantClient
  GetClusterClientConfig : String → Except Err ClientConfig
  GetClusterNames : List String
  Get : String → String → String → Except Err PersistentVolumeClaim
  RequeueObject : String → PersistentVolumeClaim → EventType → Option Err
  List : String → Except Err (List PersistentVolumeClaim)

/-- Functions of the Kubernetes libraries and of packages `conversion` and
`utils` that the code calls and whose source is not part of this development. -/
structure Ext where
  consts : Constants
  /-- Function `conversion.ToSuperMasterNamespace(cluster, ns)`. -/
  ToSuperMasterNamespace : String → String → String
  /-- Function `envvars.FromServices(services)`. -/
  FromServices : List Service → List EnvVar
  /-- Function `conversion.BuildMetadata(cluster, targetNamespace, vPod)`. -/
  BuildMetadata : String → String → Pod → Except Err Pod
  /-- Function `conversion.BuildVirtualPodEvent(cluster, event, vPod)`. -/
  BuildVirtualPodEvent : String → K8sEvent → Pod → K8sEvent
  /-- Function `conversion.BuildKubeConfigSecret(cluster, vPod, bytes)`. -/
  BuildKubeConfigSecret : String → Pod → String → Secret
  /-- Function `conversion.CheckPodEquality(pPod, vPod)`; nil when nothing differs. -/
  CheckPodEquality : Pod → Pod → Option Pod
  /-- Function `conversion.CheckPVCEquality(pPVC, vPVC)`. -/
  CheckPVCEquality : PersistentVolumeClaim → PersistentVolumeClaim → Option PersistentVolumeClaim
  /-- Function `conversion.GetVirtualOwner(obj)`: owner cluster and namespace. -/
  GetVirtualOwner : PersistentVolumeClaim → String × String
  /-- Function `equality.Semantic.DeepEqual` on pod statuses. -/
  SemanticDeepEqual : PodStatus → PodStatus → Bool
  /-- Function `clientcmd.Write(config)`. -/
  Write : KubeConfig → Except Err String

/-- Choices made by the Go run time: the order in which a `range` statement
visits the entries of a map, the value of `uuid.NewUUID()` and the clock. -/
structure GoRuntime where
  /-- Order of `for key := range serviceMap` in `getServiceEnvVarMap`. -/
  rangeServiceMap : List (String × Service) → List (String × Service)
  /-- Order of `for k, v := range serviceEnvMap` in the call of
  `mutateContainerEnv` for the container with the given index (init containers
  are numbered after the containers). -/
  rangeServiceEnvMap : Nat → List (String × String) → List (String × String)
  NewUUID : String
  Now : Nat
  /-- Order in which the calls of concurrently running goroutines take effect,
  given the calls of each goroutine in program order. -/
  schedule : List (List Call) → List Call

/-! ## `conversion/mutate.go` -/

/-- The type `podMutateCtx`. -/
structure podMutateCtx where
  mc : MultiClusterController
  clusterName : String
  pPod : Pod

/-- The type `PodMutator`: a function on the context that returns an error.
The context is mutated in place, so the mutated context is returned as well. -/
abbrev PodMutator := podMutateCtx → podMutateCtx × Ret

/-- Method `(*podMutateCtx).Mutate(ms ...PodMutator)`. -/
def podMutateCtx.Mutate (p : podMutateCtx) : List PodMutator → podMutateCtx × Ret
  | [] => (p, Ret.nil)
  | mutator :: ms =>
    match mutator p with
    | (p1, Ret.nil) => podMutateCtx.Mutate p1 ms
    | (p1, Ret.err e) => (p1, Ret.err e)
    | (p1, Ret.panic) => (p1, Ret.panic)

/-- Function `strings.HasPrefix(s, pre)`. -/
def HasPrefix (s pre : String) : Bool :=
  pre.toList.isPrefixOf s.toList

/-- Function `mutateDownwardAPIField(env, vPod)`. -/
def mutateDownwardAPIField (env : EnvVar) (vPod : Pod) : EnvVar :=
  match env.valueFrom with
  | none => env
  | some valueFrom =>
    match valueFrom.fieldRef with
    | none => env
    | some fieldRef =>
      if !HasPrefix fieldRef.fieldPath "metadata" then env
      else
        let env1 : EnvVar :=
          if fieldRef.fieldPath = "metadata.name" then { env with value := vPod.meta.name }
          else if fieldRef.fieldPath = "metadata.namespace" then { env with value := vPod.meta.ns }
          else if fieldRef.fieldPath = "metadata.uid" then { env with value := vPod.meta.uid }
          else env
        { env1 with valueFrom := none }

/-- Function `mutateContainerEnv(c, vPod, serviceEnvMap)`.  The argument
`serviceEnvMap` lists the entries of the map in the order in which the second
loop visits them.  The set `envNameMap` is the list of its keys. -/
def mutateContainerEnv (c : Container) (vPod : Pod) (serviceEnvMap : List (String × String)) :
    Container :=
  -- first loop: rewrite every variable in place and record its name
  let envNameMap : List String := c.env.map (fun env => env.name)
  let c1 : Container := { c with env := c.env.map (fun env => mutateDownwardAPIField env vPod) }
  -- second loop: append the service variables whose name is not recorded
  serviceEnvMap.foldl
    (fun (c2 : Container) (kv : String × String) =>
      if !envNameMap.contains kv.1 then
        { c2 with env := c2.env ++ [{ name := kv.1, value := kv.2 }] }
      else c2)
    c1

/-- Function `mutateContainerSecret(c, vSASecret, SASecret)`. -/
def mutateContainerSecret (c : Container) (vSASecret SASecret : Secret) : Container :=
  { c with volumeMounts := c.volumeMounts.map (fun volumeMount =>
      if volumeMount.name = vSASecret.meta.name then
        { volumeMount with name := SASecret.meta.name }
      else volumeMount) }

/-- Function `v1helper.IsServiceIPSet(service)`. -/
def IsServiceIPSet (service : Service) : Bool :=
  service.clusterIP != "None" && service.clusterIP != ""

/-- The selection loop of `getServiceEnvVarMap`: the state is the pair
`(apiServerService, serviceMap)`. -/
def selectServices (ext : Ext) (ns : String) (tenantMasterSvcNs : String)
    (enableServiceLinks : Option Bool) (services : List Service) :
    String × List (String × Service) :=
  services.foldl
    (fun (st : String × List (String × Service)) (service : Service) =>
      if !IsServiceIPSet service then st
      else
        let serviceName := service.meta.name
        if service.meta.ns = tenantMasterSvcNs ∧ ext.consts.masterServices.contains serviceName then
          (service.clusterIP,
            if st.2.any (fun kv => kv.1 == serviceName) then st.2
            else mapSet st.2 serviceName service)
        else if service.meta.ns = ns ∧ enableServiceLinks = some true then
          (st.1, mapSet st.2 serviceName service)
        else st)
    ("", [])

/-- Function `getServiceEnvVarMap(ns, cluster, enableServiceLinks, services)`. -/
def getServiceEnvVarMap (ext : Ext) (rt : GoRuntime) (ns cluster : String)
    (enableServiceLinks : Option Bool) (services : List Service) :
    String × List (String × String) :=
  let tenantMasterSvcNs := ext.ToSuperMasterNamespace cluster ext.consts.masterServiceNamespace
  let sel := selectServices ext ns tenantMasterSvcNs enableServiceLinks services
  let mappedServices : List Service := (rt.rangeServiceMap sel.2).map (fun kv => kv.2)
  let m : List (String × String) :=
    (ext.FromServices mappedServices).foldl (fun m e => mapSet m e.name e.value) []
  (sel.1, m)

/-- Function `omitDuplicates(strs)`.  The state of the loop is the pair
`(uniqueStrs, ret)`; the map `uniqueStrs` is the list of the keys bound to true. -/
def omitDuplicates (strs : List String) : List String :=
  (strs.foldl
    (fun (st : List String × List String) (str : String) =>
      if !st.1.contains str then (str :: st.1, st.2 ++ [str]) else st)
    ([], [])).2

/-- Function `mutateClusterFirstDNS(p, vPod, clusterDomain, nameServer)`. -/
def mutateClusterFirstDNS (p : podMutateCtx) (vPod : Pod) (clusterDomain nameServer : String) :
    podMutateCtx :=
  if nameServer = "" then
    { p with pPod := { p.pPod with spec := { p.pPod.spec with dnsPolicy := DNSDefault } } }
  else
    let existingDNSConfig := p.pPod.spec.dnsConfig
    let dnsConfig : PodDNSConfig :=
      { nameservers := [nameServer]
        options := [{ name := "ndots", value := some "5" }] }
    let dnsConfig : PodDNSConfig :=
      if clusterDomain ≠ "" then
        let nsSvcDomain := vPod.meta.ns ++ ".svc." ++ clusterDomain
        let svcDomain := "svc." ++ clusterDomain
        { dnsConfig with searches := [nsSvcDomain, svcDomain, clusterDomain] }
      else dnsConfig
    let dnsConfig : PodDNSConfig :=
      match existingDNSConfig with
      | some existing =>
        { dnsConfig with
          nameservers := omitDuplicates (existing.nameservers ++ dnsConfig.nameservers)
          searches := omitDuplicates (existing.searches ++ dnsConfig.searches) }
      | none => dnsConfig
    { p with pPod := { p.pPod with spec :=
        { p.pPod.spec with dnsPolicy := DNSNone, dnsConfig := some dnsConfig } } }

/-- Function `mutateDNSConfig(p, vPod, clusterDomain, nameServer)`. -/
def mutateDNSConfig (p : podMutateCtx) (vPod : Pod) (clusterDomain nameServer : String) :
    podMutateCtx :=
  let dnsPolicy := p.pPod.spec.dnsPolicy
  if dnsPolicy = DNSNone then p
  else if dnsPolicy = DNSClusterFirstWithHostNet then
    mutateClusterFirstDNS p vPod clusterDomain nameServer
  else if dnsPolicy = DNSClusterFirst ∧ !p.pPod.spec.hostNetwork then
    mutateClusterFirstDNS p vPod clusterDomain nameServer
  else if dnsPolicy = DNSClusterFirst ∨ dnsPolicy = DNSDefault then
    { p with pPod := { p.pPod with spec := { p.pPod.spec with dnsPolicy := DNSNone } } }
  else p

/-- The loop of `PodMutateDefault` over `p.pPod.Spec.Volumes`.  The second
component tells whether the loop panicked: a volume named like the tenant
secret whose `Secret` source is nil is renamed and then dereferenced. -/
def mutateVolumes (vSASecret SASecret : Secret) : List Volume → List Volume × Bool
  | [] => ([], false)
  | volume :: rest =>
    if volume.name = vSASecret.meta.name then
      match volume.secret with
      | some src =>
        let r := mutateVolumes vSASecret SASecret rest
        ({ volume with name := SASecret.meta.name
                       secret := some { src with secretName := SASecret.meta.name } } :: r.1, r.2)
      | none => ({ volume with name := SASecret.meta.name } :: rest, true)
    else
      let r := mutateVolumes vSASecret SASecret rest
      (volume :: r.1, r.2)

/-- Function `PodMutateDefault(vPod, vSASecret, SASecret, services, nameServer)`. -/
def PodMutateDefault (ext : Ext) (rt : GoRuntime) (vPod : Pod) (vSASecret SASecret : Secret)
    (services : List Service) (nameServer : String) : PodMutator := fun p =>
  let pPod : Pod := { p.pPod with status := {} }
  let pPod : Pod := { pPod with spec := { pPod.spec with nodeName := "" } }
  -- setup env var map
  let svc := getServiceEnvVarMap ext rt pPod.meta.ns p.clusterName pPod.spec.enableServiceLinks
    services
  let apiServerClusterIP := svc.1
  let serviceEnv := svc.2
  let pPod : Pod := { pPod with spec := { pPod.spec with
    hostAliases := pPod.spec.hostAliases ++
      [{ ip := apiServerClusterIP
         hostnames := ["kubernetes", "kubernetes.default", "kubernetes.default.svc"] }] } }
  let pPod : Pod := { pPod with spec := { pPod.spec with
    containers := pPod.spec.containers.mapIdx (fun i c =>
      mutateContainerSecret (mutateContainerEnv c vPod (rt.rangeServiceEnvMap i serviceEnv))
        vSASecret SASecret) } }
  let pPod : Pod := { pPod with spec := { pPod.spec with
    initContainers := pPod.spec.initContainers.mapIdx (fun i c =>
      mutateContainerSecret
        (mutateContainerEnv c vPod
          (rt.rangeServiceEnvMap (pPod.spec.containers.length + i) serviceEnv))
        vSASecret SASecret) } }
  let vols := mutateVolumes vSASecret SASecret pPod.spec.volumes
  let pPod : Pod := { pPod with spec := { pPod.spec with volumes := vols.1 } }
  if vols.2 then ({ p with pPod := pPod }, Ret.panic)
  else
    match p.mc.GetClusterDomain p.clusterName with
    | Except.error err => ({ p with pPod := pPod }, Ret.err err)
    | Except.ok clusterDomain =>
      let p1 := mutateDNSConfig { p with pPod := pPod } vPod clusterDomain nameServer
      let p2 : podMutateCtx :=
        if p1.pPod.spec.subdomain ≠ "" then
          { p1 with pPod := { p1.pPod with spec := { p1.pPod.spec with subdomain := "" } } }
        else p1
      (p2, Ret.nil)

/-- Function `PodAddExtensionMeta(vPod)`. -/
def PodAddExtensionMeta (ext : Ext) (vPod : Pod) : PodMutator := fun p =>
  match vPod.meta.ownerReferences with
  | [] => (p, Ret.nil)
  | owner :: _ =>
    if owner.kind ≠ "ReplicaSet" then (p, Ret.nil)
    else
      let ns := vPod.meta.ns
      let replicaSetName := owner.name
      match p.mc.GetClusterClient p.clusterName with
      | Except.error err =>
        (p, Ret.err (Errorf ("vc " ++ p.clusterName ++ " failed to get client: " ++ err.msg)))
      | Except.ok client =>
        match client.replicaSetsGet ns replicaSetName with
        | Except.error err =>
          (p, Ret.err (Errorf ("vc " ++ p.clusterName ++ " failed to get replicaset object " ++
            replicaSetName ++ " in " ++ ns ++ ": " ++ err.msg)))
        | Except.ok replicaSetObj =>
          match replicaSetObj.meta.ownerReferences with
          | [] => (p, Ret.nil)
          | rsOwner :: _ =>
            let labels := p.pPod.meta.labels
            let labels := mapSet labels ext.consts.LabelExtendDeploymentName rsOwner.name
            let labels := mapSet labels ext.consts.LabelExtendDeploymentUID rsOwner.uid
            ({ p with pPod := { p.pPod with meta := { p.pPod.meta with labels := labels } } },
              Ret.nil)

/-- Function `PodMutateKubeConfig(vPod, secret, mountPath)`. -/
def PodMutateKubeConfig (rt : GoRuntime) (_vPod : Pod) (secret : Secret) (mountPath : String) :
    PodMutator := fun p =>
  let kubeConfigVolumeName := "vc-kubeconfig-" ++ rt.NewUUID
  let volumeMount : VolumeMount :=
    { name := kubeConfigVolumeName, readOnly := true, mountPath := mountPath }
  let spec := p.pPod.spec
  let spec : PodSpec := { spec with
    volumes := spec.volumes ++
      [{ name := kubeConfigVolumeName, secret := some { secretName := secret.meta.name } }] }
  let spec : PodSpec := { spec with
    containers := spec.containers.map (fun c =>
      { c with volumeMounts := c.volumeMounts ++ [volumeMount] }) }
  let spec : PodSpec := { spec with
    initContainers := spec.initContainers.map (fun c =>
      { c with volumeMounts := c.volumeMounts ++ [volumeMount] }) }
  ({ p with pPod := { p.pPod with spec := spec } }, Ret.nil)

/-- Function `PodMutateAutoMountServiceAccountToken(disable)`. -/
def PodMutateAutoMountServiceAccountToken (disable : Bool) : PodMutator := fun p =>
  if disable then
    ({ p with pPod := { p.pPod with spec :=
        { p.pPod.spec with automountServiceAccountToken := some false } } }, Ret.nil)
  else (p, Ret.nil)

/-! ## `resources/pod/dws.go` -/

/-- The syncer configuration read by the pod controller. -/
structure Config where
  DisableServiceAccountToken : Bool
  EnableTenantKubeConfig : Bool
  TenantKubeConfigMountPath : String

/-- The host (super master) client `c.client`, as far as the code calls it. -/
structure HostClient where
  /-- Call `utils.GetSecret(c.client, ns, saName)`. -/
  getSecret : String → String → Except Err Secret
  /-- Call `Services(ns).Get(name, ...)`. -/
  servicesGet : String → String → Except Err Service
  /-- Call `Secrets(ns).Create(secret)`; only the error is used. -/
  secretsCreate : String → Secret → Option Err
  /-- Call `Pods(ns).Create(pod)`; only the error is used. -/
  podsCreate : String → Pod → Option Err
  /-- Call `Pods(ns).Update(pod)`. -/
  podsUpdate : String → Pod → Except Err Pod
  /-- Call `Pods(ns).Delete(name, opts)`. -/
  podsDelete : String → String → DeleteOptions → Option Err

/-- The pod `controller`. -/
structure controller where
  config : Config
  client : HostClient
  /-- Call `c.podLister.Pods(ns).Get(name)` on the host informer cache. -/
  podLister : String → String → Except Err Pod
  /-- Call `c.serviceLister.Services(ns).List(labels.Everything())`. -/
  serviceLister : String → Except Err (List Service)
  multiClusterPodController : MultiClusterController

/-- The type `reconciler.Request`. -/
structure Request where
  clusterName : String
  ns : String
  name : String
  event : EventType
  obj : Pod

/-- The type `reconciler.Result`. -/
structure Result where
  requeue : Bool := false
deriving DecidableEq, Repr

/-- Function `podutil.GetPodCondition(status, conditionType)`: the first
condition of the given type. -/
def GetPodCondition (status : PodStatus) (conditionType : String) : Option PodCondition :=
  status.conditions.find? (fun cond => cond.type == conditionType)

/-- Function `isPodScheduled(pod)`. -/
def isPodScheduled (pod : Pod) : Bool :=
  match GetPodCondition pod.status "PodScheduled" with
  | some cond => cond.status == "True"
  | none => false

/-- Function `createNotSupportEvent(pod)`. -/
def createNotSupportEvent (rt : GoRuntime) (pod : Pod) : K8sEvent :=
  let eventTime := rt.Now
  { meta := { generateName := "syncer" }
    involvedObject := { apiVersion := "v1", kind := "Pod", name := pod.meta.name }
    type := "Warning"
    reason := "NotSupported"
    message := "The Pod has nodeName set in the spec which is not supported for now"
    firstTimestamp := eventTime
    lastTimestamp := eventTime
    reportingController := "syncer" }

/-- Method `(*controller).reconcilePodUpdate(cluster, namespace, name, vPod)`:
the calls it issues and its outcome. -/
def reconcilePodUpdate (c : controller) (ext : Ext) (cluster ns name : String)
    (vPod : Pod) : List Call × Ret :=
  let targetNamespace := ext.ToSuperMasterNamespace cluster ns
  match c.podLister targetNamespace name with
  | Except.error err =>
    if IsNotFound (some err) then ([], Ret.nil) else ([], Ret.err err)
  | Except.ok pPod =>
    if vPod.meta.deletionTimestamp ≠ none then
      if pPod.meta.deletionTimestamp ≠ none then ([], Ret.nil)
      else
        match vPod.meta.deletionGracePeriodSeconds with
        | none => ([], Ret.panic)
        | some grace =>
          let deleteOptions : DeleteOptions :=
            { NewDeleteOptions grace with
              preconditions := some (NewUIDPreconditions pPod.meta.uid) }
          let err := c.client.podsDelete targetNamespace name deleteOptions
          let log := [Call.hostPodDelete targetNamespace name deleteOptions err]
          if IsNotFound err then (log, Ret.nil) else (log, Ret.ofErr err)
    else
      match ext.CheckPodEquality pPod vPod with
      | some updatedPod =>
        match c.client.podsUpdate targetNamespace updatedPod with
        | Except.error err =>
          ([Call.hostPodUpdate targetNamespace updatedPod (some err)], Ret.err err)
        | Except.ok pPod1 =>
          if !ext.SemanticDeepEqual vPod.status pPod1.status then
            ([Call.hostPodUpdate targetNamespace updatedPod none, Call.enqueuePod pPod1], Ret.nil)
          else ([Call.hostPodUpdate targetNamespace updatedPod none], Ret.nil)
      | none =>
        if !ext.SemanticDeepEqual vPod.status pPod.status then
          ([Call.enqueuePod pPod], Ret.nil)
        else ([], Ret.nil)

/-- Method `(*controller).getClusterNameServer(client, cluster)`. -/
def getClusterNameServer (c : controller) (ext : Ext) (cluster : String) :
    List Call × Except Err String :=
  let ns := ext.ToSuperMasterNamespace cluster ext.consts.TenantDNSServerNS
  let log := [Call.hostServiceGet ns ext.consts.TenantDNSServerServiceName]
  match c.client.servicesGet ns ext.consts.TenantDNSServerServiceName with
  | Except.error err =>
    if IsNotFound (some err) then (log, Except.ok "") else (log, Except.error err)
  | Except.ok svc => (log, Except.ok svc.clusterIP)

/-- Method `(*controller).getPodRelatedServices(cluster, pPod)`. -/
def getPodRelatedServices (c : controller) (ext : Ext) (cluster : String) (pPod : Pod) :
    Except Err (List Service) :=
  match c.serviceLister (ext.ToSuperMasterNamespace cluster "default") with
  | Except.error err => Except.error err
  | Except.ok list =>
    let services := [] ++ list
    match c.serviceLister pPod.meta.ns with
    | Except.error err => Except.error err
    | Except.ok list => Except.ok (services ++ list)

/-- The loop of `createKubeConfigByServiceAccount` over `serviceAccount.Secrets`. -/
def kubeConfigFromSecrets (ext : Ext) (secretGet : String → Except Err Secret)
    (rawConfig : KubeConfig) (saName : String) : List ObjectReference → Res String
  | [] => Res.err (Errorf "any available service account token not found")
  | reference :: rest =>
    match secretGet reference.name with
    | Except.error _ => kubeConfigFromSecrets ext secretGet rawConfig saName rest
    | Except.ok secret =>
      if secret.type = "kubernetes.io/service-account-token" then
        match secret.data.find? (fun kv => kv.1 == "token") with
        | none =>
          Res.err (Errorf ("service account token \"" ++ secret.meta.name ++
            "\" for service account \"" ++ saName ++ "\" did not contain token data"))
        | some token =>
          match (rawConfig.contexts.find? (fun kv => kv.1 == rawConfig.currentContext)).bind
              (fun kv => kv.2) with
          | none => Res.panic
          | some ctx =>
            let ctx1 : KubeContext := { ctx with authInfo := saName }
            match (rawConfig.clusters.find? (fun kv => kv.1 == ctx1.cluster)).bind
                (fun kv => kv.2) with
            | none => Res.panic
            | some cluster =>
              let cfg : KubeConfig :=
                { currentContext := saName
                  contexts := [(saName, some ctx1)]
                  authInfos := [(ctx1.authInfo, some { token := token.2 })]
                  clusters := [(ctx1.cluster,
                    some { cluster with server := "https://kubernetes.default" })] }
              match ext.Write cfg with
              | Except.error _ =>
                Res.err (Errorf "failed to write serializes the config to yaml")
              | Except.ok out => Res.ok out
      else kubeConfigFromSecrets ext secretGet rawConfig saName rest

/-- Function `createKubeConfigByServiceAccount(saClient, secretClient,
clientConfig, saName)`; the two clients are given by their `Get` methods. -/
def createKubeConfigByServiceAccount (ext : Ext) (saGet : String → Except Err ServiceAccount)
    (secretGet : String → Except Err Secret) (clientConfig : ClientConfig) (saName : String) :
    Res String :=
  match saGet saName with
  | Except.error err => Res.err err
  | Except.ok serviceAccount =>
    match clientConfig.RawConfig with
    | Except.error err => Res.err err
    | Except.ok rawConfig =>
      kubeConfigFromSecrets ext secretGet rawConfig saName serviceAccount.secrets

/-- The block of `reconcilePodCreate` guarded by `c.config.EnableTenantKubeConfig`:
the calls it issues and either the error it returns with or the list `ms` it
leaves. -/
def reconcilePodCreateKubeConfig (c : controller) (ext : Ext) (rt : GoRuntime)
    (cluster targetNamespace saName : String) (vPod : Pod) (tenantClient : TenantClient)
    (ms : List PodMutator) : List Call × Res (List PodMutator) :=
  if c.config.EnableTenantKubeConfig then
    match c.multiClusterPodController.GetClusterClientConfig cluster with
    | Except.error _ => ([], Res.err (Errorf "failed to get cluster config"))
    | Except.ok clientConfig =>
      match createKubeConfigByServiceAccount ext (tenantClient.serviceAccountsGet vPod.meta.ns)
          (tenantClient.secretsGet vPod.meta.ns) clientConfig saName with
      | Res.panic => ([], Res.panic)
      | Res.err err =>
        ([], Res.err (Errorf ("failed to create kubeconfig from service account: " ++ err.msg)))
      | Res.ok kubeConfigBytes =>
        let secret := ext.BuildKubeConfigSecret cluster vPod kubeConfigBytes
        let secret : Secret := { secret with meta := { secret.meta with ns := targetNamespace } }
        let err := c.client.secretsCreate targetNamespace secret
        let log := [Call.hostSecretCreate targetNamespace secret err]
        match err with
        | some e =>
          if !IsAlreadyExists (some e) then
            (log, Res.err (Errorf ("failed to create kubeconfig secret for pod: " ++ e.msg)))
          else
            (log, Res.ok (ms ++ [PodMutateKubeConfig rt vPod secret
              c.config.TenantKubeConfigMountPath]))
        | none =>
          (log, Res.ok (ms ++ [PodMutateKubeConfig rt vPod secret
            c.config.TenantKubeConfigMountPath]))
  else ([], Res.ok ms)

/-- The last part of `reconcilePodCreate`, from the declaration of `ms`: the
optional kubeconfig secret, the mutation pipeline and the creation of the pod. -/
def reconcilePodCreateMutate (c : controller) (ext : Ext) (rt : GoRuntime)
    (cluster targetNamespace saName : String) (vPod pPod : Pod) (pSecret vSecret : Secret)
    (tenantClient : TenantClient) (services : List Service) (nameServer : String) :
    List Call × Ret :=
  let ms : List PodMutator :=
    [ PodMutateDefault ext rt vPod vSecret pSecret services nameServer,
      PodMutateAutoMountServiceAccountToken c.config.DisableServiceAccountToken,
      PodAddExtensionMeta ext vPod ]
  match reconcilePodCreateKubeConfig c ext rt cluster targetNamespace saName vPod tenantClient
      ms with
  | (log, Res.panic) => (log, Ret.panic)
  | (log, Res.err err) => (log, Ret.err err)
  | (log, Res.ok ms) =>
    let ctx : podMutateCtx :=
      { mc := c.multiClusterPodController, clusterName := cluster, pPod := pPod }
    match ctx.Mutate ms with
    | (_, Ret.panic) => (log ++ [Call.mutated Ret.panic], Ret.panic)
    | (_, Ret.err err) =>
      (log ++ [Call.mutated (Ret.err err)], Ret.err (Errorf ("failed to mutate pod: " ++ err.msg)))
    | (ctx1, Ret.nil) =>
      let err := c.client.podsCreate targetNamespace ctx1.pPod
      let log := log ++ [Call.mutated Ret.nil, Call.hostPodCreate targetNamespace ctx1.pPod err]
      if IsAlreadyExists err then (log, Ret.nil) else (log, Ret.ofErr err)

/-- Method `(*controller).reconcilePodCreate(cluster, namespace, name, vPod)`:
the calls it issues and its outcome. -/
def reconcilePodCreate (c : controller) (ext : Ext) (rt : GoRuntime) (cluster ns name : String)
    (vPod : Pod) : List Call × Ret :=
  -- load deleting pod, don't create any pod on super master.
  if vPod.meta.deletionTimestamp ≠ none then reconcilePodUpdate c ext cluster ns name vPod
  else
    let targetNamespace := ext.ToSuperMasterNamespace cluster ns
    match c.podLister targetNamespace name with
    | Except.ok _ => reconcilePodUpdate c ext cluster ns name vPod
    | Except.error _ =>
      if vPod.spec.nodeName ≠ "" ∧ !isPodScheduled vPod then
        match c.multiClusterPodController.GetClusterClient cluster with
        | Except.error err =>
          ([], Ret.err (Errorf ("failed to create client from cluster " ++ cluster ++
            " config: " ++ err.msg)))
        | Except.ok tenantClient =>
          let event := createNotSupportEvent rt vPod
          let vEvent := ext.BuildVirtualPodEvent cluster event vPod
          let err := tenantClient.eventsCreate vPod.meta.ns vEvent
          ([Call.tenantEventCreate cluster vPod.meta.ns vEvent err], Ret.ofErr err)
      else
        match ext.BuildMetadata cluster targetNamespace vPod with
        | Except.error err => ([], Ret.err err)
        | Except.ok pPod =>
          -- check if the secret in super master is ready
          let saName :=
            if pPod.spec.serviceAccountName ≠ "" then pPod.spec.serviceAccountName else "default"
          let log := [Call.hostSecretGet targetNamespace saName]
          match c.client.getSecret targetNamespace saName with
          | Except.error err => (log, Ret.err (Errorf ("failed to get secret: " ++ err.msg)))
          | Except.ok pSecret =>
            if mapGet pSecret.meta.labels ext.consts.SyncStatusKey ≠ ext.consts.SyncStatusReady then
              (log, Ret.err (Errorf "secret for pod is not ready"))
            else
              match c.multiClusterPodController.GetClusterClient cluster with
              | Except.error err => (log, Ret.err err)
              | Except.ok tenantClient =>
                match tenantClient.getSecret ns saName with
                | Except.error err =>
                  (log, Ret.err (Errorf ("failed to get secret: " ++ err.msg)))
                | Except.ok vSecret =>
                  match getPodRelatedServices c ext cluster pPod with
                  | Except.error err =>
                    (log, Ret.err (Errorf ("failed to list services from cluster " ++ cluster ++
                      " cache: " ++ err.msg)))
                  | Except.ok services =>
                    if services.length = 0 then (log, Ret.err (Errorf "service is not ready"))
                    else
                      match getClusterNameServer c ext cluster with
                      | (log1, Except.error err) =>
                        (log ++ log1, Ret.err (Errorf ("failed to find nameserver: " ++ err.msg)))
                      | (log1, Except.ok nameServer) =>
                        let r := reconcilePodCreateMutate c ext rt cluster targetNamespace saName
                          vPod pPod pSecret vSecret tenantClient services nameServer
                        (log ++ log1 ++ r.1, r.2)

/-- Method `(*controller).reconcilePodRemove(cluster, namespace, name, vPod)`. -/
def reconcilePodRemove (c : controller) (ext : Ext) (cluster ns name : String) (_vPod : Pod) :
    List Call × Ret :=
  let targetNamespace := ext.ToSuperMasterNamespace cluster ns
  let opts : DeleteOptions := { propagationPolicy := some ext.consts.DefaultDeletionPolicy }
  let err := c.client.podsDelete targetNamespace name opts
  let log := [Call.hostPodDelete targetNamespace name opts err]
  if IsNotFound err then (log, Ret.nil) else (log, Ret.ofErr err)

/-- Method `(*controller).Reconcile(request)`: the calls it issues, the result
and the error it returns.  The metrics recorded by `recordOperation` and
`recordError` are not part of the log. -/
def Reconcile (c : controller) (ext : Ext) (rt : GoRuntime) (request : Request) :
    List Call × Result × Ret :=
  let vPod := request.obj
  let log := [Call.updateClusterVNodePodMap request.clusterName vPod request.event]
  let r : List Call × Ret :=
    match request.event with
    | EventType.AddEvent =>
      reconcilePodCreate c ext rt request.clusterName request.ns request.name vPod
    | EventType.UpdateEvent =>
      reconcilePodUpdate c ext request.clusterName request.ns request.name vPod
    | EventType.DeleteEvent =>
      reconcilePodRemove c ext request.clusterName request.ns request.name vPod
  match r.2 with
  | Ret.nil => (log ++ r.1, {}, Ret.nil)
  | Ret.err err => (log ++ r.1, { requeue := true }, Ret.err err)
  | Ret.panic => (log ++ r.1, {}, Ret.panic)

/-! ## `resources/persistentvolumeclaim/checker.go` -/

/-- The persistent volume claim `controller`. -/
structure pvcController where
  multiClusterPersistentVolumeClaimController : MultiClusterController
  /-- Call `c.pvcLister.List(labels.Everything())` on the host informer cache. -/
  pvcListerList : Except Err (List PersistentVolumeClaim)
  /-- Call `c.pvcLister.PersistentVolumeClaims(ns).Get(name)`. -/
  pvcListerGet : String → String → Except Err PersistentVolumeClaim
  /-- Call `c.pvcClient.PersistentVolumeClaims(ns).Delete(name, opts)`. -/
  pvcDelete : String → String → DeleteOptions → Option Err

/-- The error component of a result `(value, error)`. -/
def errOf {α : Type} : Except Err α → Option Err
  | Except.error e => some e
  | Except.ok _ => none

/-- One iteration of the loop of `checkPVCs` over the host claims: the calls
issued for the host claim `pPVC`. -/
def checkPVCsStep (c : pvcController) (ext : Ext) (pPVC : PersistentVolumeClaim) : List Call :=
  let owner := ext.GetVirtualOwner pPVC
  let clusterName := owner.1
  let vNamespace := owner.2
  if clusterName.length = 0 ∨ vNamespace.length = 0 then []
  else
    let err := errOf
      (c.multiClusterPersistentVolumeClaimController.Get clusterName vNamespace pPVC.meta.name)
    if IsNotFound err then
      let deleteOptions := NewPreconditionDeleteOptions pPVC.meta.uid
      let err := c.pvcDelete pPVC.meta.ns pPVC.meta.name deleteOptions
      [Call.hostPVCDelete pPVC.meta.ns pPVC.meta.name deleteOptions err]
    else []

/-- The second phase of `checkPVCs`: the loop over the host claims `pPVCs`. -/
def checkPVCsSweep (c : pvcController) (ext : Ext) (pPVCs : List PersistentVolumeClaim) :
    List Call :=
  pPVCs.foldl (fun log pPVC => log ++ checkPVCsStep c ext pPVC) []

/-- One iteration of the loop of `checkPVCOfTenantCluster`: the calls issued
for the tenant claim `vPVC`.  The messages written with `klog` are not calls. -/
def checkPVCOfTenantClusterStep (c : pvcController) (ext : Ext) (clusterName : String)
    (vPVC : PersistentVolumeClaim) : List Call :=
  let targetNamespace := ext.ToSuperMasterNamespace clusterName vPVC.meta.ns
  match c.pvcListerGet targetNamespace vPVC.meta.name with
  | Except.error err =>
    if IsNotFound (some err) then
      [Call.requeueObject clusterName vPVC EventType.AddEvent
        (c.multiClusterPersistentVolumeClaimController.RequeueObject clusterName vPVC
          EventType.AddEvent)]
    else
      -- "failed to get pPVC ... from super master cache"
      []
  | Except.ok pPVC =>
    match ext.CheckPVCEquality pPVC vPVC with
    | some _ =>
      -- "spec of pvc ... diff in super&tenant master"
      []
    | none => []

/-- Method `(*controller).checkPVCOfTenantCluster(clusterName)`. -/
def checkPVCOfTenantCluster (c : pvcController) (ext : Ext) (clusterName : String) : List Call :=
  match c.multiClusterPersistentVolumeClaimController.List clusterName with
  | Except.error _ => []
  | Except.ok pvcList =>
    pvcList.foldl (fun log vPVC => log ++ checkPVCOfTenantClusterStep c ext clusterName vPVC) []

/-- Method `(*controller).checkPVCs()`.  The goroutines of the first phase run
concurrently; `rt.schedule` merges their calls.  The second phase starts after
`wg.Wait()` has returned. -/
def checkPVCs (c : pvcController) (ext : Ext) (rt : GoRuntime) : List Call :=
  let clusterNames := c.multiClusterPersistentVolumeClaimController.GetClusterNames
  if clusterNames.length = 0 then []
  else
    let phase1 := rt.schedule (clusterNames.map (fun clusterName =>
      checkPVCOfTenantCluster c ext clusterName))
    match c.pvcListerList with
    | Except.error _ => phase1
    | Except.ok pPVCs => phase1 ++ checkPVCsSweep c ext pPVCs

/-- Where the goroutine that runs `checkPVCs` stands: before the cluster names
are read, in the loop that starts the goroutines (with the cluster names still
to visit), at `wg.Wait()`, in the loop over the host claims (with the claims
still to visit), or returned. -/
inductive checkPVCsPc where
  | start
  | spawning (rest : List String)
  | waiting
  | sweeping (rest : List PersistentVolumeClaim)
  | returned
deriving Repr

/-- A goroutine started by `checkPVCs` for `clusterName`: the calls that
`checkPVCOfTenantCluster` has still to issue, and whether the deferred
`wg.Done()` has run. -/
structure checkPVCsTask where
  clusterName : String
  todo : List Call
  done : Bool := false

/-- The state of one run of `checkPVCs`: the position of its goroutine, the
counter of the wait group `wg`, the goroutines started so far and the calls
issued so far. -/
structure checkPVCsState where
  pc : checkPVCsPc := checkPVCsPc.start
  wg : Int := 0
  tasks : List checkPVCsTask := []
  log : List Call := []

/-- The goroutines of a run of `checkPVCs`: the one that runs `checkPVCs`, and
the ones it starts, in the order of their start. -/
inductive Thread where
  | main
  | task (i : Nat)
deriving DecidableEq, Repr

/-- One step of the goroutine that runs `checkPVCs`; `none` when it is blocked
at `wg.Wait()` or has returned. -/
def checkPVCsMainStep (c : pvcController) (ext : Ext) (s : checkPVCsState) :
    Option checkPVCsState :=
  match s.pc with
  | checkPVCsPc.start =>
    let clusterNames := c.multiClusterPersistentVolumeClaimController.GetClusterNames
    if clusterNames.length = 0 then some { s with pc := checkPVCsPc.returned }
    else some { s with pc := checkPVCsPc.spawning clusterNames }
  | checkPVCsPc.spawning (clusterName :: rest) =>
    -- wg.Add(1); go func(clusterName string) { ... }(clusterName)
    some { s with
      pc := checkPVCsPc.spawning rest
      wg := s.wg + 1
      tasks := s.tasks ++
        [{ clusterName := clusterName, todo := checkPVCOfTenantCluster c ext clusterName }] }
  | checkPVCsPc.spawning [] => some { s with pc := checkPVCsPc.waiting }
  | checkPVCsPc.waiting =>
    -- wg.Wait() returns when the counter is zero
    if s.wg = 0 then
      match c.pvcListerList with
      | Except.error _ => some { s with pc := checkPVCsPc.returned }
      | Except.ok pPVCs => some { s with pc := checkPVCsPc.sweeping pPVCs }
    else none
  | checkPVCsPc.sweeping (pPVC :: rest) =>
    some { s with pc := checkPVCsPc.sweeping rest, log := s.log ++ checkPVCsStep c ext pPVC }
  | checkPVCsPc.sweeping [] => some { s with pc := checkPVCsPc.returned }
  | checkPVCsPc.returned => none

/-- One step of the `i`-th goroutine started by `checkPVCs`: the next call of
`checkPVCOfTenantCluster`, or, after the last one, the deferred `wg.Done()`;
`none` when that goroutine is not started or has ended. -/
def checkPVCsTaskStep (i : Nat) (s : checkPVCsState) : Option checkPVCsState :=
  match s.tasks[i]? with
  | none => none
  | some t =>
    if t.done then none
    else
      match t.todo with
      | call :: rest =>
        some { s with tasks := s.tasks.set i { t with todo := rest }, log := s.log ++ [call] }
      | [] =>
        some { s with tasks := s.tasks.set i { t with done := true }, wg := s.wg - 1 }

/-- One step of the goroutine `th` of a run of `checkPVCs`. -/
def checkPVCsThreadStep (c : pvcController) (ext : Ext) (th : Thread) (s : checkPVCsState) :
    Option checkPVCsState :=
  match th with
  | Thread.main => checkPVCsMainStep c ext s
  | Thread.task i => checkPVCsTaskStep i s

/-- The state of a run of `checkPVCs` after the scheduler has picked the
goroutines `sched` in turn; picking a goroutine that cannot step changes
nothing. -/
def checkPVCsRun (c : pvcController) (ext : Ext) (sched : List Thread) : checkPVCsState :=
  sched.foldl (fun s th => (checkPVCsThreadStep c ext th s).getD s) {}

/-! ## Specification-level definitions -/

/-- The input with every occurrence after the first of each string removed:
the head is kept and its later occurrences are dropped from the rest. -/
def keepFirstOccurrences : List String → List String
  | [] => []
  | x :: xs => x :: (keepFirstOccurrences xs).filter (fun y => decide (y ≠ x))

/-- The context after the mutators `ms` have been applied to `p` one after the
other, whatever they return. -/
def applyMutators (p : podMutateCtx) (ms : List PodMutator) : podMutateCtx :=
  ms.foldl (fun q m => (m q).1) p

/-- The nameservers of the DNS configuration a pod already has, if any. -/
def existingNameservers : Option PodDNSConfig → List String
  | some cfg => cfg.nameservers
  | none => []

/-- The search domains of the DNS configuration a pod already has, if any. -/
def existingSearches : Option PodDNSConfig → List String
  | some cfg => cfg.searches
  | none => []

/-- The search list of the cluster DNS for tenant namespace `ns`: the three
domains `ns.svc.domain`, `svc.domain`, `domain` when a cluster domain is
configured, nothing otherwise. -/
def clusterSearches (ns domain : String) : List String :=
  if domain = "" then [] else [ns ++ ".svc." ++ domain, "svc." ++ domain, domain]

/-- A call that creates, updates or deletes an object in the host cluster. -/
def isHostWrite : Call → Bool
  | Call.hostSecretCreate _ _ _ => true
  | Call.hostPodCreate _ _ _ => true
  | Call.hostPodUpdate _ _ _ => true
  | Call.hostPodDelete _ _ _ _ => true
  | Call.hostPVCDelete _ _ _ _ => true
  | _ => false

/-- A call that creates a pod in the host cluster. -/
def isHostPodCreate : Call → Bool
  | Call.hostPodCreate _ _ _ => true
  | _ => false

/-- A call that creates an object, in the host cluster or in a tenant cluster. -/
def isCreate : Call → Bool
  | Call.hostSecretCreate _ _ _ => true
  | Call.hostPodCreate _ _ _ => true
  | Call.tenantEventCreate _ _ _ _ => true
  | _ => false

/-- A log entry that is neither a write to the host cluster nor the return of
the mutation pipeline. -/
def isQuiet : Call → Bool
  | Call.mutated _ => false
  | x => !isHostWrite x

/-- The outcome of `reconcilePodCreate` when `Mutate` returned `ret` without success. -/
def mutateFailure : Ret → Ret
  | Ret.err e => Ret.err (Errorf ("failed to mutate pod: " ++ e.msg))
  | _ => Ret.panic

/-- The writes to the host cluster that a run has issued before the mutation
pipeline returned success (all its host writes when it never did). -/
def hostWritesBeforeMutate (log : List Call) : List Call :=
  (log.takeWhile (fun x => decide (x ≠ Call.mutated Ret.nil))).filter isHostWrite

/-- Modelled from the spec: the pod store of the host control plane (section 6,
"object get/list/create/update/delete"), as far as a log determines it.  The
store lists the pods by namespace; a create that succeeded adds the pod, a
delete that succeeded removes the pods of that namespace and name, an update
that succeeded replaces them; every other entry leaves the store as it is. -/
def hostPodsStep (store : List (String × Pod)) : Call → List (String × Pod)
  | Call.hostPodCreate ns pod none => store ++ [(ns, pod)]
  | Call.hostPodDelete ns name _ none =>
    store.filter (fun e => !(decide (e.1 = ns) && decide (e.2.meta.name = name)))
  | Call.hostPodUpdate ns pod none =>
    store.map (fun e =>
      if decide (e.1 = ns) && decide (e.2.meta.name = pod.meta.name) then (ns, pod) else e)
  | _ => store

/-- The host pod store after the calls of a log. -/
def hostPodsAfter (store : List (String × Pod)) (log : List Call) : List (String × Pod) :=
  log.foldl hostPodsStep store

/-- The pods of the store under the key `(ns, name)`. -/
def hostPodsAt (store : List (String × Pod)) (ns name : String) : List (String × Pod) :=
  store.filter (fun e => decide (e.1 = ns) && decide (e.2.meta.name = name))

/-- Whether the orphan sweep of `checkPVCs` deletes the host claim `pPVC`: its
back-reference names a cluster and a namespace and the tenant lookup answers
not-found. -/
def isOrphan (c : pvcController) (ext : Ext) (pPVC : PersistentVolumeClaim) : Bool :=
  decide ((ext.GetVirtualOwner pPVC).1 ≠ "") && decide ((ext.GetVirtualOwner pPVC).2 ≠ "") &&
    IsNotFound (errOf (c.multiClusterPersistentVolumeClaimController.Get
      (ext.GetVirtualOwner pPVC).1 (ext.GetVirtualOwner pPVC).2 pPVC.meta.name))

/-- Whether the host cache lookup for the tenant claim `vPVC` of cluster
`clusterName` answers not-found. -/
def hostMissing (c : pvcController) (ext : Ext) (clusterName : String)
    (vPVC : PersistentVolumeClaim) : Bool :=
  IsNotFound (errOf (c.pvcListerGet (ext.ToSuperMasterNamespace clusterName vPVC.meta.ns)
    vPVC.meta.name))

/-- The value bound to key `k` in a Go map, if the key is present. -/
def mapLookup (m : List (String × String)) (k : String) : Option String :=
  (m.find? (fun kv => kv.1 == k)).map (fun kv => kv.2)

/-- The value bound to key `k` in a Go map of any value type, if the key is present. -/
def mapFind {β : Type} (m : List (String × β)) (k : String) : Option β :=
  (m.find? (fun kv => kv.1 == k)).map (fun kv => kv.2)

/-- The map `m` that `getServiceEnvVarMap` fills from the variables `envs`. -/
def envVarMapOf (envs : List EnvVar) : List (String × String) :=
  envs.foldl (fun m e => mapSet m e.name e.value) []

/-- The number of goroutines of `tasks` whose `wg.Done()` has not run. -/
def pendingTasks (tasks : List checkPVCsTask) : Nat :=
  tasks.countP (fun t => !t.done)

/-- Every goroutine for a known tenant cluster is started and has ended: the
goroutines of `s` are those of the cluster names, in their order, each has
issued all its calls and has run its `wg.Done()`. -/
def allTasksDone (c : pvcController) (s : checkPVCsState) : Prop :=
  s.tasks.map (fun t => t.clusterName) =
      c.multiClusterPersistentVolumeClaimController.GetClusterNames ∧
    ∀ t ∈ s.tasks, t.done = true ∧ t.todo = []

/-- The log of `s` holds no call that writes to the host cluster. -/
def noHostWrite (s : checkPVCsState) : Prop :=
  ∀ x ∈ s.log, isHostWrite x = false

/-- The invariant of the runs of `checkPVCs`: the counter of the wait group is
the number of goroutines that have not ended, a goroutine that has ended has no
call left, no goroutine has a host write to issue, and the position of the
main goroutine fits the goroutines started and the calls issued. -/
def checkPVCsInv (c : pvcController) (s : checkPVCsState) : Prop :=
  s.wg = (pendingTasks s.tasks : Int) ∧
  (∀ t ∈ s.tasks, (t.done = true → t.todo = []) ∧ ∀ x ∈ t.todo, isHostWrite x = false) ∧
  match s.pc with
  | checkPVCsPc.start => s.tasks = [] ∧ noHostWrite s
  | checkPVCsPc.spawning rest =>
    s.tasks.map (fun t => t.clusterName) ++ rest =
        c.multiClusterPersistentVolumeClaimController.GetClusterNames ∧ noHostWrite s
  | checkPVCsPc.waiting =>
    s.tasks.map (fun t => t.clusterName) =
        c.multiClusterPersistentVolumeClaimController.GetClusterNames ∧ noHostWrite s
  | checkPVCsPc.sweeping _ => allTasksDone c s
  | checkPVCsPc.returned => allTasksDone c s

/-- The calls of a run of `checkPVCs` add up: the log is made of the calls of
the goroutines, which together with the calls they have still to issue are the
calls of `checkPVCOfTenantCluster` for the clusters started, in some order,
followed by the calls of the sweep over the host claims visited so far. -/
def checkPVCsLogInv (c : pvcController) (ext : Ext) (s : checkPVCsState) : Prop :=
  ∃ pre post : List Call, s.log = pre ++ post ∧
    List.Perm (pre ++ (s.tasks.map (fun t => t.todo)).flatten)
      (((s.tasks.map (fun t => t.clusterName)).map (checkPVCOfTenantCluster c ext)).flatten) ∧
    match s.pc with
    | checkPVCsPc.start => post = []
    | checkPVCsPc.spawning _ =>
      post = [] ∧ c.multiClusterPersistentVolumeClaimController.GetClusterNames.length ≠ 0
    | checkPVCsPc.waiting =>
      post = [] ∧ c.multiClusterPersistentVolumeClaimController.GetClusterNames.length ≠ 0
    | checkPVCsPc.sweeping rest =>
      c.multiClusterPersistentVolumeClaimController.GetClusterNames.length ≠ 0 ∧
      ∃ visited, c.pvcListerList = Except.ok (visited ++ rest) ∧
        post = checkPVCsSweep c ext visited
    | checkPVCsPc.returned =>
      post =
        if c.multiClusterPersistentVolumeClaimController.GetClusterNames.length = 0 then []
        else
          match c.pvcListerList with
          | Except.error _ => []
          | Except.ok pPVCs => checkPVCsSweep c ext pPVCs

/-! ## Example values -/

/-- A multi-cluster controller that knows one tenant cluster domain and nothing else. -/
def exMC : MultiClusterController :=
  { GetClusterDomain := fun _ => Except.ok "cluster.local"
    GetClusterClient := fun _ => Except.error (Errorf "no client")
    GetClusterClientConfig := fun _ => Except.error (Errorf "no config")
    GetClusterNames := []
    Get := fun _ _ _ => Except.error { reason := "NotFound", msg := "not found" }
    RequeueObject := fun _ _ _ => none
    List := fun _ => Except.ok [] }

/-- A mutation context for cluster `west` with an empty draft pod. -/
def exCtx : podMutateCtx := { mc := exMC, clusterName := "west", pPod := {} }

/-- A mutator that sets the subdomain to `a` and returns nil. -/
def exMutOk : PodMutator := fun p =>
  ({ p with pPod := { p.pPod with spec := { p.pPod.spec with subdomain := "a" } } }, Ret.nil)

/-- A mutator that sets the node name to `n` and returns an error. -/
def exMutFail : PodMutator := fun p =>
  ({ p with pPod := { p.pPod with spec := { p.pPod.spec with nodeName := "n" } } },
    Ret.err (Errorf "boom"))

/-- A mutator that sets the subdomain to `b` and returns nil. -/
def exMutLate : PodMutator := fun p =>
  ({ p with pPod := { p.pPod with spec := { p.pPod.spec with subdomain := "b" } } }, Ret.nil)

/-- Example constants. -/
def exConsts : Constants :=
  { LabelExtendDeploymentName := "tenancy.x-k8s.io/extend.deployment.name"
    LabelExtendDeploymentUID := "tenancy.x-k8s.io/extend.deployment.uid"
    SyncStatusKey := "tenancy.x-k8s.io/sync.status"
    SyncStatusReady := "ready"
    TenantDNSServerNS := "kube-system"
    TenantDNSServerServiceName := "kube-dns"
    DefaultDeletionPolicy := "Background"
    masterServiceNamespace := "default"
    masterServices := ["kubernetes"] }

/-- Example collaborators: the host namespace is `cluster-namespace`, the draft
host pod is the tenant pod moved to the host namespace, nothing ever differs. -/
def exExt : Ext :=
  { consts := exConsts
    ToSuperMasterNamespace := fun cluster ns => cluster ++ "-" ++ ns
    FromServices := fun _ => []
    BuildMetadata := fun _ targetNamespace vPod =>
      Except.ok { vPod with meta := { vPod.meta with ns := targetNamespace, uid := "" } }
    BuildVirtualPodEvent := fun _ event vPod =>
      { event with meta := { event.meta with ns := vPod.meta.ns }
                   involvedObject := { event.involvedObject with
                     ns := vPod.meta.ns, uid := vPod.meta.uid } }
    BuildKubeConfigSecret := fun _ vPod bytes =>
      { meta := { name := "vc-kubeconfig-" ++ vPod.meta.name }, data := [("config", bytes)] }
    CheckPodEquality := fun _ _ => none
    CheckPVCEquality := fun _ _ => none
    GetVirtualOwner := fun pPVC =>
      (mapGet pPVC.meta.labels "cluster", mapGet pPVC.meta.labels "namespace")
    SemanticDeepEqual := fun a b => a == b
    Write := fun _ => Except.ok "kubeconfig" }

/-- Example run time: maps are visited in insertion order. -/
def exRt : GoRuntime :=
  { rangeServiceMap := fun m => m
    rangeServiceEnvMap := fun _ m => m
    NewUUID := "0000"
    Now := 0
    schedule := fun logs => logs.flatten }

/-- A not-found status error. -/
def exNotFound : Err := { reason := "NotFound", msg := "not found" }

/-- A host client on which every read answers not-found and every write succeeds. -/
def exClient : HostClient :=
  { getSecret := fun _ _ => Except.error exNotFound
    servicesGet := fun _ _ => Except.error exNotFound
    secretsCreate := fun _ _ => none
    podsCreate := fun _ _ => none
    podsUpdate := fun _ pod => Except.ok pod
    podsDelete := fun _ _ _ => none }

/-- The host pod `west-ns1/pod1` with UID `u1`. -/
def exHostPod : Pod := { meta := { name := "pod1", ns := "west-ns1", uid := "u1" } }

/-- A pod controller whose host cache holds `exHostPod` and nothing else. -/
def exControllerHostPresent : controller :=
  { config := { DisableServiceAccountToken := false, EnableTenantKubeConfig := false
                TenantKubeConfigMountPath := "/etc/kubeconfig" }
    client := exClient
    podLister := fun ns name =>
      if ns = "west-ns1" ∧ name = "pod1" then Except.ok exHostPod else Except.error exNotFound
    serviceLister := fun _ => Except.ok []
    multiClusterPodController := exMC }

/-- A host secret that carries the ready marker. -/
def exReadySecret : Secret :=
  { meta := { name := "default-token", ns := "west-ns1"
              labels := [("tenancy.x-k8s.io/sync.status", "ready")] } }

/-- A kubeconfig with one context. -/
def exKubeConfig : KubeConfig :=
  { currentContext := "ctx"
    contexts := [("ctx", some { cluster := "cl", authInfo := "admin" })]
    clusters := [("cl", some { server := "https://10.0.0.1" })]
    authInfos := [("admin", some { token := "t" })] }

/-- A tenant client on which every read succeeds and the creation of an event
is refused. -/
def exTenantClient : TenantClient :=
  { replicaSetsGet := fun _ name => Except.ok { meta := { name := name } }
    eventsCreate := fun _ _ => some (Errorf "events are forbidden")
    getSecret := fun ns _ => Except.ok { meta := { name := "default-token", ns := ns } }
    serviceAccountsGet := fun ns name =>
      Except.ok { meta := { name := name, ns := ns }, secrets := [{ name := "default-token" }] }
    secretsGet := fun ns name =>
      Except.ok { meta := { name := name, ns := ns }
                  type := "kubernetes.io/service-account-token"
                  data := [("token", "abc")] } }

/-- A multi-cluster controller that reaches the tenant cluster but does not
know its cluster domain. -/
def exMCNoDomain : MultiClusterController :=
  { exMC with
    GetClusterDomain := fun _ => Except.error (Errorf "cluster domain unknown")
    GetClusterClient := fun _ => Except.ok exTenantClient
    GetClusterClientConfig := fun _ => Except.ok { RawConfig := Except.ok exKubeConfig } }

/-- A pod controller with tenant-credential passthrough enabled: the host
cache holds no pod, the host secret is ready, the services are listed, every
host write succeeds, and the cluster domain of the tenant is unknown. -/
def exControllerPassthrough : controller :=
  { config := { DisableServiceAccountToken := false, EnableTenantKubeConfig := true
                TenantKubeConfigMountPath := "/etc/kubeconfig" }
    client := { exClient with getSecret := fun _ _ => Except.ok exReadySecret }
    podLister := fun _ _ => Except.error exNotFound
    serviceLister := fun ns => Except.ok [{ meta := { name := "kubernetes", ns := ns }
                                            clusterIP := "10.0.0.1" }]
    multiClusterPodController := exMCNoDomain }

/-- A pod controller without passthrough for a tenant cluster that is fully
known: the host cache holds no pod and every host write succeeds. -/
def exControllerCreate : controller :=
  { config := { DisableServiceAccountToken := false, EnableTenantKubeConfig := false
                TenantKubeConfigMountPath := "/etc/kubeconfig" }
    client := { exClient with getSecret := fun _ _ => Except.ok exReadySecret }
    podLister := fun _ _ => Except.error exNotFound
    serviceLister := fun ns => Except.ok [{ meta := { name := "kubernetes", ns := ns }
                                            clusterIP := "10.0.0.1" }]
    multiClusterPodController :=
      { exMCNoDomain with GetClusterDomain := fun _ => Except.ok "cluster.local" } }

/-- The controller `exControllerCreate` at a later time: the host cache still
holds no pod and the host API answers every pod creation with `AlreadyExists`. -/
def exControllerRedeliver : controller :=
  { exControllerCreate with
    client := { exControllerCreate.client with
      podsCreate := fun _ _ => some { reason := "AlreadyExists", msg := "pod exists" } } }

/-- The host pod that `reconcilePodCreate` makes of `exTenantPod`. -/
def exCreatedPod : Pod :=
  { meta := { name := "pod1", ns := "west-ns1" }
    spec := { hostAliases := [{ ip := "10.0.0.1"
                                hostnames := ["kubernetes", "kubernetes.default",
                                  "kubernetes.default.svc"] }] } }

/-- The tenant pod `ns1/pod1`. -/
def exTenantPod : Pod := { meta := { name := "pod1", ns := "ns1", uid := "v1" } }

/-- The tenant pod `ns1/pod1` pinned to node `n1`, not scheduled. -/
def exPinnedPod : Pod :=
  { meta := { name := "pod1", ns := "ns1", uid := "v1" }, spec := { nodeName := "n1" } }

/-- The tenant pod `ns1/pod1` marked for deletion with grace period 30. -/
def exDeletingPod : Pod :=
  { meta := { name := "pod1", ns := "ns1", uid := "v1", deletionTimestamp := some 100
              deletionGracePeriodSeconds := some 30 } }

/-- The tenant pod `ns1/pod1` marked for deletion without a grace period. -/
def exDeletingPodNoGrace : Pod :=
  { meta := { name := "pod1", ns := "ns1", uid := "v1", deletionTimestamp := some 100 } }

/-- A host claim that refers to cluster `west`, namespace `team-a`. -/
def exOrphanPVC : PersistentVolumeClaim :=
  { meta := { name := "c1", ns := "west-team-a", uid := "p1"
              labels := [("cluster", "west"), ("namespace", "team-a")] } }

/-- A host claim without back-reference. -/
def exForeignPVC : PersistentVolumeClaim :=
  { meta := { name := "c2", ns := "kube-system", uid := "p2" } }

/-- A second host claim that refers to cluster `west`, namespace `team-a`. -/
def exOrphanPVC2 : PersistentVolumeClaim :=
  { meta := { name := "c3", ns := "west-team-a", uid := "p3"
              labels := [("cluster", "west"), ("namespace", "team-a")] } }

/-- A claim controller for the tenant cluster `west`, which holds no claim; the
host cache holds three claims and every host delete is refused. -/
def exPVCController : pvcController :=
  { multiClusterPersistentVolumeClaimController := { exMC with GetClusterNames := ["west"] }
    pvcListerList := Except.ok [exOrphanPVC, exForeignPVC, exOrphanPVC2]
    pvcListerGet := fun _ _ => Except.error exNotFound
    pvcDelete := fun _ _ _ => some (Errorf "delete refused") }

/-- The tenant claim `team-a/data1`, which has no host claim. -/
def exTenantPVC1 : PersistentVolumeClaim := { meta := { name := "data1", ns := "team-a" } }

/-- The tenant claim `team-a/data2`, whose host claim exists and differs. -/
def exTenantPVC2 : PersistentVolumeClaim :=
  { meta := { name := "data2", ns := "team-a" }, spec := "10Gi" }

/-- The tenant claim `team-a/data3`, whose host lookup fails with another error. -/
def exTenantPVC3 : PersistentVolumeClaim := { meta := { name := "data3", ns := "team-a" } }

/-- The tenant claim `team-a/data4`, which has no host claim. -/
def exTenantPVC4 : PersistentVolumeClaim := { meta := { name := "data4", ns := "team-a" } }

/-- A claim controller for the tenant cluster `west` with four tenant claims;
the host cache holds only `west-team-a/data2`, the lookup of `data3` fails, and
every requeue is refused. -/
def exPVCControllerTenant : pvcController :=
  { multiClusterPersistentVolumeClaimController :=
      { exMC with
        GetClusterNames := ["west"]
        RequeueObject := fun _ _ _ => some (Errorf "queue closed")
        List := fun _ => Except.ok [exTenantPVC1, exTenantPVC2, exTenantPVC3, exTenantPVC4] }
    pvcListerList := Except.ok []
    pvcListerGet := fun ns name =>
      if ns = "west-team-a" ∧ name = "data2" then
        Except.ok { meta := { name := "data2", ns := "west-team-a" }, spec := "5Gi" }
      else if name = "data3" then Except.error (Errorf "cache is broken")
      else Except.error exNotFound
    pvcDelete := fun _ _ _ => none }

/-- Example collaborators whose claim comparison reports every difference of the specs. -/
def exExtDrift : Ext :=
  { exExt with
    CheckPVCEquality := fun pPVC vPVC =>
      if pPVC.spec = vPVC.spec then none else some { pPVC with spec := vPVC.spec } }

/-- A host pod draft with the token volume of the tenant service account, an
unrelated volume, and a container that mounts both and reads its own name. -/
def exDraftPod : Pod :=
  { meta := { name := "pod1", ns := "west-ns1" }
    spec :=
      { containers :=
          [{ name := "main"
             env := [{ name := "POD_NAME"
                       valueFrom := some { fieldRef := some { fieldPath := "metadata.name" } } }]
             volumeMounts := [{ name := "default-token", mountPath := "/var/run/secrets" },
                              { name := "data", mountPath := "/data" }] }]
        volumes := [{ name := "default-token", secret := some { secretName := "default-token" } },
                    { name := "data", other := some "emptyDir" }] } }

/-- The token secret of the tenant service account. -/
def exTenantSecret : Secret := { meta := { name := "default-token", ns := "ns1" } }

/-- The host secret that stands for `exTenantSecret`. -/
def exHostSecret : Secret := { meta := { name := "default-token-x7", ns := "west-ns1" } }

/-- Example collaborators whose pod comparison always proposes the host pod
with the spec of the tenant pod. -/
def exExtPatch : Ext :=
  { exExt with CheckPodEquality := fun pPod vPod => some { pPod with spec := vPod.spec } }

/-- The tenant pod `ns1/pod1`, running. -/
def exRunningPod : Pod :=
  { meta := { name := "pod1", ns := "ns1", uid := "v1" }, status := { phase := "Running" } }

/-- A pod controller whose host lookup fails with an error that is not not-found. -/
def exControllerBrokenCache : controller :=
  { exControllerHostPresent with podLister := fun _ _ => Except.error (Errorf "cache is broken") }

/-- A pod controller whose host API refuses every delete. -/
def exControllerNoDelete : controller :=
  { exControllerHostPresent with
    client := { exClient with podsDelete := fun _ _ _ => some (Errorf "delete refused") } }

/-- A tenant pod owned by the replica set `web-5d4`. -/
def exReplicaPod : Pod :=
  { meta := { name := "web-5d4-x", ns := "ns1", uid := "v2"
              ownerReferences := [{ kind := "ReplicaSet", name := "web-5d4", uid := "r1" }] } }

/-- A multi-cluster controller whose tenant cluster holds replica sets owned
by the deployment `web`. -/
def exMCDeployment : MultiClusterController :=
  { exMC with
    GetClusterClient := fun _ =>
      Except.ok { exTenantClient with
        replicaSetsGet := fun ns name =>
          Except.ok { meta := { name := name, ns := ns
                                ownerReferences :=
                                  [{ kind := "Deployment", name := "web", uid := "d1" }] } } } }

/-- The service `kubernetes` of the master-service namespace of cluster `west`. -/
def exMasterService : Service :=
  { meta := { name := "kubernetes", ns := "west-default" }, clusterIP := "10.0.0.1" }

/-- A service named `kubernetes` in the host namespace `west-ns1` of a tenant pod. -/
def exShadowService : Service :=
  { meta := { name := "kubernetes", ns := "west-ns1" }, clusterIP := "10.9.9.9" }

/-- A headless service of the master-service namespace of cluster `west`. -/
def exHeadlessService : Service :=
  { meta := { name := "kubernetes", ns := "west-default" }, clusterIP := "None" }

/-- Example collaborators whose `FromServices` gives one host variable for each service. -/
def exExtEnv : Ext :=
  { exExt with
    FromServices := fun services =>
      services.map (fun service =>
        { name := service.meta.name ++ "_SERVICE_HOST", value := service.clusterIP }) }

/-- A claim controller for the tenant clusters `west` and `east`, each of which
holds the claim `team-a/data1`; the host cache finds no claim by name and
lists the claim `exOrphanPVC`, which no tenant cluster answers for. -/
def exPVCControllerTwo : pvcController :=
  { multiClusterPersistentVolumeClaimController :=
      { exMC with
        GetClusterNames := ["west", "east"]
        List := fun _ => Except.ok [exTenantPVC1] }
    pvcListerList := Except.ok [exOrphanPVC]
    pvcListerGet := fun _ _ => Except.error exNotFound
    pvcDelete := fun _ _ _ => none }

/-- A schedule of a run of `checkPVCs` with two goroutines: both are started,
the main goroutine is picked twice while it is blocked at `wg.Wait()`, the
goroutines issue their calls and end, and the main goroutine goes on up to the
loop over the host claims. -/
def exSchedule : List Thread :=
  [Thread.main, Thread.main, Thread.task 0, Thread.main, Thread.main, Thread.main,
   Thread.task 1, Thread.task 0, Thread.main, Thread.task 1, Thread.main]

/-! ## Theorems -/

/-! ### `omitDuplicates` -/

theorem mem_keepFirstOccurrences (xs : List String) (s : String) :
    s ∈ keepFirstOccurrences xs ↔ s ∈ xs := by
  induction xs with
  | nil => simp [keepFirstOccurrences]
  | cons x xs ih =>
    simp only [keepFirstOccurrences, List.mem_cons, List.mem_filter, ih, decide_eq_true_eq]
    by_cases h : s = x <;> simp [h]

theorem nodup_keepFirstOccurrences (xs : List String) : (keepFirstOccurrences xs).Nodup := by
  induction xs with
  | nil => simp [keepFirstOccurrences]
  | cons x xs ih =>
    simp only [keepFirstOccurrences, List.nodup_cons, List.mem_filter, decide_eq_true_eq]
    exact ⟨fun h => h.2 rfl, ih.filter _⟩

theorem sublist_keepFirstOccurrences (xs : List String) :
    (keepFirstOccurrences xs).Sublist xs := by
  induction xs with
  | nil => simp [keepFirstOccurrences]
  | cons x xs ih =>
    simp only [keepFirstOccurrences]
    exact ((List.filter_sublist _).trans ih).cons₂ x

theorem keepFirstOccurrences_of_nodup (xs : List String) (h : xs.Nodup) :
    keepFirstOccurrences xs = xs := by
  induction xs with
  | nil => simp [keepFirstOccurrences]
  | cons x xs ih =>
    rw [List.nodup_cons] at h
    simp only [keepFirstOccurrences, ih h.2, List.cons.injEq, true_and]
    rw [List.filter_eq_self]
    intro y hy
    simp only [decide_eq_true_eq]
    rintro rfl
    exact h.1 hy

/-- The loop of `omitDuplicates`, started in a state whose set `seen` has the
members of `ret`, appends to `ret` the first occurrences that are not in it. -/
theorem omitDuplicates_loop (xs seen ret : List String) (hs : ∀ s, s ∈ seen ↔ s ∈ ret) :
    (xs.foldl
      (fun (st : List String × List String) (str : String) =>
        if !st.1.contains str then (str :: st.1, st.2 ++ [str]) else st)
      (seen, ret)).2 = ret ++ (keepFirstOccurrences xs).filter (fun y => decide (y ∉ ret)) := by
  induction xs generalizing seen ret with
  | nil => simp [keepFirstOccurrences]
  | cons x xs ih =>
    simp only [List.foldl_cons, keepFirstOccurrences]
    by_cases hx : x ∈ seen
    · have hxr : x ∈ ret := (hs x).1 hx
      have hc : (seen.contains x) = true := by
        simpa [List.contains, List.elem_eq_mem] using hx
      simp only [hc, Bool.not_true, Bool.false_eq_true, if_false]
      rw [ih seen ret hs, List.filter_cons]
      simp only [hxr, not_true_eq_false, decide_False, Bool.false_eq_true, if_false,
        List.filter_filter]
      congr 1
      apply List.filter_congr
      intro y _
      by_cases hy : y ∈ ret
      · simp [hy]
      · have : y ≠ x := fun h => hy (h ▸ hxr)
        simp [hy, this]
    · have hxr : x ∉ ret := fun h => hx ((hs x).2 h)
      have hc : (seen.contains x) = false := by
        simpa [List.contains, List.elem_eq_mem] using hx
      simp only [hc, Bool.not_false, if_true]
      rw [ih (x :: seen) (ret ++ [x]) (by
        intro s
        simp only [List.mem_cons, List.mem_append, List.mem_singleton, hs s]
        tauto), List.filter_cons]
      simp only [hxr, not_false_eq_true, decide_True, if_true, List.filter_filter,
        List.append_assoc, List.singleton_append]
      congr 2
      apply List.filter_congr
      intro y _
      simp only [List.mem_append, List.mem_singleton, not_or, Bool.decide_and]

theorem omitDuplicates_eq (xs : List String) : omitDuplicates xs = keepFirstOccurrences xs := by
  unfold omitDuplicates
  rw [omitDuplicates_loop xs [] [] (by simp)]
  simp

/-- Claim C4: `omitDuplicates` returns a list without repetition, with exactly
the strings of the input, in the order of their first occurrences (it is the
input with the later occurrences of every string removed, hence a sublist of
it); it returns a duplicate-free input unchanged and is idempotent. -/
theorem omitDuplicates_spec (strs : List String) :
    (omitDuplicates strs).Nodup ∧
    (∀ s, s ∈ omitDuplicates strs ↔ s ∈ strs) ∧
    omitDuplicates strs = keepFirstOccurrences strs ∧
    (omitDuplicates strs).Sublist strs ∧
    (strs.Nodup → omitDuplicates strs = strs) ∧
    omitDuplicates (omitDuplicates strs) = omitDuplicates strs := by
  refine ⟨?_, ?_, omitDuplicates_eq strs, ?_, ?_, ?_⟩
  · rw [omitDuplicates_eq]; exact nodup_keepFirstOccurrences strs
  · intro s; rw [omitDuplicates_eq]; exact mem_keepFirstOccurrences strs s
  · rw [omitDuplicates_eq]; exact sublist_keepFirstOccurrences strs
  · intro h; rw [omitDuplicates_eq]; exact keepFirstOccurrences_of_nodup strs h
  · rw [omitDuplicates_eq, omitDuplicates_eq]
    exact keepFirstOccurrences_of_nodup _ (nodup_keepFirstOccurrences strs)

/-- Claim C4 at the duplicate-free input `a, b, c`. -/
theorem omitDuplicates_spec_witness :
    ["a", "b", "c"].Nodup ∧ omitDuplicates ["a", "b", "c"] = ["a", "b", "c"] :=
  ⟨by decide, (omitDuplicates_spec ["a", "b", "c"]).2.2.2.2.1 (by decide)⟩

/-! ### `Mutate` -/

theorem Mutate_all_nil (ms : List PodMutator) (p : podMutateCtx)
    (h : ∀ j (hj : j < ms.length), (ms[j] (applyMutators p (ms.take j))).2 = Ret.nil) :
    p.Mutate ms = (applyMutators p ms, Ret.nil) := by
  induction ms generalizing p with
  | nil => rfl
  | cons m ms ih =>
    have h0 := h 0 (by simp)
    simp only [List.getElem_cons_zero, List.take_zero, applyMutators, List.foldl_nil] at h0
    have hm : m p = ((m p).1, Ret.nil) := Prod.ext rfl h0
    have ih1 := ih (m p).1 (fun j hj => by
      have := h (j + 1) (by simpa using hj)
      simpa [applyMutators] using this)
    simp only [podMutateCtx.Mutate]
    rw [hm]
    simpa [applyMutators] using ih1

theorem Mutate_first_err (ms : List PodMutator) (p : podMutateCtx) (k : Nat)
    (hk : k < ms.length) (e : Err)
    (hpre : ∀ j (hj : j < k), (ms[j] (applyMutators p (ms.take j))).2 = Ret.nil)
    (herr : (ms[k] (applyMutators p (ms.take k))).2 = Ret.err e) :
    p.Mutate ms = (applyMutators p (ms.take (k + 1)), Ret.err e) := by
  induction ms generalizing p k with
  | nil => simp at hk
  | cons m ms ih =>
    cases k with
    | zero =>
      simp only [List.getElem_cons_zero, List.take_zero, applyMutators, List.foldl_nil] at herr
      have hm : m p = ((m p).1, Ret.err e) := Prod.ext rfl herr
      simp only [podMutateCtx.Mutate]
      rw [hm]
      simp [applyMutators]
    | succ k =>
      have h0 := hpre 0 (by omega)
      simp only [List.getElem_cons_zero, List.take_zero, applyMutators, List.foldl_nil] at h0
      have hm : m p = ((m p).1, Ret.nil) := Prod.ext rfl h0
      have ih1 := ih (m p).1 k (by simpa using hk)
        (fun j hj => by
          have := hpre (j + 1) (by omega)
          simpa [applyMutators] using this)
        (by simpa [applyMutators] using herr)
      simp only [podMutateCtx.Mutate]
      rw [hm]
      simpa [applyMutators] using ih1

/-- Claim C1: `Mutate` applies the mutators in list order.  If mutator `k` is
the first to return an error `e`, `Mutate` returns `e` and the context is the
one left by the mutators `0..k` (no later mutator is applied); if every
mutator returns nil, `Mutate` returns nil and the context is the one left by
all of them; on the empty list it returns nil and leaves the context as it is. -/
theorem Mutate_spec (p : podMutateCtx) (ms : List PodMutator) :
    (∀ (k : Nat) (hk : k < ms.length) (e : Err),
      (∀ j (hj : j < k), (ms[j] (applyMutators p (ms.take j))).2 = Ret.nil) →
      (ms[k] (applyMutators p (ms.take k))).2 = Ret.err e →
      p.Mutate ms = (applyMutators p (ms.take (k + 1)), Ret.err e)) ∧
    ((∀ j (hj : j < ms.length), (ms[j] (applyMutators p (ms.take j))).2 = Ret.nil) →
      p.Mutate ms = (applyMutators p ms, Ret.nil)) ∧
    p.Mutate [] = (p, Ret.nil) :=
  ⟨fun k hk e hpre herr => Mutate_first_err ms p k hk e hpre herr,
   fun h => Mutate_all_nil ms p h, rfl⟩

/-- Claim C1 on three mutators of which the second fails: the error of the
second is returned and the third has left no trace; and on two mutators that
both return nil: both are applied, the second last, and nil is returned. -/
theorem Mutate_spec_witness :
    ((exCtx.Mutate [exMutOk, exMutFail, exMutLate]).2 = Ret.err (Errorf "boom") ∧
      (exCtx.Mutate [exMutOk, exMutFail, exMutLate]).1.pPod.spec.subdomain = "a" ∧
      (exCtx.Mutate [exMutOk, exMutFail, exMutLate]).1.pPod.spec.nodeName = "n") ∧
    ((exCtx.Mutate [exMutOk, exMutLate]).2 = Ret.nil ∧
      (exCtx.Mutate [exMutOk, exMutLate]).1.pPod.spec.subdomain = "b") := by
  have h := (Mutate_spec exCtx [exMutOk, exMutFail, exMutLate]).1 1 (by decide) (Errorf "boom")
    (fun j hj => by
      have hj0 : j = 0 := by omega
      subst hj0
      rfl)
    rfl
  have h2 := (Mutate_spec exCtx [exMutOk, exMutLate]).2.1
    (fun j hj => by
      have hj2 : j = 0 ∨ j = 1 := by
        simp only [List.length_cons, List.length_nil] at hj
        omega
      rcases hj2 with rfl | rfl <;> rfl)
  rw [h, h2]
  exact ⟨⟨rfl, rfl, rfl⟩, rfl, rfl⟩

/-! ### `mutateContainerEnv` -/

theorem mutateDownwardAPIField_name (env : EnvVar) (vPod : Pod) :
    (mutateDownwardAPIField env vPod).name = env.name := by
  unfold mutateDownwardAPIField
  split
  · rfl
  · split
    · rfl
    · split
      · rfl
      · dsimp only
        split_ifs <;> rfl

/-- The second loop of `mutateContainerEnv` appends, in the order of the
visit, the entries whose key is not in `names`. -/
theorem appendServiceEnv_loop (names : List String) (m : List (String × String))
    (c1 : Container) :
    m.foldl
      (fun (c2 : Container) (kv : String × String) =>
        if !names.contains kv.1 then
          { c2 with env := c2.env ++ [{ name := kv.1, value := kv.2 }] }
        else c2)
      c1 =
    { c1 with
      env := c1.env ++
        (m.filter (fun kv => decide (kv.1 ∉ names))).map
          (fun kv => ({ name := kv.1, value := kv.2 } : EnvVar)) } := by
  induction m generalizing c1 with
  | nil => simp
  | cons kv m ih =>
    simp only [List.foldl_cons]
    by_cases hk : kv.1 ∈ names
    · have hc : names.contains kv.1 = true := by
        simpa [List.contains, List.elem_eq_mem] using hk
      simp only [hc, Bool.not_true, Bool.false_eq_true, if_false]
      rw [ih c1, List.filter_cons]
      simp [hk]
    · have hc : names.contains kv.1 = false := by
        simpa [List.contains, List.elem_eq_mem] using hk
      simp only [hc, Bool.not_false, if_true]
      rw [ih, List.filter_cons]
      simp [hk]

theorem mutateContainerEnv_env (c : Container) (vPod : Pod)
    (serviceEnvMap : List (String × String)) :
    mutateContainerEnv c vPod serviceEnvMap =
      { c with
        env := c.env.map (fun env => mutateDownwardAPIField env vPod) ++
          (serviceEnvMap.filter (fun kv => decide (kv.1 ∉ c.env.map (fun env => env.name)))).map
            (fun kv => ({ name := kv.1, value := kv.2 } : EnvVar)) } := by
  unfold mutateContainerEnv
  simp only [appendServiceEnv_loop]

/-- In a map (pairwise distinct keys) the entries with the key of an entry
`kv` are `kv` alone. -/
theorem filter_key_of_nodup (m : List (String × String)) (hm : (m.map Prod.fst).Nodup)
    (kv : String × String) (hkv : kv ∈ m) :
    m.filter (fun x => decide (x.1 = kv.1)) = [kv] := by
  induction m with
  | nil => simp at hkv
  | cons a m ih =>
    simp only [List.map_cons, List.nodup_cons, List.mem_map, not_exists, not_and] at hm
    rw [List.filter_cons]
    rcases List.mem_cons.1 hkv with h | h
    · subst h
      simp only [decide_True, if_true, List.cons.injEq, true_and]
      rw [List.filter_eq_nil_iff]
      intro x hx
      simp only [decide_eq_true_eq]
      exact hm.1 x hx
    · have hne : ¬ a.1 = kv.1 := fun h1 => hm.1 kv h h1.symm
      simp only [hne, decide_False, Bool.false_eq_true, if_false]
      exact ih hm.2 h

/-- Claim C2: after `mutateContainerEnv` the declared variables stand at their
positions under their names, touched only by the downward-API rewrite and
never by the service map; a map key that is a declared name is not added; a
map key that is not a declared name is appended exactly once with the value of
the map; a container that declares `MY_VAR=user` once ends with exactly one
`MY_VAR`, of value `user`, whatever the map holds. -/
theorem mutateContainerEnv_spec (c : Container) (vPod : Pod)
    (serviceEnvMap : List (String × String)) (hmap : (serviceEnvMap.map Prod.fst).Nodup) :
    -- the declared variables keep their positions and names
    (∀ i (hi : i < c.env.length),
      (mutateContainerEnv c vPod serviceEnvMap).env[i]? =
        some (mutateDownwardAPIField c.env[i] vPod) ∧
      (mutateDownwardAPIField c.env[i] vPod).name = c.env[i].name) ∧
    -- what follows them is taken from the map, and none of it has a declared name
    (mutateContainerEnv c vPod serviceEnvMap).env.drop c.env.length =
      (serviceEnvMap.filter (fun kv => decide (kv.1 ∉ c.env.map (fun env => env.name)))).map
        (fun kv => ({ name := kv.1, value := kv.2 } : EnvVar)) ∧
    (∀ e ∈ (mutateContainerEnv c vPod serviceEnvMap).env.drop c.env.length,
      e.name ∉ c.env.map (fun env => env.name)) ∧
    -- a key that is not declared is present exactly once, with the value of the map
    (∀ kv ∈ serviceEnvMap, kv.1 ∉ c.env.map (fun env => env.name) →
      (mutateContainerEnv c vPod serviceEnvMap).env.filter (fun e => decide (e.name = kv.1)) =
        [{ name := kv.1, value := kv.2 }]) ∧
    -- the user-declared `MY_VAR` wins
    (c.env.filter (fun e => decide (e.name = "MY_VAR")) = [{ name := "MY_VAR", value := "user" }] →
      (mutateContainerEnv c vPod serviceEnvMap).env.filter (fun e => decide (e.name = "MY_VAR")) =
        [{ name := "MY_VAR", value := "user" }]) ∧
    -- nothing else of the container changes
    (mutateContainerEnv c vPod serviceEnvMap).name = c.name ∧
    (mutateContainerEnv c vPod serviceEnvMap).volumeMounts = c.volumeMounts := by
  rw [mutateContainerEnv_env]
  dsimp only
  have hnames : ∀ (l : List EnvVar) (k : String), k ∉ l.map (fun env => env.name) →
      (l.map (fun env => mutateDownwardAPIField env vPod)).filter
        (fun e => decide (e.name = k)) = [] := by
    intro l k hk
    rw [List.filter_eq_nil_iff]
    intro e he
    obtain ⟨e0, he0, rfl⟩ := List.mem_map.1 he
    simp only [decide_eq_true_eq, mutateDownwardAPIField_name]
    intro h
    exact hk (List.mem_map.2 ⟨e0, he0, h⟩)
  refine ⟨?_, ?_, ?_, ?_, ?_, rfl, rfl⟩
  · intro i hi
    refine ⟨?_, mutateDownwardAPIField_name _ _⟩
    rw [List.getElem?_append_left (by simpa using hi)]
    simp [List.getElem?_eq_getElem hi]
  · rw [List.drop_append_of_le_length (by simp)]
    simp
  · have hdrop : List.drop c.env.length
        (c.env.map (fun env => mutateDownwardAPIField env vPod) ++
          (serviceEnvMap.filter
            (fun kv => decide (kv.1 ∉ c.env.map (fun env => env.name)))).map
            (fun kv => ({ name := kv.1, value := kv.2 } : EnvVar))) =
        (serviceEnvMap.filter
            (fun kv => decide (kv.1 ∉ c.env.map (fun env => env.name)))).map
            (fun kv => ({ name := kv.1, value := kv.2 } : EnvVar)) := by
      rw [List.drop_append_of_le_length (by simp)]
      simp
    rw [hdrop]
    intro e he
    obtain ⟨kv, hkv, rfl⟩ := List.mem_map.1 he
    have := (List.mem_filter.1 hkv).2
    simpa using this
  · intro kv hkv hk
    rw [List.filter_append, hnames c.env kv.1 hk, List.nil_append, List.filter_map]
    have : (List.filter ((fun e => decide (e.name = kv.1)) ∘
        fun kv => ({ name := kv.1, value := kv.2 } : EnvVar))
        (List.filter (fun kv => decide (kv.1 ∉ c.env.map (fun env => env.name)))
          serviceEnvMap)) = [kv] := by
      rw [List.filter_filter]
      have h1 : serviceEnvMap.filter (fun x => decide (x.1 = kv.1)) = [kv] :=
        filter_key_of_nodup serviceEnvMap hmap kv hkv
      rw [← h1]
      apply List.filter_congr
      intro x _
      by_cases hx : x.1 = kv.1
      · simp [hx, hk]
      · simp [hx]
    rw [this]
    rfl
  · intro hdecl
    have hin : "MY_VAR" ∈ c.env.map (fun env => env.name) := by
      have : ({ name := "MY_VAR", value := "user" } : EnvVar) ∈
          c.env.filter (fun e => decide (e.name = "MY_VAR")) := by
        rw [hdecl]; simp
      exact List.mem_map.2 ⟨_, (List.mem_filter.1 this).1, rfl⟩
    rw [List.filter_append]
    have h2 : ((serviceEnvMap.filter
        (fun kv => decide (kv.1 ∉ c.env.map (fun env => env.name)))).map
        (fun kv => ({ name := kv.1, value := kv.2 } : EnvVar))).filter
        (fun e => decide (e.name = "MY_VAR")) = [] := by
      rw [List.filter_eq_nil_iff]
      intro e he
      obtain ⟨kv, hkv, rfl⟩ := List.mem_map.1 he
      have := (List.mem_filter.1 hkv).2
      simp only [decide_eq_true_eq] at this ⊢
      intro h
      exact this (h ▸ hin)
    rw [h2, List.append_nil]
    -- the rewrite of the first loop keeps a variable that has no `valueFrom`
    have h3 : ∀ l : List EnvVar,
        l.filter (fun e => decide (e.name = "MY_VAR")) = [{ name := "MY_VAR", value := "user" }] →
        (l.map (fun env => mutateDownwardAPIField env vPod)).filter
          (fun e => decide (e.name = "MY_VAR")) = [{ name := "MY_VAR", value := "user" }] := by
      intro l
      induction l with
      | nil => simp
      | cons a l ih =>
        intro h
        rw [List.map_cons, List.filter_cons]
        rw [List.filter_cons] at h
        simp only [mutateDownwardAPIField_name]
        by_cases ha : a.name = "MY_VAR"
        · simp only [ha, decide_True, if_true, List.cons.injEq] at h ⊢
          obtain ⟨h1, h2⟩ := h
          refine ⟨?_, ?_⟩
          · subst h1; rfl
          · have hl : ∀ x ∈ l, ¬ x.name = "MY_VAR" := by
              intro x hx
              have := List.filter_eq_nil_iff.1 h2 x hx
              simpa using this
            rw [List.filter_eq_nil_iff]
            intro x hx
            obtain ⟨x0, hx0, rfl⟩ := List.mem_map.1 hx
            simpa [mutateDownwardAPIField_name] using hl x0 hx0
        · simp only [ha, decide_False, Bool.false_eq_true, if_false] at h ⊢
          exact ih h
    exact h3 c.env hdecl

/-- Claim C2 for a container that declares `MY_VAR=user` and `POD` and a
service map that defines `MY_VAR` and `KUBERNETES_SERVICE_HOST`. -/
theorem mutateContainerEnv_spec_witness :
    (([("MY_VAR", "svc"), ("KUBERNETES_SERVICE_HOST", "10.0.0.1")] :
        List (String × String)).map Prod.fst).Nodup ∧
    (mutateContainerEnv
        { env := [{ name := "MY_VAR", value := "user" }, { name := "POD", value := "p" }] } {}
        [("MY_VAR", "svc"), ("KUBERNETES_SERVICE_HOST", "10.0.0.1")]).env.filter
      (fun e => decide (e.name = "MY_VAR")) = [{ name := "MY_VAR", value := "user" }] :=
  ⟨by decide,
   (mutateContainerEnv_spec
      { env := [{ name := "MY_VAR", value := "user" }, { name := "POD", value := "p" }] } {}
      [("MY_VAR", "svc"), ("KUBERNETES_SERVICE_HOST", "10.0.0.1")] (by decide)).2.2.2.2.1
      (by decide)⟩

/-! ### `mutateDNSConfig` -/

theorem clusterSearches_nodup (ns domain : String) : (clusterSearches ns domain).Nodup := by
  unfold clusterSearches
  split_ifs with h
  · simp
  · have h1 : ns ++ ".svc." ++ domain ≠ "svc." ++ domain := by
      intro he
      have := congrArg String.length he
      simp only [String.length_append] at this
      have h5 : ".svc.".length = 5 := by decide
      have h4 : "svc.".length = 4 := by decide
      omega
    have h2 : ns ++ ".svc." ++ domain ≠ domain := by
      intro he
      have := congrArg String.length he
      simp only [String.length_append] at this
      have h5 : ".svc.".length = 5 := by decide
      omega
    have h3 : "svc." ++ domain ≠ domain := by
      intro he
      have := congrArg String.length he
      simp only [String.length_append] at this
      have h4 : "svc.".length = 4 := by decide
      omega
    simp [h1, h2, h3]

theorem mutateClusterFirstDNS_spec (p : podMutateCtx) (vPod : Pod)
    (clusterDomain nameServer : String) (hns : nameServer ≠ "") :
    (mutateClusterFirstDNS p vPod clusterDomain nameServer).pPod.spec.dnsPolicy = DNSNone ∧
    (mutateClusterFirstDNS p vPod clusterDomain nameServer).pPod.spec.dnsConfig =
      some
        { nameservers :=
            keepFirstOccurrences (existingNameservers p.pPod.spec.dnsConfig ++ [nameServer])
          searches :=
            keepFirstOccurrences
              (existingSearches p.pPod.spec.dnsConfig ++ clusterSearches vPod.meta.ns clusterDomain)
          options := [{ name := "ndots", value := some "5" }] } := by
  unfold mutateClusterFirstDNS
  simp only [hns, if_false]
  refine ⟨trivial, ?_⟩
  cases hcfg : p.pPod.spec.dnsConfig with
  | none =>
    have hs := keepFirstOccurrences_of_nodup _ (clusterSearches_nodup vPod.meta.ns clusterDomain)
    simp only [existingNameservers, existingSearches, List.nil_append, hs]
    by_cases hd : clusterDomain = "" <;>
      simp [hd, clusterSearches, keepFirstOccurrences]
  | some existing =>
    simp only [existingNameservers, existingSearches, omitDuplicates_eq]
    by_cases hd : clusterDomain = "" <;> simp [hd, clusterSearches]

/-- Claim C3: for a pod with policy `ClusterFirstWithHostNet`, or `ClusterFirst`
without host network, and a non-empty `nameServer`, `mutateDNSConfig` sets the
policy to `None` and the DNS configuration to: the existing nameservers followed
by `nameServer`, first occurrences kept (`[nameServer]` without an existing
configuration); the existing searches followed by the three cluster domains
(only for a non-empty cluster domain), first occurrences kept; the single
option `ndots=5`.  With domain `cluster.local`, namespace `ns1` and existing
searches `[ns1.svc.cluster.local]` the searches are exactly
`[ns1.svc.cluster.local, svc.cluster.local, cluster.local]`. -/
theorem mutateDNSConfig_clusterFirst (p : podMutateCtx) (vPod : Pod)
    (clusterDomain nameServer : String)
    (hpol : p.pPod.spec.dnsPolicy = DNSClusterFirstWithHostNet ∨
      (p.pPod.spec.dnsPolicy = DNSClusterFirst ∧ p.pPod.spec.hostNetwork = false))
    (hns : nameServer ≠ "") :
    (mutateDNSConfig p vPod clusterDomain nameServer).pPod.spec.dnsPolicy = DNSNone ∧
    (∃ cfg, (mutateDNSConfig p vPod clusterDomain nameServer).pPod.spec.dnsConfig = some cfg ∧
      cfg.nameservers =
        keepFirstOccurrences (existingNameservers p.pPod.spec.dnsConfig ++ [nameServer]) ∧
      (p.pPod.spec.dnsConfig = none → cfg.nameservers = [nameServer]) ∧
      cfg.searches =
        keepFirstOccurrences
          (existingSearches p.pPod.spec.dnsConfig ++ clusterSearches vPod.meta.ns clusterDomain) ∧
      cfg.options = [{ name := "ndots", value := some "5" }] ∧
      (clusterDomain = "cluster.local" → vPod.meta.ns = "ns1" →
        existingSearches p.pPod.spec.dnsConfig = ["ns1.svc.cluster.local"] →
        cfg.searches = ["ns1.svc.cluster.local", "svc.cluster.local", "cluster.local"])) := by
  have hmut : mutateDNSConfig p vPod clusterDomain nameServer =
      mutateClusterFirstDNS p vPod clusterDomain nameServer := by
    unfold mutateDNSConfig
    rcases hpol with h | ⟨h, hh⟩
    · simp [h, DNSNone, DNSClusterFirstWithHostNet]
    · simp [h, hh, DNSNone, DNSClusterFirstWithHostNet, DNSClusterFirst]
  rw [hmut]
  obtain ⟨h1, h2⟩ := mutateClusterFirstDNS_spec p vPod clusterDomain nameServer hns
  refine ⟨h1, ⟨_, h2, ?_, ?_, ?_, ?_, ?_⟩⟩
  · rfl
  · intro hnone
    simp [hnone, existingNameservers, keepFirstOccurrences]
  · rfl
  · rfl
  · intro hd hn he
    simp only [hd, hn, he]
    decide

/-- Claim C3 on the pod of the example: policy `ClusterFirst`, no host network,
existing searches `[ns1.svc.cluster.local]`, name server `10.0.0.10`. -/
theorem mutateDNSConfig_clusterFirst_witness :
    (mutateDNSConfig
      { exCtx with pPod := { spec := { dnsPolicy := "ClusterFirst"
                                       dnsConfig := some { searches := ["ns1.svc.cluster.local"] } } } }
      { meta := { ns := "ns1" } } "cluster.local" "10.0.0.10").pPod.spec.dnsPolicy = "None" ∧
    (mutateDNSConfig
      { exCtx with pPod := { spec := { dnsPolicy := "ClusterFirst"
                                       dnsConfig := some { searches := ["ns1.svc.cluster.local"] } } } }
      { meta := { ns := "ns1" } } "cluster.local" "10.0.0.10").pPod.spec.dnsConfig =
      some { nameservers := ["10.0.0.10"]
             searches := ["ns1.svc.cluster.local", "svc.cluster.local", "cluster.local"]
             options := [{ name := "ndots", value := some "5" }] } := by
  obtain ⟨h1, cfg, h2, h3, _, h4, h5, h6⟩ := mutateDNSConfig_clusterFirst
    { exCtx with pPod := { spec := { dnsPolicy := "ClusterFirst"
                                     dnsConfig := some { searches := ["ns1.svc.cluster.local"] } } } }
    { meta := { ns := "ns1" } } "cluster.local" "10.0.0.10"
    (Or.inr ⟨rfl, rfl⟩) (by decide)
  refine ⟨h1, ?_⟩
  rw [h2]
  have h3' : cfg.nameservers = ["10.0.0.10"] := by rw [h3]; decide
  have h6' := h6 rfl rfl rfl
  cases cfg
  simp only at h3' h5 h6'
  simp [h3', h5, h6']

/-! ### `reconcilePodUpdate`: deletion of the host pod -/

/-- Claim C9, as amended: for an Update with the host pod in the cache and the
tenant pod marked for deletion, a host pod that already has a deletion
timestamp gives no call and nil; otherwise, when the tenant pod carries a
grace period, exactly one host delete is issued for the mapped namespace and
the name, with that grace period and the UID of the cached host pod as
precondition, and the outcome is nil when the delete succeeds or answers
not-found and the error of the delete otherwise.  In both cases the outcome
does not depend on the equality checker and no update is issued. -/
theorem reconcilePodUpdate_deleting (c : controller) (ext : Ext) (cluster ns name : String)
    (vPod pPod : Pod)
    (hhost : c.podLister (ext.ToSuperMasterNamespace cluster ns) name = Except.ok pPod)
    (hdel : vPod.meta.deletionTimestamp ≠ none) :
    (pPod.meta.deletionTimestamp ≠ none →
      reconcilePodUpdate c ext cluster ns name vPod = ([], Ret.nil)) ∧
    (∀ grace, pPod.meta.deletionTimestamp = none →
      vPod.meta.deletionGracePeriodSeconds = some grace →
      (reconcilePodUpdate c ext cluster ns name vPod).1 =
        [Call.hostPodDelete (ext.ToSuperMasterNamespace cluster ns) name
          { gracePeriodSeconds := some grace, preconditions := some { uid := some pPod.meta.uid },
            propagationPolicy := none }
          (c.client.podsDelete (ext.ToSuperMasterNamespace cluster ns) name
            { gracePeriodSeconds := some grace
              preconditions := some { uid := some pPod.meta.uid }
              propagationPolicy := none })] ∧
      (c.client.podsDelete (ext.ToSuperMasterNamespace cluster ns) name
          { gracePeriodSeconds := some grace, preconditions := some { uid := some pPod.meta.uid },
            propagationPolicy := none } = none →
        (reconcilePodUpdate c ext cluster ns name vPod).2 = Ret.nil) ∧
      (∀ e, c.client.podsDelete (ext.ToSuperMasterNamespace cluster ns) name
          { gracePeriodSeconds := some grace, preconditions := some { uid := some pPod.meta.uid },
            propagationPolicy := none } = some e →
        (reconcilePodUpdate c ext cluster ns name vPod).2 =
          if e.reason = "NotFound" then Ret.nil else Ret.err e)) ∧
    (∀ check : Pod → Pod → Option Pod,
      reconcilePodUpdate c { ext with CheckPodEquality := check } cluster ns name vPod =
        reconcilePodUpdate c ext cluster ns name vPod) ∧
    (∀ n p r, Call.hostPodUpdate n p r ∉ (reconcilePodUpdate c ext cluster ns name vPod).1) := by
  refine ⟨?_, ?_, ?_, ?_⟩
  · intro hp
    simp [reconcilePodUpdate, hhost, hdel, hp]
  · intro grace hp hg
    refine ⟨?_, ?_, ?_⟩
    · simp only [reconcilePodUpdate, hhost, hdel, hp, hg, NewDeleteOptions, NewUIDPreconditions,
        ne_eq, not_false_eq_true, not_true_eq_false, if_true, if_false]
      split_ifs <;> rfl
    · intro hnone
      simp [reconcilePodUpdate, hhost, hdel, hp, hg, NewDeleteOptions, NewUIDPreconditions,
        hnone, IsNotFound, Ret.ofErr]
    · intro e he
      simp only [reconcilePodUpdate, hhost, hdel, hp, hg, NewDeleteOptions, NewUIDPreconditions,
        he, IsNotFound, Ret.ofErr, ne_eq, not_false_eq_true, not_true_eq_false, if_true,
        if_false, beq_iff_eq]
      by_cases hr : e.reason = "NotFound" <;> simp [hr]
  · intro check
    simp only [reconcilePodUpdate, hhost, hdel, ne_eq, not_false_eq_true, if_true]
  · intro n p r
    simp only [reconcilePodUpdate, hhost, hdel, ne_eq, not_false_eq_true, if_true]
    by_cases hp : pPod.meta.deletionTimestamp = none
    · cases hg : vPod.meta.deletionGracePeriodSeconds with
      | none => simp [hp]
      | some grace =>
        simp only [hp, not_true_eq_false, if_false]
        split_ifs <;> simp
    · simp [hp]

/-- Claim C9, as amended, on the tenant pod `ns1/pod1` marked for deletion
with grace period 30 while the host cache holds `west-ns1/pod1` with UID `u1`. -/
theorem reconcilePodUpdate_deleting_witness :
    reconcilePodUpdate exControllerHostPresent exExt "west" "ns1" "pod1" exDeletingPod =
      ([Call.hostPodDelete "west-ns1" "pod1"
          { gracePeriodSeconds := some 30, preconditions := some { uid := some "u1" } } none],
        Ret.nil) := by
  obtain ⟨_, h, _, _⟩ := reconcilePodUpdate_deleting exControllerHostPresent exExt "west" "ns1"
    "pod1" exDeletingPod exHostPod rfl (by decide)
  obtain ⟨h1, h2, _⟩ := h 30 rfl rfl
  exact Prod.ext h1 (h2 rfl)

/-- Claim C9 fails as stated: for a tenant pod marked for deletion whose
`DeletionGracePeriodSeconds` is nil, with a host pod in the cache that is not
terminating, `reconcilePodUpdate` dereferences the nil pointer: it issues no
delete and returns neither nil nor an error. -/
theorem reconcilePodUpdate_deleting_no_grace :
    exControllerHostPresent.podLister (exExt.ToSuperMasterNamespace "west" "ns1") "pod1" =
      Except.ok exHostPod ∧
    exDeletingPodNoGrace.meta.deletionTimestamp ≠ none ∧
    exHostPod.meta.deletionTimestamp = none ∧
    reconcilePodUpdate exControllerHostPresent exExt "west" "ns1" "pod1" exDeletingPodNoGrace =
      ([], Ret.panic) := by
  refine ⟨rfl, by decide, rfl, ?_⟩
  rfl

/-! ### `reconcilePodRemove` -/

/-- Claim C8 at the Delete path: the only call of `reconcilePodRemove` is a host
delete whose options carry the propagation policy and no precondition, whatever
the host cache holds; so the request for `west-ns1/pod1` below would also
remove a pod recreated under that name with the new UID `u1`. -/
theorem reconcilePodRemove_no_precondition :
    (∀ (c : controller) (ext : Ext) (cluster ns name : String) (vPod : Pod),
      (reconcilePodRemove c ext cluster ns name vPod).1 =
        [Call.hostPodDelete (ext.ToSuperMasterNamespace cluster ns) name
          { gracePeriodSeconds := none, preconditions := none
            propagationPolicy := some ext.consts.DefaultDeletionPolicy }
          (c.client.podsDelete (ext.ToSuperMasterNamespace cluster ns) name
            { gracePeriodSeconds := none, preconditions := none
              propagationPolicy := some ext.consts.DefaultDeletionPolicy })]) ∧
    exControllerHostPresent.podLister "west-ns1" "pod1" = Except.ok exHostPod ∧
    reconcilePodRemove exControllerHostPresent exExt "west" "ns1" "pod1"
        { meta := { name := "pod1", ns := "ns1", uid := "v0" } } =
      ([Call.hostPodDelete "west-ns1" "pod1"
          { gracePeriodSeconds := none, preconditions := none
            propagationPolicy := some "Background" } none], Ret.nil) := by
  refine ⟨?_, rfl, rfl⟩
  intro c ext cluster ns name vPod
  simp only [reconcilePodRemove]
  split_ifs <;> rfl

/-! ### `checkPVCs`: the orphan sweep -/

theorem checkPVCsSweep_loop (c : pvcController) (ext : Ext) (pPVCs : List PersistentVolumeClaim)
    (log : List Call) :
    pPVCs.foldl (fun log pPVC => log ++ checkPVCsStep c ext pPVC) log =
      log ++ (pPVCs.map (checkPVCsStep c ext)).flatten := by
  induction pPVCs generalizing log with
  | nil => simp
  | cons pPVC pPVCs ih => simp [ih]

theorem checkPVCsStep_eq (c : pvcController) (ext : Ext) (pPVC : PersistentVolumeClaim) :
    checkPVCsStep c ext pPVC =
      if isOrphan c ext pPVC then
        [Call.hostPVCDelete pPVC.meta.ns pPVC.meta.name
          { preconditions := some { uid := some pPVC.meta.uid } }
          (c.pvcDelete pPVC.meta.ns pPVC.meta.name
            { preconditions := some { uid := some pPVC.meta.uid } })]
      else [] := by
  unfold checkPVCsStep isOrphan
  by_cases h1 : (ext.GetVirtualOwner pPVC).1 = ""
  · simp [h1]
  · by_cases h2 : (ext.GetVirtualOwner pPVC).2 = ""
    · simp [h2]
    · have h1' : ¬ (ext.GetVirtualOwner pPVC).1.length = 0 := by
        intro h
        exact h1 (String.ext (List.length_eq_zero.1 h))
      have h2' : ¬ (ext.GetVirtualOwner pPVC).2.length = 0 := by
        intro h
        exact h2 (String.ext (List.length_eq_zero.1 h))
      simp only [h1', h2', or_self, if_false, h1, h2, ne_eq, not_false_eq_true, decide_True,
        Bool.true_and, NewPreconditionDeleteOptions]

/-- Claim C10: the orphan sweep of `checkPVCs` examines every host claim of the
list and issues a delete exactly for those whose back-reference names a
cluster and a namespace and whose tenant lookup answers not-found; a claim
whose tenant claim is found, whose lookup fails otherwise or that has no
back-reference gives no call; each delete targets the namespace and name of
the host claim with its UID as precondition; the answer of a delete has no
influence on the claims examined after it. -/
theorem checkPVCs_orphan_sweep (c : pvcController) (ext : Ext) :
    (∀ pPVCs : List PersistentVolumeClaim,
      checkPVCsSweep c ext pPVCs =
        (pPVCs.filter (isOrphan c ext)).map (fun pPVC =>
          Call.hostPVCDelete pPVC.meta.ns pPVC.meta.name
            { preconditions := some { uid := some pPVC.meta.uid } }
            (c.pvcDelete pPVC.meta.ns pPVC.meta.name
              { preconditions := some { uid := some pPVC.meta.uid } }))) ∧
    (∀ pPVC : PersistentVolumeClaim,
      isOrphan c ext pPVC = true ↔
        (ext.GetVirtualOwner pPVC).1 ≠ "" ∧ (ext.GetVirtualOwner pPVC).2 ≠ "" ∧
        ∃ e, c.multiClusterPersistentVolumeClaimController.Get (ext.GetVirtualOwner pPVC).1
            (ext.GetVirtualOwner pPVC).2 pPVC.meta.name = Except.error e ∧
          e.reason = "NotFound") ∧
    (∀ (rt : GoRuntime) (pPVCs : List PersistentVolumeClaim),
      c.multiClusterPersistentVolumeClaimController.GetClusterNames ≠ [] →
      c.pvcListerList = Except.ok pPVCs →
      checkPVCs c ext rt =
        rt.schedule (c.multiClusterPersistentVolumeClaimController.GetClusterNames.map
          (fun clusterName => checkPVCOfTenantCluster c ext clusterName)) ++
        checkPVCsSweep c ext pPVCs) := by
  refine ⟨?_, ?_, ?_⟩
  · intro pPVCs
    unfold checkPVCsSweep
    rw [checkPVCsSweep_loop, List.nil_append]
    induction pPVCs with
    | nil => rfl
    | cons pPVC pPVCs ih =>
      rw [List.map_cons, List.flatten_cons, ih, checkPVCsStep_eq, List.filter_cons]
      by_cases h : isOrphan c ext pPVC = true <;> simp [h]
  · intro pPVC
    unfold isOrphan
    cases hget : c.multiClusterPersistentVolumeClaimController.Get (ext.GetVirtualOwner pPVC).1
        (ext.GetVirtualOwner pPVC).2 pPVC.meta.name with
    | error e => simp [errOf, IsNotFound, and_assoc]
    | ok v => simp [errOf, IsNotFound]
  · intro rt pPVCs hnames hlist
    have hlen : ¬ c.multiClusterPersistentVolumeClaimController.GetClusterNames.length = 0 := by
      intro h
      exact hnames (List.length_eq_zero.1 h)
    simp only [checkPVCs, hlen, if_false, hlist]

/-- Claim C10 on three host claims and a host API that refuses every delete:
the first and the third are orphans and both deletes are issued, the second
has no back-reference and is left alone. -/
theorem checkPVCs_orphan_sweep_witness :
    checkPVCs exPVCController exExt exRt =
      [Call.hostPVCDelete "west-team-a" "c1" { preconditions := some { uid := some "p1" } }
         (some (Errorf "delete refused")),
       Call.hostPVCDelete "west-team-a" "c3" { preconditions := some { uid := some "p3" } }
         (some (Errorf "delete refused"))] := by
  rw [(checkPVCs_orphan_sweep exPVCController exExt).2.2 exRt
    [exOrphanPVC, exForeignPVC, exOrphanPVC2] (by decide) rfl]
  rfl

/-! ### The mutators keep the name of the draft pod -/

theorem mutateDNSConfig_meta (p : podMutateCtx) (vPod : Pod) (clusterDomain nameServer : String) :
    (mutateDNSConfig p vPod clusterDomain nameServer).pPod.meta = p.pPod.meta := by
  unfold mutateDNSConfig mutateClusterFirstDNS
  dsimp only
  split_ifs <;> rfl

theorem PodMutateDefault_meta (ext : Ext) (rt : GoRuntime) (vPod : Pod)
    (vSASecret SASecret : Secret) (services : List Service) (nameServer : String)
    (p : podMutateCtx) :
    (PodMutateDefault ext rt vPod vSASecret SASecret services nameServer p).1.pPod.meta =
      p.pPod.meta := by
  unfold PodMutateDefault
  dsimp only
  split_ifs
  · rfl
  · split
    · rfl
    · split_ifs <;> simp [mutateDNSConfig_meta]

theorem PodAddExtensionMeta_name (ext : Ext) (vPod : Pod) (p : podMutateCtx) :
    (PodAddExtensionMeta ext vPod p).1.pPod.meta.name = p.pPod.meta.name := by
  unfold PodAddExtensionMeta
  dsimp only
  repeat' split
  all_goals rfl

theorem PodMutateKubeConfig_meta (rt : GoRuntime) (vPod : Pod) (secret : Secret)
    (mountPath : String) (p : podMutateCtx) :
    (PodMutateKubeConfig rt vPod secret mountPath p).1.pPod.meta = p.pPod.meta := rfl

theorem PodMutateAutoMount_meta (disable : Bool) (p : podMutateCtx) :
    (PodMutateAutoMountServiceAccountToken disable p).1.pPod.meta = p.pPod.meta := by
  unfold PodMutateAutoMountServiceAccountToken
  split_ifs <;> rfl

/-- A property of the context that every mutator of the list keeps is kept by `Mutate`. -/
theorem Mutate_keeps {α : Type} (f : podMutateCtx → α) (ms : List PodMutator)
    (h : ∀ m ∈ ms, ∀ p, f (m p).1 = f p) (p : podMutateCtx) :
    f (p.Mutate ms).1 = f p := by
  induction ms generalizing p with
  | nil => rfl
  | cons m ms ih =>
    have hm := h m (List.mem_cons_self _ _) p
    have ih1 := ih (fun m1 hm1 => h m1 (List.mem_cons_of_mem _ hm1)) (m p).1
    simp only [podMutateCtx.Mutate]
    rcases hmp : m p with ⟨p1, r⟩
    rw [hmp] at hm ih1
    cases r with
    | nil => simpa [hm] using ih1
    | err e => simpa using hm
    | panic => simpa using hm

/-! ### The shape of a run of `reconcilePodCreate` -/

theorem reconcilePodCreateKubeConfig_cases (c : controller) (ext : Ext) (rt : GoRuntime)
    (cluster targetNamespace saName : String) (vPod : Pod) (tenantClient : TenantClient)
    (ms : List PodMutator) :
    ((reconcilePodCreateKubeConfig c ext rt cluster targetNamespace saName vPod tenantClient
        ms).1 = [] ∨
      (c.config.EnableTenantKubeConfig = true ∧ ∃ s resp,
        (reconcilePodCreateKubeConfig c ext rt cluster targetNamespace saName vPod tenantClient
          ms).1 = [Call.hostSecretCreate targetNamespace s resp])) ∧
    (∀ ms1,
      (reconcilePodCreateKubeConfig c ext rt cluster targetNamespace saName vPod tenantClient
        ms).2 = Res.ok ms1 →
      ms1 = ms ∨ ∃ s, ms1 = ms ++ [PodMutateKubeConfig rt vPod s
        c.config.TenantKubeConfigMountPath]) := by
  unfold reconcilePodCreateKubeConfig
  by_cases hk : c.config.EnableTenantKubeConfig = true
  · simp only [hk, if_true, true_and]
    cases c.multiClusterPodController.GetClusterClientConfig cluster with
    | error e => simp
    | ok clientConfig =>
      dsimp only
      cases createKubeConfigByServiceAccount ext (tenantClient.serviceAccountsGet vPod.meta.ns)
          (tenantClient.secretsGet vPod.meta.ns) clientConfig saName with
      | panic => simp
      | err e => simp
      | ok bytes =>
        dsimp only
        cases hc : c.client.secretsCreate targetNamespace
            { ext.BuildKubeConfigSecret cluster vPod bytes with
              meta := { (ext.BuildKubeConfigSecret cluster vPod bytes).meta with
                ns := targetNamespace } } with
        | none =>
          dsimp only
          refine ⟨Or.inr ⟨_, _, rfl⟩, ?_⟩
          intro ms1 h
          injection h with h
          exact Or.inr ⟨_, h.symm⟩
        | some e =>
          dsimp only
          split_ifs
          · exact ⟨Or.inr ⟨_, _, rfl⟩, fun ms1 h => by simp at h⟩
          · refine ⟨Or.inr ⟨_, _, rfl⟩, ?_⟩
            intro ms1 h
            injection h with h
            exact Or.inr ⟨_, h.symm⟩
  · simp only [hk, if_false]
    exact ⟨Or.inl rfl, fun ms1 h => by injection h with h; exact Or.inl h.symm⟩

theorem reconcilePodCreateMutate_cases (c : controller) (ext : Ext) (rt : GoRuntime)
    (cluster targetNamespace saName : String) (vPod pPod : Pod) (pSecret vSecret : Secret)
    (tenantClient : TenantClient) (services : List Service) (nameServer : String) :
    ∃ kube : List Call,
      (kube = [] ∨ (c.config.EnableTenantKubeConfig = true ∧
        ∃ s resp, kube = [Call.hostSecretCreate targetNamespace s resp])) ∧
      (((reconcilePodCreateMutate c ext rt cluster targetNamespace saName vPod pPod pSecret
            vSecret tenantClient services nameServer).1 = kube ∧
          (reconcilePodCreateMutate c ext rt cluster targetNamespace saName vPod pPod pSecret
            vSecret tenantClient services nameServer).2 ≠ Ret.nil) ∨
        (∃ ret, ret ≠ Ret.nil ∧
          (reconcilePodCreateMutate c ext rt cluster targetNamespace saName vPod pPod pSecret
            vSecret tenantClient services nameServer) =
            (kube ++ [Call.mutated ret], mutateFailure ret)) ∨
        (∃ q : Pod, q.meta.name = pPod.meta.name ∧
          (reconcilePodCreateMutate c ext rt cluster targetNamespace saName vPod pPod pSecret
            vSecret tenantClient services nameServer) =
            (kube ++ [Call.mutated Ret.nil,
                Call.hostPodCreate targetNamespace q (c.client.podsCreate targetNamespace q)],
              if IsAlreadyExists (c.client.podsCreate targetNamespace q) then Ret.nil
              else Ret.ofErr (c.client.podsCreate targetNamespace q)))) := by
  obtain ⟨hlog, hms⟩ := reconcilePodCreateKubeConfig_cases c ext rt cluster targetNamespace saName
    vPod tenantClient
    [ PodMutateDefault ext rt vPod vSecret pSecret services nameServer,
      PodMutateAutoMountServiceAccountToken c.config.DisableServiceAccountToken,
      PodAddExtensionMeta ext vPod ]
  unfold reconcilePodCreateMutate
  dsimp only
  rcases hk : reconcilePodCreateKubeConfig c ext rt cluster targetNamespace saName vPod
      tenantClient
      [ PodMutateDefault ext rt vPod vSecret pSecret services nameServer,
        PodMutateAutoMountServiceAccountToken c.config.DisableServiceAccountToken,
        PodAddExtensionMeta ext vPod ] with ⟨log, res⟩
  rw [hk] at hlog hms
  refine ⟨log, hlog, ?_⟩
  cases res with
  | panic => exact Or.inl ⟨rfl, by simp⟩
  | err e => exact Or.inl ⟨rfl, by simp⟩
  | ok ms1 =>
    dsimp only
    have hkeep : ∀ m ∈ ms1, ∀ p : podMutateCtx, (m p).1.pPod.meta.name = p.pPod.meta.name := by
      have hbase : ∀ m ∈ [ PodMutateDefault ext rt vPod vSecret pSecret services nameServer,
          PodMutateAutoMountServiceAccountToken c.config.DisableServiceAccountToken,
          PodAddExtensionMeta ext vPod ], ∀ p : podMutateCtx,
          (m p).1.pPod.meta.name = p.pPod.meta.name := by
        intro m hm p
        simp only [List.mem_cons, List.mem_singleton, List.not_mem_nil, or_false] at hm
        rcases hm with rfl | rfl | rfl
        · rw [PodMutateDefault_meta]
        · rw [PodMutateAutoMount_meta]
        · exact PodAddExtensionMeta_name ext vPod p
      rcases hms ms1 rfl with rfl | ⟨s, rfl⟩
      · exact hbase
      · intro m hm p
        rcases List.mem_append.1 hm with h | h
        · exact hbase m h p
        · simp only [List.mem_singleton] at h
          subst h
          rw [PodMutateKubeConfig_meta]
    have hname := Mutate_keeps (fun p => p.pPod.meta.name) ms1 hkeep
      { mc := c.multiClusterPodController, clusterName := cluster, pPod := pPod }
    rcases hm : podMutateCtx.Mutate
        { mc := c.multiClusterPodController, clusterName := cluster, pPod := pPod } ms1
      with ⟨ctx1, ret⟩
    rw [hm] at hname
    cases ret with
    | panic => exact Or.inr (Or.inl ⟨Ret.panic, by simp, rfl⟩)
    | err e => exact Or.inr (Or.inl ⟨Ret.err e, by simp, rfl⟩)
    | nil =>
      refine Or.inr (Or.inr ⟨ctx1.pPod, hname, ?_⟩)
      dsimp only
      split_ifs <;> rfl

/-- The shape of a run of `reconcilePodCreate` on the create path (tenant pod
not marked for deletion, host pod not in the cache): quiet calls `pre`, then
at most the creation of the kubeconfig secret (`kube`), then either nothing
more, or the failure of `Mutate`, or its success followed by the creation of
the host pod, which is the draft built by `BuildMetadata` as far as its name
goes. -/
theorem reconcilePodCreate_create_cases (c : controller) (ext : Ext) (rt : GoRuntime)
    (cluster ns name : String) (vPod : Pod) (e0 : Err)
    (hdel : vPod.meta.deletionTimestamp = none)
    (hcache : c.podLister (ext.ToSuperMasterNamespace cluster ns) name = Except.error e0) :
    ∃ pre kube : List Call,
      (∀ x ∈ pre, isQuiet x = true) ∧
      (kube = [] ∨ (c.config.EnableTenantKubeConfig = true ∧
        ∃ s resp, kube = [Call.hostSecretCreate (ext.ToSuperMasterNamespace cluster ns) s resp])) ∧
      (((reconcilePodCreate c ext rt cluster ns name vPod).1 = pre ++ kube ∧
          (kube ≠ [] → (reconcilePodCreate c ext rt cluster ns name vPod).2 ≠ Ret.nil)) ∨
        (∃ ret, ret ≠ Ret.nil ∧
          reconcilePodCreate c ext rt cluster ns name vPod =
            (pre ++ kube ++ [Call.mutated ret], mutateFailure ret)) ∨
        (∃ q draft : Pod,
          ext.BuildMetadata cluster (ext.ToSuperMasterNamespace cluster ns) vPod =
            Except.ok draft ∧
          q.meta.name = draft.meta.name ∧
          reconcilePodCreate c ext rt cluster ns name vPod =
            (pre ++ kube ++ [Call.mutated Ret.nil,
                Call.hostPodCreate (ext.ToSuperMasterNamespace cluster ns) q
                  (c.client.podsCreate (ext.ToSuperMasterNamespace cluster ns) q)],
              if IsAlreadyExists (c.client.podsCreate (ext.ToSuperMasterNamespace cluster ns) q)
              then Ret.nil
              else Ret.ofErr (c.client.podsCreate (ext.ToSuperMasterNamespace cluster ns) q)))) := by
  unfold reconcilePodCreate
  simp only [hdel, ne_eq, not_true_eq_false, if_false, hcache]
  generalize ext.BuildMetadata cluster (ext.ToSuperMasterNamespace cluster ns) vPod = B
  have early : ∀ r : List Call × Ret, (∀ x ∈ r.1, isQuiet x = true) →
      ∃ pre kube : List Call,
      (∀ x ∈ pre, isQuiet x = true) ∧
      (kube = [] ∨ (c.config.EnableTenantKubeConfig = true ∧
        ∃ s resp, kube = [Call.hostSecretCreate (ext.ToSuperMasterNamespace cluster ns) s resp])) ∧
      ((r.1 = pre ++ kube ∧ (kube ≠ [] → r.2 ≠ Ret.nil)) ∨
        (∃ ret1, ret1 ≠ Ret.nil ∧ r = (pre ++ kube ++ [Call.mutated ret1],
          mutateFailure ret1)) ∨
        (∃ q draft : Pod,
          B = Except.ok draft ∧
          q.meta.name = draft.meta.name ∧
          r =
            (pre ++ kube ++ [Call.mutated Ret.nil,
                Call.hostPodCreate (ext.ToSuperMasterNamespace cluster ns) q
                  (c.client.podsCreate (ext.ToSuperMasterNamespace cluster ns) q)],
              if IsAlreadyExists (c.client.podsCreate (ext.ToSuperMasterNamespace cluster ns) q)
              then Ret.nil
              else Ret.ofErr (c.client.podsCreate (ext.ToSuperMasterNamespace cluster ns) q)))) := by
    intro r hq
    exact ⟨r.1, [], hq, Or.inl rfl, Or.inl ⟨by simp, by simp⟩⟩
  by_cases hbypass : ¬vPod.spec.nodeName = "" ∧ (!isPodScheduled vPod) = true
  · rw [if_pos hbypass]
    cases c.multiClusterPodController.GetClusterClient cluster with
    | error e =>
      refine early _ ?_
      simp
    | ok tenantClient =>
      refine early _ ?_
      simp [isQuiet, isHostWrite]
  · rw [if_neg hbypass]
    cases B with
    | error e =>
      refine early _ ?_
      simp
    | ok pPod =>
      dsimp only
      generalize (if ¬pPod.spec.serviceAccountName = "" then pPod.spec.serviceAccountName
        else "default") = saName
      cases c.client.getSecret (ext.ToSuperMasterNamespace cluster ns) saName with
      | error e =>
        refine early _ ?_
        simp [isQuiet, isHostWrite]
      | ok pSecret =>
        dsimp only
        by_cases hready :
            ¬mapGet pSecret.meta.labels ext.consts.SyncStatusKey = ext.consts.SyncStatusReady
        · rw [if_pos hready]
          refine early _ ?_
          simp [isQuiet, isHostWrite]
        · rw [if_neg hready]
          cases c.multiClusterPodController.GetClusterClient cluster with
          | error e =>
            refine early _ ?_
            simp [isQuiet, isHostWrite]
          | ok tenantClient =>
            dsimp only
            cases tenantClient.getSecret ns saName with
            | error e =>
              refine early _ ?_
              simp [isQuiet, isHostWrite]
            | ok vSecret =>
              dsimp only
              cases getPodRelatedServices c ext cluster pPod with
              | error e =>
                refine early _ ?_
                simp [isQuiet, isHostWrite]
              | ok services =>
                dsimp only
                by_cases hsvc : services.length = 0
                · rw [if_pos hsvc]
                  refine early _ ?_
                  simp [isQuiet, isHostWrite]
                · rw [if_neg hsvc]
                  have hlog1 : ∀ x ∈ (getClusterNameServer c ext cluster).1,
                      isQuiet x = true := by
                    unfold getClusterNameServer
                    dsimp only
                    split
                    · split_ifs <;> simp [isQuiet, isHostWrite]
                    · simp [isQuiet, isHostWrite]
                  rcases hns : getClusterNameServer c ext cluster with ⟨log1, res⟩
                  rw [hns] at hlog1
                  have hpre : ∀ x ∈ [Call.hostSecretGet (ext.ToSuperMasterNamespace cluster ns)
                      saName] ++ log1, isQuiet x = true := by
                    intro x hx
                    rcases List.mem_append.1 hx with h | h
                    · simp only [List.mem_singleton] at h
                      subst h
                      simp [isQuiet, isHostWrite]
                    · exact hlog1 x h
                  cases res with
                  | error e =>
                    exact early _ hpre
                  | ok nameServer =>
                    dsimp only
                    obtain ⟨kube, hkube, hcases⟩ := reconcilePodCreateMutate_cases c ext rt cluster
                      (ext.ToSuperMasterNamespace cluster ns) saName
                      vPod pPod pSecret vSecret tenantClient services nameServer
                    refine ⟨[Call.hostSecretGet (ext.ToSuperMasterNamespace cluster ns)
                      saName] ++ log1, kube, hpre, hkube, ?_⟩
                    rcases hcases with ⟨h1, h2⟩ | ⟨ret, hret, h⟩ | ⟨q, hq, h⟩
                    · exact Or.inl ⟨by simp [h1], fun _ => by simpa using h2⟩
                    · exact Or.inr (Or.inl ⟨ret, hret, by simp [h]⟩)
                    · exact Or.inr (Or.inr ⟨q, pPod, rfl, hq, by simp [h]⟩)

/-! ### Calls of `reconcilePodUpdate` -/

/-- Every call of `reconcilePodUpdate` is a host pod delete, a host pod update
or an enqueue; a delete is only issued for a tenant pod marked for deletion. -/
theorem reconcilePodUpdate_calls (c : controller) (ext : Ext) (cluster ns name : String)
    (vPod : Pod) :
    ∀ x ∈ (reconcilePodUpdate c ext cluster ns name vPod).1,
      (vPod.meta.deletionTimestamp ≠ none ∧ ∃ n m opts resp, x = Call.hostPodDelete n m opts resp) ∨
      (∃ n p resp, x = Call.hostPodUpdate n p resp) ∨ (∃ p, x = Call.enqueuePod p) := by
  unfold reconcilePodUpdate
  dsimp only
  cases c.podLister (ext.ToSuperMasterNamespace cluster ns) name with
  | error e =>
    dsimp only
    split_ifs <;> simp
  | ok pPod =>
    dsimp only
    by_cases hdel : vPod.meta.deletionTimestamp = none
    · simp only [hdel, ne_eq, not_true_eq_false, if_false, false_and, false_or]
      cases ext.CheckPodEquality pPod vPod with
      | none =>
        dsimp only
        split_ifs <;> simp
      | some updatedPod =>
        dsimp only
        cases c.client.podsUpdate (ext.ToSuperMasterNamespace cluster ns) updatedPod with
        | error e => simp
        | ok pPod1 =>
          dsimp only
          split_ifs <;> simp
    · simp only [hdel, ne_eq, not_false_eq_true, if_true, true_and]
      by_cases hp : pPod.meta.deletionTimestamp = none
      · simp only [hp, not_true_eq_false, if_false]
        cases vPod.meta.deletionGracePeriodSeconds with
        | none => simp
        | some grace =>
          dsimp only
          split_ifs <;> simp
      · simp [hp]

/-- Function `reconcilePodCreate` on the update path. -/
theorem reconcilePodCreate_degrade (c : controller) (ext : Ext) (rt : GoRuntime)
    (cluster ns name : String) (vPod : Pod)
    (h : vPod.meta.deletionTimestamp ≠ none ∨
      ∃ p, c.podLister (ext.ToSuperMasterNamespace cluster ns) name = Except.ok p) :
    reconcilePodCreate c ext rt cluster ns name vPod =
      reconcilePodUpdate c ext cluster ns name vPod := by
  unfold reconcilePodCreate
  by_cases hdel : vPod.meta.deletionTimestamp = none
  · rcases h with h | ⟨p, hp⟩
    · exact absurd hdel h
    · simp only [hdel, ne_eq, not_true_eq_false, if_false, hp]
  · simp only [hdel, ne_eq, not_false_eq_true, if_true]

/-! ### `reconcilePodCreate`: a tenant pod that asks for a node -/

/-- Claim C6, as amended: for an Add event whose tenant pod is not marked for
deletion, has no host pod in the cache, has `Spec.NodeName` set and is not
scheduled, `reconcilePodCreate` issues no call to the host cluster (no pod, no
secret).  When the tenant client is obtained it issues exactly one call, the
creation in the namespace of the tenant pod of the event that
`BuildVirtualPodEvent` makes of the `Warning`/`NotSupported` event naming the
tenant pod, and returns the error of that call: nil when the event was
created, and then `Reconcile` returns no error and no requeue; the error
otherwise, and then `Reconcile` asks for a requeue.  When the tenant client
cannot be obtained it issues no call and returns an error. -/
theorem reconcilePodCreate_nodeName (c : controller) (ext : Ext) (rt : GoRuntime)
    (cluster ns name : String) (vPod : Pod) (e0 : Err)
    (hdel : vPod.meta.deletionTimestamp = none)
    (hcache : c.podLister (ext.ToSuperMasterNamespace cluster ns) name = Except.error e0)
    (hnode : vPod.spec.nodeName ≠ "")
    (hsched : isPodScheduled vPod = false) :
    (∀ x ∈ (reconcilePodCreate c ext rt cluster ns name vPod).1, isHostWrite x = false) ∧
    (∀ tenantClient, c.multiClusterPodController.GetClusterClient cluster = Except.ok tenantClient →
      reconcilePodCreate c ext rt cluster ns name vPod =
        ([Call.tenantEventCreate cluster vPod.meta.ns
            (ext.BuildVirtualPodEvent cluster (createNotSupportEvent rt vPod) vPod)
            (tenantClient.eventsCreate vPod.meta.ns
              (ext.BuildVirtualPodEvent cluster (createNotSupportEvent rt vPod) vPod))],
          Ret.ofErr (tenantClient.eventsCreate vPod.meta.ns
            (ext.BuildVirtualPodEvent cluster (createNotSupportEvent rt vPod) vPod))) ∧
      (tenantClient.eventsCreate vPod.meta.ns
          (ext.BuildVirtualPodEvent cluster (createNotSupportEvent rt vPod) vPod) = none →
        (Reconcile c ext rt ⟨cluster, ns, name, EventType.AddEvent, vPod⟩).2 = ({ requeue := false }, Ret.nil)) ∧
      (∀ e, tenantClient.eventsCreate vPod.meta.ns
          (ext.BuildVirtualPodEvent cluster (createNotSupportEvent rt vPod) vPod) = some e →
        (Reconcile c ext rt ⟨cluster, ns, name, EventType.AddEvent, vPod⟩).2 = ({ requeue := true }, Ret.err e))) ∧
    ((createNotSupportEvent rt vPod).type = "Warning" ∧
      (createNotSupportEvent rt vPod).reason = "NotSupported" ∧
      (createNotSupportEvent rt vPod).involvedObject.kind = "Pod" ∧
      (createNotSupportEvent rt vPod).involvedObject.name = vPod.meta.name) ∧
    (∀ err, c.multiClusterPodController.GetClusterClient cluster = Except.error err →
      reconcilePodCreate c ext rt cluster ns name vPod =
        ([], Ret.err (Errorf ("failed to create client from cluster " ++ cluster ++
          " config: " ++ err.msg)))) := by
  have hrun : reconcilePodCreate c ext rt cluster ns name vPod =
      match c.multiClusterPodController.GetClusterClient cluster with
      | Except.error err =>
        ([], Ret.err (Errorf ("failed to create client from cluster " ++ cluster ++
          " config: " ++ err.msg)))
      | Except.ok tenantClient =>
        ([Call.tenantEventCreate cluster vPod.meta.ns
            (ext.BuildVirtualPodEvent cluster (createNotSupportEvent rt vPod) vPod)
            (tenantClient.eventsCreate vPod.meta.ns
              (ext.BuildVirtualPodEvent cluster (createNotSupportEvent rt vPod) vPod))],
          Ret.ofErr (tenantClient.eventsCreate vPod.meta.ns
            (ext.BuildVirtualPodEvent cluster (createNotSupportEvent rt vPod) vPod))) := by
    unfold reconcilePodCreate
    simp only [hdel, ne_eq, not_true_eq_false, if_false, hcache, hnode, not_false_eq_true,
      hsched, Bool.not_false, and_self, if_true]
  refine ⟨?_, ?_, ⟨rfl, rfl, rfl, rfl⟩, ?_⟩
  · rw [hrun]
    cases c.multiClusterPodController.GetClusterClient cluster with
    | error e => simp
    | ok tenantClient => simp [isHostWrite]
  · intro tenantClient hclient
    have hrun1 := hrun
    rw [hclient] at hrun1
    refine ⟨hrun1, ?_, ?_⟩
    · intro hnone
      simp only [Reconcile, hrun1, hnone, Ret.ofErr]
    · intro e he
      simp only [Reconcile, hrun1, he, Ret.ofErr]
  · intro err hclient
    rw [hrun, hclient]

/-- Claim C6, as amended, on the pinned tenant pod `ns1/pod1` of cluster
`west` whose tenant API refuses the event. -/
theorem reconcilePodCreate_nodeName_witness :
    reconcilePodCreate exControllerPassthrough exExt exRt "west" "ns1" "pod1" exPinnedPod =
      ([Call.tenantEventCreate "west" "ns1"
          (exExt.BuildVirtualPodEvent "west" (createNotSupportEvent exRt exPinnedPod) exPinnedPod)
          (some (Errorf "events are forbidden"))],
        Ret.err (Errorf "events are forbidden")) :=
  ((reconcilePodCreate_nodeName exControllerPassthrough exExt exRt "west" "ns1" "pod1"
    exPinnedPod exNotFound rfl rfl (by decide) rfl).2.1 exTenantClient rfl).1

/-- Claim C6 fails as stated: the pinned tenant pod `ns1/pod1` is not marked
for deletion, has no host pod in the cache, has a node name and is not
scheduled, yet `reconcilePodCreate` returns the error of the refused event
creation and `Reconcile` returns that error with a requeue. -/
theorem reconcilePodCreate_nodeName_error :
    exPinnedPod.meta.deletionTimestamp = none ∧
    exControllerPassthrough.podLister (exExt.ToSuperMasterNamespace "west" "ns1") "pod1" =
      Except.error exNotFound ∧
    exPinnedPod.spec.nodeName ≠ "" ∧
    isPodScheduled exPinnedPod = false ∧
    (reconcilePodCreate exControllerPassthrough exExt exRt "west" "ns1" "pod1" exPinnedPod).2 =
      Ret.err (Errorf "events are forbidden") ∧
    (Reconcile exControllerPassthrough exExt exRt
      ⟨"west", "ns1", "pod1", EventType.AddEvent, exPinnedPod⟩).2 =
      ({ requeue := true }, Ret.err (Errorf "events are forbidden")) :=
  ⟨rfl, rfl, by decide, rfl, rfl, rfl⟩

/-! ### `reconcilePodCreate`: host writes and the mutation pipeline -/

theorem isQuiet_not_write (x : Call) (h : isQuiet x = true) : isHostWrite x = false := by
  cases x <;> simp_all [isQuiet, isHostWrite]

theorem isQuiet_ne_mutated (x : Call) (h : isQuiet x = true) (ret : Ret) : x ≠ Call.mutated ret := by
  cases x <;> simp_all [isQuiet]

theorem mem_hostWritesBeforeMutate (x : Call) (log : List Call)
    (h : x ∈ hostWritesBeforeMutate log) : x ∈ log ∧ isHostWrite x = true := by
  unfold hostWritesBeforeMutate at h
  obtain ⟨h1, h2⟩ := List.mem_filter.1 h
  exact ⟨List.takeWhile_subset _ h1, h2⟩

/-- The host writes before the success of `Mutate`, for a log that starts with
quiet calls followed by `kube` and then either ends, or goes on with the
return of `Mutate`. -/
theorem hostWritesBeforeMutate_shape (pre kube rest : List Call) (tns : String)
    (hpre : ∀ x ∈ pre, isQuiet x = true)
    (hkube : kube = [] ∨ ∃ s resp, kube = [Call.hostSecretCreate tns s resp])
    (hrest : rest = [] ∨ (∃ ret, ret ≠ Ret.nil ∧ rest = [Call.mutated ret]) ∨
      ∃ tail, rest = Call.mutated Ret.nil :: tail) :
    hostWritesBeforeMutate (pre ++ kube ++ rest) = kube := by
  have h1 : ∀ a ∈ pre ++ kube, (fun x => decide (x ≠ Call.mutated Ret.nil)) a = true := by
    intro a ha
    simp only [ne_eq, decide_not, Bool.not_eq_true', decide_eq_false_iff_not]
    rcases List.mem_append.1 ha with h | h
    · exact isQuiet_ne_mutated a (hpre a h) Ret.nil
    · rcases hkube with rfl | ⟨s, resp, rfl⟩
      · simp at h
      · simp only [List.mem_singleton] at h
        subst h
        simp
  have h2 : (pre ++ kube).filter isHostWrite = kube := by
    rw [List.filter_append]
    have : pre.filter isHostWrite = [] := by
      rw [List.filter_eq_nil_iff]
      intro a ha
      simp [isQuiet_not_write a (hpre a ha)]
    rw [this, List.nil_append]
    rcases hkube with rfl | ⟨s, resp, rfl⟩
    · rfl
    · simp [isHostWrite]
  have h3 : (rest.takeWhile (fun x => decide (x ≠ Call.mutated Ret.nil))).filter isHostWrite =
      [] := by
    rcases hrest with rfl | ⟨ret, hret, rfl⟩ | ⟨tail, rfl⟩
    · rfl
    · have : Call.mutated ret ≠ Call.mutated Ret.nil := fun h => hret (by injection h)
      simp [this, isHostWrite]
    · simp
  unfold hostWritesBeforeMutate
  rw [List.takeWhile_append_of_pos h1, List.filter_append, h2, h3, List.append_nil]

/-- Claim C5, as amended.  In every run of `reconcilePodCreate` no host pod is
created before `Mutate` has returned success, and when `Mutate` fails no host
pod is created at all and the failure is returned.  On the create path
(tenant pod not marked for deletion, host pod not in the cache) the only
write to the host cluster that precedes the success of `Mutate` is the
creation of the kubeconfig secret, issued only when tenant-credential
passthrough is enabled; with passthrough disabled there is none. -/
theorem reconcilePodCreate_mutate_order (c : controller) (ext : Ext) (rt : GoRuntime)
    (cluster ns name : String) (vPod : Pod) :
    (∀ x ∈ hostWritesBeforeMutate (reconcilePodCreate c ext rt cluster ns name vPod).1,
      isHostPodCreate x = false) ∧
    (∀ ret, ret ≠ Ret.nil →
      Call.mutated ret ∈ (reconcilePodCreate c ext rt cluster ns name vPod).1 →
      (∀ x ∈ (reconcilePodCreate c ext rt cluster ns name vPod).1, isHostPodCreate x = false) ∧
      (reconcilePodCreate c ext rt cluster ns name vPod).2 = mutateFailure ret) ∧
    (∀ e0, vPod.meta.deletionTimestamp = none →
      c.podLister (ext.ToSuperMasterNamespace cluster ns) name = Except.error e0 →
      (∀ x ∈ hostWritesBeforeMutate (reconcilePodCreate c ext rt cluster ns name vPod).1,
        c.config.EnableTenantKubeConfig = true ∧
        ∃ s resp, x = Call.hostSecretCreate (ext.ToSuperMasterNamespace cluster ns) s resp) ∧
      (c.config.EnableTenantKubeConfig = false →
        hostWritesBeforeMutate (reconcilePodCreate c ext rt cluster ns name vPod).1 = [])) := by
  -- the create path
  have hcreate : ∀ e0, vPod.meta.deletionTimestamp = none →
      c.podLister (ext.ToSuperMasterNamespace cluster ns) name = Except.error e0 →
      ∃ kube : List Call,
        (kube = [] ∨ (c.config.EnableTenantKubeConfig = true ∧
          ∃ s resp, kube = [Call.hostSecretCreate (ext.ToSuperMasterNamespace cluster ns) s
            resp])) ∧
        hostWritesBeforeMutate (reconcilePodCreate c ext rt cluster ns name vPod).1 = kube ∧
        (∀ ret, ret ≠ Ret.nil →
          Call.mutated ret ∈ (reconcilePodCreate c ext rt cluster ns name vPod).1 →
          (∀ x ∈ (reconcilePodCreate c ext rt cluster ns name vPod).1,
            isHostPodCreate x = false) ∧
          (reconcilePodCreate c ext rt cluster ns name vPod).2 = mutateFailure ret) := by
    intro e0 hdel hcache
    obtain ⟨pre, kube, hpre, hkube, hcases⟩ :=
      reconcilePodCreate_create_cases c ext rt cluster ns name vPod e0 hdel hcache
    have hkube1 : kube = [] ∨ ∃ s resp,
        kube = [Call.hostSecretCreate (ext.ToSuperMasterNamespace cluster ns) s resp] := by
      rcases hkube with h | ⟨_, h⟩
      · exact Or.inl h
      · exact Or.inr h
    have hnotin : ∀ ret, Call.mutated ret ∉ pre ++ kube := by
      intro ret hmem
      rcases List.mem_append.1 hmem with h | h
      · exact isQuiet_ne_mutated _ (hpre _ h) ret rfl
      · rcases hkube1 with rfl | ⟨s, resp, rfl⟩ <;> simp at h
    have hnocreate : ∀ x ∈ pre ++ kube, isHostPodCreate x = false := by
      intro x hmem
      rcases List.mem_append.1 hmem with h | h
      · have := isQuiet_not_write x (hpre x h)
        cases x <;> simp_all [isHostWrite, isHostPodCreate]
      · rcases hkube1 with rfl | ⟨s, resp, rfl⟩
        · simp at h
        · simp only [List.mem_singleton] at h
          subst h
          rfl
    refine ⟨kube, hkube, ?_, ?_⟩
    · rcases hcases with ⟨h1, _⟩ | ⟨ret, hret, h⟩ | ⟨q, draft, _, _, h⟩
      · rw [h1]
        simpa using hostWritesBeforeMutate_shape pre kube [] _ hpre hkube1 (Or.inl rfl)
      · rw [h]
        exact hostWritesBeforeMutate_shape pre kube _ _ hpre hkube1
          (Or.inr (Or.inl ⟨ret, hret, rfl⟩))
      · rw [h]
        exact hostWritesBeforeMutate_shape pre kube _ _ hpre hkube1 (Or.inr (Or.inr ⟨_, rfl⟩))
    · intro ret hret hmem
      rcases hcases with ⟨h1, _⟩ | ⟨ret1, hret1, h⟩ | ⟨q, draft, _, _, h⟩
      · rw [h1] at hmem
        exact absurd hmem (hnotin ret)
      · rw [h] at hmem ⊢
        dsimp only at hmem ⊢
        rcases List.mem_append.1 hmem with h2 | h2
        · exact absurd h2 (hnotin ret)
        · simp only [List.mem_singleton] at h2
          injection h2 with h2
          subst h2
          refine ⟨?_, rfl⟩
          intro x hx
          rcases List.mem_append.1 hx with h3 | h3
          · exact hnocreate x h3
          · simp only [List.mem_singleton] at h3
            subst h3
            rfl
      · rw [h] at hmem
        dsimp only at hmem
        rcases List.mem_append.1 hmem with h2 | h2
        · exact absurd h2 (hnotin ret)
        · simp only [List.mem_cons, List.mem_singleton, List.not_mem_nil, or_false] at h2
          rcases h2 with h2 | h2
          · injection h2 with h2
            exact absurd h2 hret
          · cases h2
  -- the update path
  have hupdate : (vPod.meta.deletionTimestamp ≠ none ∨
      ∃ p, c.podLister (ext.ToSuperMasterNamespace cluster ns) name = Except.ok p) →
      (∀ x ∈ (reconcilePodCreate c ext rt cluster ns name vPod).1, isHostPodCreate x = false) ∧
      (∀ ret, Call.mutated ret ∉ (reconcilePodCreate c ext rt cluster ns name vPod).1) := by
    intro h
    rw [reconcilePodCreate_degrade c ext rt cluster ns name vPod h]
    refine ⟨?_, ?_⟩
    · intro x hx
      rcases reconcilePodUpdate_calls c ext cluster ns name vPod x hx with
        ⟨_, _, _, _, _, rfl⟩ | ⟨_, _, _, rfl⟩ | ⟨_, rfl⟩ <;> rfl
    · intro ret hx
      rcases reconcilePodUpdate_calls c ext cluster ns name vPod _ hx with
        ⟨_, _, _, _, _, h⟩ | ⟨_, _, _, h⟩ | ⟨_, h⟩ <;> cases h
  have hpath : (vPod.meta.deletionTimestamp ≠ none ∨
      ∃ p, c.podLister (ext.ToSuperMasterNamespace cluster ns) name = Except.ok p) ∨
      ∃ e0, vPod.meta.deletionTimestamp = none ∧
        c.podLister (ext.ToSuperMasterNamespace cluster ns) name = Except.error e0 := by
    by_cases hdel : vPod.meta.deletionTimestamp = none
    · cases hl : c.podLister (ext.ToSuperMasterNamespace cluster ns) name with
      | ok p => exact Or.inl (Or.inr ⟨p, rfl⟩)
      | error e0 => exact Or.inr ⟨e0, hdel, rfl⟩
    · exact Or.inl (Or.inl hdel)
  refine ⟨?_, ?_, ?_⟩
  · intro x hx
    rcases hpath with h | ⟨e0, hdel, hcache⟩
    · exact (hupdate h).1 x (mem_hostWritesBeforeMutate x _ hx).1
    · obtain ⟨kube, hkube, heq, _⟩ := hcreate e0 hdel hcache
      rw [heq] at hx
      rcases hkube with rfl | ⟨_, s, resp, rfl⟩
      · simp at hx
      · simp only [List.mem_singleton] at hx
        subst hx
        rfl
  · intro ret hret hmem
    rcases hpath with h | ⟨e0, hdel, hcache⟩
    · exact absurd hmem ((hupdate h).2 ret)
    · obtain ⟨kube, _, _, hB⟩ := hcreate e0 hdel hcache
      exact hB ret hret hmem
  · intro e0 hdel hcache
    obtain ⟨kube, hkube, heq, _⟩ := hcreate e0 hdel hcache
    rw [heq]
    refine ⟨?_, ?_⟩
    · intro x hx
      rcases hkube with rfl | ⟨hflag, s, resp, rfl⟩
      · simp at hx
      · simp only [List.mem_singleton] at hx
        exact ⟨hflag, s, resp, hx⟩
    · intro hflag
      rcases hkube with rfl | ⟨hflag1, _⟩
      · rfl
      · rw [hflag] at hflag1
        cases hflag1

/-- Claim C5, as amended, on the run of the counterexample: the kubeconfig
secret is the only host write before `Mutate`. -/
theorem reconcilePodCreate_mutate_order_witness :
    ∀ x ∈ hostWritesBeforeMutate
        (reconcilePodCreate exControllerPassthrough exExt exRt "west" "ns1" "pod1" exTenantPod).1,
      exControllerPassthrough.config.EnableTenantKubeConfig = true ∧
      ∃ s resp, x = Call.hostSecretCreate (exExt.ToSuperMasterNamespace "west" "ns1") s resp :=
  ((reconcilePodCreate_mutate_order exControllerPassthrough exExt exRt "west" "ns1" "pod1"
    exTenantPod).2.2 exNotFound rfl rfl).1

/-- Claim C5 fails as stated: with tenant-credential passthrough enabled and a
tenant whose cluster domain is unknown, `reconcilePodCreate` creates the
kubeconfig secret in the host cluster, then `Mutate` returns an error and the
reconcile fails: a host object has been created although the mutation pipeline
never succeeded. -/
theorem reconcilePodCreate_secret_before_mutate :
    reconcilePodCreate exControllerPassthrough exExt exRt "west" "ns1" "pod1" exTenantPod =
      ([Call.hostSecretGet "west-ns1" "default",
        Call.hostServiceGet "west-kube-system" "kube-dns",
        Call.hostSecretCreate "west-ns1"
          { meta := { name := "vc-kubeconfig-pod1", ns := "west-ns1" }
            data := [("config", "kubeconfig")] } none,
        Call.mutated (Ret.err (Errorf "cluster domain unknown"))],
       Ret.err (Errorf "failed to mutate pod: cluster domain unknown")) ∧
    hostWritesBeforeMutate
        (reconcilePodCreate exControllerPassthrough exExt exRt "west" "ns1" "pod1" exTenantPod).1 ≠
      [] := by
  have h : reconcilePodCreate exControllerPassthrough exExt exRt "west" "ns1" "pod1" exTenantPod =
      ([Call.hostSecretGet "west-ns1" "default",
        Call.hostServiceGet "west-kube-system" "kube-dns",
        Call.hostSecretCreate "west-ns1"
          { meta := { name := "vc-kubeconfig-pod1", ns := "west-ns1" }
            data := [("config", "kubeconfig")] } none,
        Call.mutated (Ret.err (Errorf "cluster domain unknown"))],
       Ret.err (Errorf "failed to mutate pod: cluster domain unknown")) := by
    rfl
  refine ⟨h, ?_⟩
  rw [h]
  decide

/-! ### `reconcilePodCreate`: redelivery of an Add event -/

theorem hostPodsAfter_append (store : List (String × Pod)) (l1 l2 : List Call) :
    hostPodsAfter store (l1 ++ l2) = hostPodsAfter (hostPodsAfter store l1) l2 := by
  simp [hostPodsAfter, List.foldl_append]

/-- A log whose calls all keep the number of pods under a key keeps it. -/
theorem hostPodsAfter_count (tns name : String) (log : List Call)
    (h : ∀ x ∈ log, ∀ st, (hostPodsAt (hostPodsStep st x) tns name).length =
      (hostPodsAt st tns name).length)
    (store : List (String × Pod)) :
    (hostPodsAt (hostPodsAfter store log) tns name).length =
      (hostPodsAt store tns name).length := by
  induction log generalizing store with
  | nil => rfl
  | cons x log ih =>
    have hx := h x (List.mem_cons_self _ _) store
    have := ih (fun y hy => h y (List.mem_cons_of_mem _ hy)) (hostPodsStep store x)
    simp only [hostPodsAfter, List.foldl_cons] at this ⊢
    rw [this, hx]

theorem hostPodsStep_update_count (tns name ns : String) (pod : Pod) (resp : Option Err)
    (st : List (String × Pod)) :
    (hostPodsAt (hostPodsStep st (Call.hostPodUpdate ns pod resp)) tns name).length =
      (hostPodsAt st tns name).length := by
  cases resp with
  | some e => rfl
  | none =>
    simp only [hostPodsStep, hostPodsAt, List.filter_map, List.length_map]
    congr 1
    apply List.filter_congr
    intro e _
    simp only [Function.comp]
    by_cases hk : e.1 = ns ∧ e.2.meta.name = pod.meta.name
    · simp [hk.1, hk.2]
    · have : (decide (e.1 = ns) && decide (e.2.meta.name = pod.meta.name)) = false := by
        simpa using hk
      simp [this]

theorem hostPodsStep_quiet (x : Call) (h : isQuiet x = true) (st : List (String × Pod)) :
    hostPodsStep st x = st := by
  cases x <;> simp_all [isQuiet, isHostWrite, hostPodsStep]

/-- Claim C7: an Add event whose host pod is in the cache, or whose tenant pod
is marked for deletion, is handled exactly as an Update and creates nothing;
a host create answered with `AlreadyExists` makes `reconcilePodCreate` return
nil.  Consequently, when the same Add event is delivered twice, the first
delivery creating the host pod, and the host API refuses to create a second
pod under the name of an existing one, the host pod store holds exactly one
pod under the key after the second delivery. -/
theorem reconcilePodCreate_redelivery (ext : Ext) (cluster ns name : String) (vPod : Pod) :
    (∀ (c : controller) (rt : GoRuntime),
      (vPod.meta.deletionTimestamp ≠ none ∨
        ∃ p, c.podLister (ext.ToSuperMasterNamespace cluster ns) name = Except.ok p) →
      reconcilePodCreate c ext rt cluster ns name vPod =
        reconcilePodUpdate c ext cluster ns name vPod ∧
      ∀ x ∈ (reconcilePodCreate c ext rt cluster ns name vPod).1, isCreate x = false) ∧
    (∀ (c : controller) (rt : GoRuntime) (n : String) (p : Pod) (e : Err),
      Call.hostPodCreate n p (some e) ∈ (reconcilePodCreate c ext rt cluster ns name vPod).1 →
      e.reason = "AlreadyExists" →
      (reconcilePodCreate c ext rt cluster ns name vPod).2 = Ret.nil) ∧
    (∀ (c1 c2 : controller) (rt1 rt2 : GoRuntime) (store0 : List (String × Pod)) (p1 : Pod),
      (∀ d, ext.BuildMetadata cluster (ext.ToSuperMasterNamespace cluster ns) vPod =
        Except.ok d → d.meta.name = name) →
      hostPodsAt store0 (ext.ToSuperMasterNamespace cluster ns) name = [] →
      Call.hostPodCreate (ext.ToSuperMasterNamespace cluster ns) p1 none ∈
        (reconcilePodCreate c1 ext rt1 cluster ns name vPod).1 →
      (∀ q : Pod, q.meta.name = name →
        c2.client.podsCreate (ext.ToSuperMasterNamespace cluster ns) q ≠ none) →
      (hostPodsAt
        (hostPodsAfter
          (hostPodsAfter store0 (reconcilePodCreate c1 ext rt1 cluster ns name vPod).1)
          (reconcilePodCreate c2 ext rt2 cluster ns name vPod).1)
        (ext.ToSuperMasterNamespace cluster ns) name).length = 1) := by
  have hpath : ∀ c : controller, (vPod.meta.deletionTimestamp ≠ none ∨
      ∃ p, c.podLister (ext.ToSuperMasterNamespace cluster ns) name = Except.ok p) ∨
      ∃ e0, vPod.meta.deletionTimestamp = none ∧
        c.podLister (ext.ToSuperMasterNamespace cluster ns) name = Except.error e0 := by
    intro c
    by_cases hdel : vPod.meta.deletionTimestamp = none
    · cases hl : c.podLister (ext.ToSuperMasterNamespace cluster ns) name with
      | ok p => exact Or.inl (Or.inr ⟨p, rfl⟩)
      | error e0 => exact Or.inr ⟨e0, hdel, rfl⟩
    · exact Or.inl (Or.inl hdel)
  refine ⟨?_, ?_, ?_⟩
  · intro c rt h
    refine ⟨reconcilePodCreate_degrade c ext rt cluster ns name vPod h, ?_⟩
    rw [reconcilePodCreate_degrade c ext rt cluster ns name vPod h]
    intro x hx
    rcases reconcilePodUpdate_calls c ext cluster ns name vPod x hx with
      ⟨_, _, _, _, _, rfl⟩ | ⟨_, _, _, rfl⟩ | ⟨_, rfl⟩ <;> rfl
  · intro c rt n p e hmem hreason
    rcases hpath c with h | ⟨e0, hdel, hcache⟩
    · rw [reconcilePodCreate_degrade c ext rt cluster ns name vPod h] at hmem
      rcases reconcilePodUpdate_calls c ext cluster ns name vPod _ hmem with
        ⟨_, _, _, _, _, h1⟩ | ⟨_, _, _, h1⟩ | ⟨_, h1⟩ <;> cases h1
    · obtain ⟨pre, kube, hpre, hkube, hcases⟩ :=
        reconcilePodCreate_create_cases c ext rt cluster ns name vPod e0 hdel hcache
      have hnotin : ∀ n p r, Call.hostPodCreate n p r ∉ pre ++ kube := by
        intro n p r hm
        rcases List.mem_append.1 hm with h | h
        · have := isQuiet_not_write _ (hpre _ h)
          simp [isHostWrite] at this
        · rcases hkube with rfl | ⟨_, s, resp, rfl⟩ <;> simp at h
      rcases hcases with ⟨h1, _⟩ | ⟨ret, hret, h⟩ | ⟨q, draft, _, _, h⟩
      · rw [h1] at hmem
        exact absurd hmem (hnotin _ _ _)
      · rw [h] at hmem
        dsimp only at hmem
        rcases List.mem_append.1 hmem with h2 | h2
        · exact absurd h2 (hnotin _ _ _)
        · simp at h2
      · rw [h] at hmem ⊢
        dsimp only at hmem ⊢
        rcases List.mem_append.1 hmem with h2 | h2
        · exact absurd h2 (hnotin _ _ _)
        · simp only [List.mem_cons, List.mem_singleton, List.not_mem_nil, or_false] at h2
          rcases h2 with h2 | h2
          · cases h2
          · injection h2 with _ _ h3
            rw [← h3]
            simp [IsAlreadyExists, hreason]
  · intro c1 c2 rt1 rt2 store0 p1 hbuild hstore hfirst hapi
    -- the first delivery took the create path and ended with the creation of `p1`
    have h1 : hostPodsAfter store0 (reconcilePodCreate c1 ext rt1 cluster ns name vPod).1 =
        store0 ++ [(ext.ToSuperMasterNamespace cluster ns, p1)] ∧ p1.meta.name = name ∧
        vPod.meta.deletionTimestamp = none := by
      rcases hpath c1 with h | ⟨e0, hdel, hcache⟩
      · rw [reconcilePodCreate_degrade c1 ext rt1 cluster ns name vPod h] at hfirst
        rcases reconcilePodUpdate_calls c1 ext cluster ns name vPod _ hfirst with
          ⟨_, _, _, _, _, h1⟩ | ⟨_, _, _, h1⟩ | ⟨_, h1⟩ <;> cases h1
      · obtain ⟨pre, kube, hpre, hkube, hcases⟩ :=
          reconcilePodCreate_create_cases c1 ext rt1 cluster ns name vPod e0 hdel hcache
        have hnotin : ∀ n p r, Call.hostPodCreate n p r ∉ pre ++ kube := by
          intro n p r hm
          rcases List.mem_append.1 hm with h | h
          · have := isQuiet_not_write _ (hpre _ h)
            simp [isHostWrite] at this
          · rcases hkube with rfl | ⟨_, s, resp, rfl⟩ <;> simp at h
        have hkeep : ∀ st, hostPodsAfter st (pre ++ kube) = st := by
          intro st
          have : ∀ (l : List Call) (st : List (String × Pod)),
              (∀ x ∈ l, ∀ st1, hostPodsStep st1 x = st1) → hostPodsAfter st l = st := by
            intro l
            induction l with
            | nil => intro st _; rfl
            | cons x l ih =>
              intro st hl
              simp only [hostPodsAfter, List.foldl_cons]
              rw [hl x (List.mem_cons_self _ _) st]
              exact ih st (fun y hy => hl y (List.mem_cons_of_mem _ hy))
          apply this
          intro x hx st1
          rcases List.mem_append.1 hx with h | h
          · exact hostPodsStep_quiet x (hpre x h) st1
          · rcases hkube with rfl | ⟨_, s, resp, rfl⟩
            · simp at h
            · simp only [List.mem_singleton] at h
              subst h
              rfl
        rcases hcases with ⟨h1, _⟩ | ⟨ret, hret, h⟩ | ⟨q, draft, hd, hq, h⟩
        · rw [h1] at hfirst
          exact absurd hfirst (hnotin _ _ _)
        · rw [h] at hfirst
          dsimp only at hfirst
          rcases List.mem_append.1 hfirst with h2 | h2
          · exact absurd h2 (hnotin _ _ _)
          · simp at h2
        · rw [h] at hfirst ⊢
          dsimp only at hfirst ⊢
          rcases List.mem_append.1 hfirst with h2 | h2
          · exact absurd h2 (hnotin _ _ _)
          · simp only [List.mem_cons, List.mem_singleton, List.not_mem_nil, or_false] at h2
            rcases h2 with h2 | h2
            · cases h2
            · injection h2 with _ h3 h4
              subst h3
              refine ⟨?_, ?_, hdel⟩
              · rw [hostPodsAfter_append, hkeep]
                simp only [hostPodsAfter, List.foldl_cons, List.foldl_nil, hostPodsStep, ← h4]
              · rw [hq]
                exact hbuild draft hd
    obtain ⟨hstore1, hname, hdel⟩ := h1
    -- the second delivery keeps the number of pods under the key
    have h2 : ∀ x ∈ (reconcilePodCreate c2 ext rt2 cluster ns name vPod).1, ∀ st,
        (hostPodsAt (hostPodsStep st x) (ext.ToSuperMasterNamespace cluster ns) name).length =
          (hostPodsAt st (ext.ToSuperMasterNamespace cluster ns) name).length := by
      intro x hx st
      rcases hpath c2 with h | ⟨e0, _, hcache⟩
      · rw [reconcilePodCreate_degrade c2 ext rt2 cluster ns name vPod h] at hx
        rcases reconcilePodUpdate_calls c2 ext cluster ns name vPod x hx with
          ⟨hd, _⟩ | ⟨n, p, resp, rfl⟩ | ⟨p, rfl⟩
        · exact absurd hdel hd
        · exact hostPodsStep_update_count _ _ _ _ _ _
        · rfl
      · obtain ⟨pre, kube, hpre, hkube, hcases⟩ :=
          reconcilePodCreate_create_cases c2 ext rt2 cluster ns name vPod e0 hdel hcache
        have hquiet : ∀ y ∈ pre ++ kube, ∀ st1, hostPodsStep st1 y = st1 := by
          intro y hy st1
          rcases List.mem_append.1 hy with h | h
          · exact hostPodsStep_quiet y (hpre y h) st1
          · rcases hkube with rfl | ⟨_, s, resp, rfl⟩
            · simp at h
            · simp only [List.mem_singleton] at h
              subst h
              rfl
        rcases hcases with ⟨h1, _⟩ | ⟨ret, hret, h⟩ | ⟨q, draft, hd, hq, h⟩
        · rw [h1] at hx
          rw [hquiet x hx st]
        · rw [h] at hx
          dsimp only at hx
          rcases List.mem_append.1 hx with h3 | h3
          · rw [hquiet x h3 st]
          · simp only [List.mem_singleton] at h3
            subst h3
            rfl
        · rw [h] at hx
          dsimp only at hx
          rcases List.mem_append.1 hx with h3 | h3
          · rw [hquiet x h3 st]
          · simp only [List.mem_cons, List.mem_singleton, List.not_mem_nil, or_false] at h3
            rcases h3 with rfl | rfl
            · rfl
            · have hq1 : q.meta.name = name := by rw [hq]; exact hbuild draft hd
              have hresp := hapi q hq1
              cases hr : c2.client.podsCreate (ext.ToSuperMasterNamespace cluster ns) q with
              | none => exact absurd hr hresp
              | some e => rfl
    rw [hostPodsAfter_count _ _ _ h2, hstore1]
    simp only [hostPodsAt, List.filter_append] at hstore ⊢
    rw [hstore]
    simp [hname]

/-- Claim C7 on two examples.  The Add event of the tenant pod `ns1/pod1`
marked for deletion is handled as an Update and creates nothing.  The Add
event of the tenant pod `ns1/pod1` delivered twice, to a host API that accepts
the first creation and answers the second with `AlreadyExists`, leaves one
host pod `west-ns1/pod1`, and the second delivery returns nil. -/
theorem reconcilePodCreate_redelivery_witness :
    (reconcilePodCreate exControllerHostPresent exExt exRt "west" "ns1" "pod1" exDeletingPod =
        reconcilePodUpdate exControllerHostPresent exExt "west" "ns1" "pod1" exDeletingPod ∧
      ∀ x ∈ (reconcilePodCreate exControllerHostPresent exExt exRt "west" "ns1" "pod1"
          exDeletingPod).1, isCreate x = false) ∧
    (reconcilePodCreate exControllerRedeliver exExt exRt "west" "ns1" "pod1" exTenantPod).2 =
      Ret.nil ∧
    (hostPodsAt
      (hostPodsAfter
        (hostPodsAfter []
          (reconcilePodCreate exControllerCreate exExt exRt "west" "ns1" "pod1" exTenantPod).1)
        (reconcilePodCreate exControllerRedeliver exExt exRt "west" "ns1" "pod1" exTenantPod).1)
      (exExt.ToSuperMasterNamespace "west" "ns1") "pod1").length = 1 := by
  have hrun1 : reconcilePodCreate exControllerCreate exExt exRt "west" "ns1" "pod1" exTenantPod =
      ([Call.hostSecretGet "west-ns1" "default",
        Call.hostServiceGet "west-kube-system" "kube-dns",
        Call.mutated Ret.nil,
        Call.hostPodCreate "west-ns1" exCreatedPod none], Ret.nil) := by
    rfl
  have hrun2 : Call.hostPodCreate "west-ns1" exCreatedPod
      (some { reason := "AlreadyExists", msg := "pod exists" }) ∈
      (reconcilePodCreate exControllerRedeliver exExt exRt "west" "ns1" "pod1" exTenantPod).1 := by
    have : reconcilePodCreate exControllerRedeliver exExt exRt "west" "ns1" "pod1" exTenantPod =
        ([Call.hostSecretGet "west-ns1" "default",
          Call.hostServiceGet "west-kube-system" "kube-dns",
          Call.mutated Ret.nil,
          Call.hostPodCreate "west-ns1" exCreatedPod
            (some { reason := "AlreadyExists", msg := "pod exists" })], Ret.nil) := by
      rfl
    rw [this]
    simp
  obtain ⟨ha, hb, hc⟩ := reconcilePodCreate_redelivery exExt "west" "ns1" "pod1" exTenantPod
  refine ⟨?_, ?_, ?_⟩
  · exact (reconcilePodCreate_redelivery exExt "west" "ns1" "pod1" exDeletingPod).1
      exControllerHostPresent exRt (Or.inl (by decide))
  · exact hb exControllerRedeliver exRt _ _ _ hrun2 rfl
  · refine hc exControllerCreate exControllerRedeliver exRt exRt [] exCreatedPod ?_ rfl ?_ ?_
    · intro d hd
      have : d = { exTenantPod with meta := { exTenantPod.meta with ns := "west-ns1", uid := "" } } := by
        have h1 : exExt.BuildMetadata "west" (exExt.ToSuperMasterNamespace "west" "ns1")
            exTenantPod = Except.ok
              { exTenantPod with meta := { exTenantPod.meta with ns := "west-ns1", uid := "" } } :=
          rfl
        rw [h1] at hd
        injection hd with hd
        exact hd.symm
      rw [this]
      rfl
    · rw [hrun1]
      simp
      rfl
    · intro q _
      simp [exControllerRedeliver]

/-! ### `checkPVCOfTenantCluster` -/

theorem checkPVCOfTenantClusterStep_eq (c : pvcController) (ext : Ext) (clusterName : String)
    (vPVC : PersistentVolumeClaim) :
    checkPVCOfTenantClusterStep c ext clusterName vPVC =
      if hostMissing c ext clusterName vPVC then
        [Call.requeueObject clusterName vPVC EventType.AddEvent
          (c.multiClusterPersistentVolumeClaimController.RequeueObject clusterName vPVC
            EventType.AddEvent)]
      else [] := by
  unfold checkPVCOfTenantClusterStep hostMissing
  dsimp only
  cases c.pvcListerGet (ext.ToSuperMasterNamespace clusterName vPVC.meta.ns) vPVC.meta.name with
  | error e =>
    dsimp only [errOf]
  | ok pPVC =>
    dsimp only [errOf]
    cases ext.CheckPVCEquality pPVC vPVC <;> simp [IsNotFound]

theorem checkPVCOfTenantCluster_loop (c : pvcController) (ext : Ext) (clusterName : String)
    (pvcList : List PersistentVolumeClaim) (log : List Call) :
    pvcList.foldl (fun log vPVC => log ++ checkPVCOfTenantClusterStep c ext clusterName vPVC)
        log =
      log ++ (pvcList.filter (hostMissing c ext clusterName)).map (fun vPVC =>
        Call.requeueObject clusterName vPVC EventType.AddEvent
          (c.multiClusterPersistentVolumeClaimController.RequeueObject clusterName vPVC
            EventType.AddEvent)) := by
  induction pvcList generalizing log with
  | nil => simp
  | cons vPVC pvcList ih =>
    rw [List.foldl_cons, ih, checkPVCOfTenantClusterStep_eq, List.filter_cons]
    by_cases h : hostMissing c ext clusterName vPVC = true <;> simp [h]

/-- Claim C11: `checkPVCOfTenantCluster` goes through every tenant claim listed
for the cluster and requeues an Add event for exactly those whose host cache
lookup, at the mapped namespace and the name of the claim, answers not-found;
a tenant claim whose host claim is present, or whose lookup fails otherwise,
gives no call, whatever `CheckPVCEquality` reports; no call creates, updates or
deletes a host object; the answer of a requeue has no influence on the claims
examined after it. -/
theorem checkPVCOfTenantCluster_spec (c : pvcController) (ext : Ext) (clusterName : String) :
    (∀ pvcList : List PersistentVolumeClaim,
      c.multiClusterPersistentVolumeClaimController.List clusterName = Except.ok pvcList →
      checkPVCOfTenantCluster c ext clusterName =
        (pvcList.filter (hostMissing c ext clusterName)).map (fun vPVC =>
          Call.requeueObject clusterName vPVC EventType.AddEvent
            (c.multiClusterPersistentVolumeClaimController.RequeueObject clusterName vPVC
              EventType.AddEvent))) ∧
    (∀ vPVC : PersistentVolumeClaim,
      hostMissing c ext clusterName vPVC = true ↔
        ∃ e, c.pvcListerGet (ext.ToSuperMasterNamespace clusterName vPVC.meta.ns)
            vPVC.meta.name = Except.error e ∧ e.reason = "NotFound") ∧
    (∀ x ∈ checkPVCOfTenantCluster c ext clusterName, isHostWrite x = false) ∧
    (∀ check : PersistentVolumeClaim → PersistentVolumeClaim → Option PersistentVolumeClaim,
      checkPVCOfTenantCluster c { ext with CheckPVCEquality := check } clusterName =
        checkPVCOfTenantCluster c ext clusterName) := by
  have hform : ∀ ext1 : Ext, checkPVCOfTenantCluster c ext1 clusterName =
      match c.multiClusterPersistentVolumeClaimController.List clusterName with
      | Except.error _ => []
      | Except.ok pvcList =>
        (pvcList.filter (hostMissing c ext1 clusterName)).map (fun vPVC =>
          Call.requeueObject clusterName vPVC EventType.AddEvent
            (c.multiClusterPersistentVolumeClaimController.RequeueObject clusterName vPVC
              EventType.AddEvent)) := by
    intro ext1
    unfold checkPVCOfTenantCluster
    cases c.multiClusterPersistentVolumeClaimController.List clusterName with
    | error e => rfl
    | ok pvcList =>
      dsimp only
      rw [checkPVCOfTenantCluster_loop, List.nil_append]
  refine ⟨?_, ?_, ?_, ?_⟩
  · intro pvcList hlist
    rw [hform, hlist]
  · intro vPVC
    unfold hostMissing
    cases c.pvcListerGet (ext.ToSuperMasterNamespace clusterName vPVC.meta.ns)
        vPVC.meta.name with
    | error e => simp [errOf, IsNotFound]
    | ok v => simp [errOf, IsNotFound]
  · intro x hx
    rw [hform] at hx
    cases hl : c.multiClusterPersistentVolumeClaimController.List clusterName with
    | error e =>
      rw [hl] at hx
      simp at hx
    | ok pvcList =>
      rw [hl] at hx
      obtain ⟨v, _, rfl⟩ := List.mem_map.1 hx
      rfl
  · intro check
    rw [hform, hform]
    rfl

/-- Claim C11 on four tenant claims of cluster `west`: `data1` and `data4` have
no host claim and are requeued although the first requeue is refused, `data2`
has a host claim that differs and `data3` a lookup that fails, and neither
gives a call. -/
theorem checkPVCOfTenantCluster_spec_witness :
    checkPVCOfTenantCluster exPVCControllerTenant exExtDrift "west" =
      [Call.requeueObject "west" exTenantPVC1 EventType.AddEvent (some (Errorf "queue closed")),
       Call.requeueObject "west" exTenantPVC4 EventType.AddEvent
         (some (Errorf "queue closed"))] := by
  rw [(checkPVCOfTenantCluster_spec exPVCControllerTenant exExtDrift "west").1
    [exTenantPVC1, exTenantPVC2, exTenantPVC3, exTenantPVC4] rfl]
  rfl

/-! ### `mutateDNSConfig`: fallbacks -/

/-- Claim C15: for a pod with policy `ClusterFirstWithHostNet`, or `ClusterFirst`
without host network, and an empty `nameServer`, `mutateDNSConfig` sets the
policy to `Default` and changes nothing else: the DNS configuration, nil or
not, is the one the pod had. -/
theorem mutateDNSConfig_no_nameServer (p : podMutateCtx) (vPod : Pod) (clusterDomain : String)
    (hpol : p.pPod.spec.dnsPolicy = DNSClusterFirstWithHostNet ∨
      (p.pPod.spec.dnsPolicy = DNSClusterFirst ∧ p.pPod.spec.hostNetwork = false)) :
    (mutateDNSConfig p vPod clusterDomain "").pPod.spec.dnsPolicy = DNSDefault ∧
    (mutateDNSConfig p vPod clusterDomain "").pPod.spec.dnsConfig = p.pPod.spec.dnsConfig ∧
    mutateDNSConfig p vPod clusterDomain "" =
      { p with pPod := { p.pPod with spec := { p.pPod.spec with dnsPolicy := DNSDefault } } } := by
  have h : mutateDNSConfig p vPod clusterDomain "" =
      { p with pPod := { p.pPod with spec := { p.pPod.spec with dnsPolicy := DNSDefault } } } := by
    unfold mutateDNSConfig
    rcases hpol with h | ⟨h, hh⟩
    · simp [h, DNSNone, DNSClusterFirstWithHostNet, mutateClusterFirstDNS]
    · simp [h, hh, DNSNone, DNSClusterFirstWithHostNet, DNSClusterFirst, mutateClusterFirstDNS]
  rw [h]
  exact ⟨rfl, rfl, rfl⟩

/-- Claim C15 on a `ClusterFirst` pod that has a DNS configuration. -/
theorem mutateDNSConfig_no_nameServer_witness :
    (mutateDNSConfig
      { exCtx with pPod := { spec := { dnsPolicy := "ClusterFirst"
                                       dnsConfig := some { nameservers := ["1.1.1.1"] } } } }
      exTenantPod "cluster.local" "").pPod.spec =
      { dnsPolicy := "Default", dnsConfig := some { nameservers := ["1.1.1.1"] } } := by
  rw [(mutateDNSConfig_no_nameServer
    { exCtx with pPod := { spec := { dnsPolicy := "ClusterFirst"
                                     dnsConfig := some { nameservers := ["1.1.1.1"] } } } }
    exTenantPod "cluster.local" (Or.inr ⟨rfl, rfl⟩)).2.2]
  rfl

/-- Claim C16: for a pod with policy `None`, `Default`, or `ClusterFirst` with
host network, whatever the name server and the cluster domain, `mutateDNSConfig`
leaves the policy `None` and the DNS configuration as it was, and changes
nothing but the policy; a pod with policy `None` is returned as it is. -/
theorem mutateDNSConfig_forced_none (p : podMutateCtx) (vPod : Pod)
    (clusterDomain nameServer : String)
    (hpol : p.pPod.spec.dnsPolicy = DNSNone ∨ p.pPod.spec.dnsPolicy = DNSDefault ∨
      (p.pPod.spec.dnsPolicy = DNSClusterFirst ∧ p.pPod.spec.hostNetwork = true)) :
    (mutateDNSConfig p vPod clusterDomain nameServer).pPod.spec.dnsPolicy = DNSNone ∧
    (mutateDNSConfig p vPod clusterDomain nameServer).pPod.spec.dnsConfig =
      p.pPod.spec.dnsConfig ∧
    mutateDNSConfig p vPod clusterDomain nameServer =
      { p with pPod := { p.pPod with spec := { p.pPod.spec with dnsPolicy := DNSNone } } } ∧
    (p.pPod.spec.dnsPolicy = DNSNone → mutateDNSConfig p vPod clusterDomain nameServer = p) := by
  have h : mutateDNSConfig p vPod clusterDomain nameServer =
      { p with pPod := { p.pPod with spec := { p.pPod.spec with dnsPolicy := DNSNone } } } := by
    unfold mutateDNSConfig
    rcases hpol with h | h | ⟨h, hh⟩
    · simp only [h, if_true]
      rw [← h]
    · simp [h, DNSNone, DNSClusterFirstWithHostNet, DNSClusterFirst, DNSDefault]
    · simp [h, hh, DNSNone, DNSClusterFirstWithHostNet, DNSClusterFirst]
  refine ⟨?_, ?_, h, ?_⟩
  · rw [h]
  · rw [h]
  · intro hn
    unfold mutateDNSConfig
    simp only [hn, if_true]

/-- Claim C16 on a host-networked `ClusterFirst` pod that has a DNS configuration. -/
theorem mutateDNSConfig_forced_none_witness :
    (mutateDNSConfig
      { exCtx with pPod := { spec := { dnsPolicy := "ClusterFirst", hostNetwork := true
                                       dnsConfig := some { nameservers := ["1.1.1.1"] } } } }
      exTenantPod "cluster.local" "10.0.0.10").pPod.spec =
      { dnsPolicy := "None", hostNetwork := true
        dnsConfig := some { nameservers := ["1.1.1.1"] } } := by
  rw [(mutateDNSConfig_forced_none
    { exCtx with pPod := { spec := { dnsPolicy := "ClusterFirst", hostNetwork := true
                                     dnsConfig := some { nameservers := ["1.1.1.1"] } } } }
    exTenantPod "cluster.local" "10.0.0.10" (Or.inr (Or.inr ⟨rfl, rfl⟩))).2.2.1]
  rfl

/-! ### `PodMutateDefault`: containers and volumes -/

/-- Function `mutateDNSConfig` changes nothing but the DNS policy and the DNS
configuration. -/
theorem mutateDNSConfig_frame (p : podMutateCtx) (vPod : Pod) (clusterDomain nameServer : String) :
    mutateDNSConfig p vPod clusterDomain nameServer =
      { p with pPod := { p.pPod with spec := { p.pPod.spec with
          dnsPolicy := (mutateDNSConfig p vPod clusterDomain nameServer).pPod.spec.dnsPolicy
          dnsConfig := (mutateDNSConfig p vPod clusterDomain nameServer).pPod.spec.dnsConfig } } } := by
  unfold mutateDNSConfig mutateClusterFirstDNS
  dsimp only
  split_ifs <;> rfl

/-- The containers, init containers and volumes that `PodMutateDefault` leaves,
whatever it returns. -/
theorem PodMutateDefault_lists (ext : Ext) (rt : GoRuntime) (vPod : Pod)
    (vSASecret SASecret : Secret) (services : List Service) (nameServer : String)
    (p : podMutateCtx) :
    (PodMutateDefault ext rt vPod vSASecret SASecret services nameServer p).1.pPod.spec.containers =
      p.pPod.spec.containers.mapIdx (fun i c =>
        mutateContainerSecret
          (mutateContainerEnv c vPod
            (rt.rangeServiceEnvMap i
              (getServiceEnvVarMap ext rt p.pPod.meta.ns p.clusterName
                p.pPod.spec.enableServiceLinks services).2))
          vSASecret SASecret) ∧
    (PodMutateDefault ext rt vPod vSASecret SASecret services nameServer
        p).1.pPod.spec.initContainers =
      p.pPod.spec.initContainers.mapIdx (fun i c =>
        mutateContainerSecret
          (mutateContainerEnv c vPod
            (rt.rangeServiceEnvMap (p.pPod.spec.containers.length + i)
              (getServiceEnvVarMap ext rt p.pPod.meta.ns p.clusterName
                p.pPod.spec.enableServiceLinks services).2))
          vSASecret SASecret) ∧
    (PodMutateDefault ext rt vPod vSASecret SASecret services nameServer p).1.pPod.spec.volumes =
      (mutateVolumes vSASecret SASecret p.pPod.spec.volumes).1 ∧
    ((PodMutateDefault ext rt vPod vSASecret SASecret services nameServer p).2 = Ret.panic ↔
      (mutateVolumes vSASecret SASecret p.pPod.spec.volumes).2 = true) := by
  unfold PodMutateDefault
  dsimp only
  cases hv : (mutateVolumes vSASecret SASecret p.pPod.spec.volumes).2 with
  | true => simp
  | false =>
    simp only [Bool.false_eq_true, if_false, List.length_mapIdx]
    cases p.mc.GetClusterDomain p.clusterName with
    | error e => simp
    | ok clusterDomain =>
      dsimp only
      split_ifs
      · dsimp only
        rw [mutateDNSConfig_frame]
        simp
      · rw [mutateDNSConfig_frame]
        simp

theorem mutateContainerSecret_env (c : Container) (vSASecret SASecret : Secret) :
    (mutateContainerSecret c vSASecret SASecret).env = c.env := rfl

theorem mutateContainerEnv_volumeMounts (c : Container) (vPod : Pod)
    (serviceEnvMap : List (String × String)) :
    (mutateContainerEnv c vPod serviceEnvMap).volumeMounts = c.volumeMounts := by
  rw [mutateContainerEnv_env]

theorem mutateContainerEnv_getElem (c : Container) (vPod : Pod)
    (serviceEnvMap : List (String × String)) (j : Nat) (env : EnvVar)
    (h : c.env[j]? = some env) :
    (mutateContainerEnv c vPod serviceEnvMap).env[j]? = some (mutateDownwardAPIField env vPod) := by
  rw [mutateContainerEnv_env]
  dsimp only
  have hj : j < c.env.length := by
    by_contra hn
    rw [List.getElem?_eq_none (by omega)] at h
    cases h
  rw [List.getElem?_append_left (by simpa using hj)]
  simp [h]

/-! ### `mutateDownwardAPIField`: the downward API fields -/

/-- Claim C13: an environment variable whose field reference is `metadata.name`,
`metadata.namespace` or `metadata.uid` leaves `mutateDownwardAPIField` with its
name, with the name, namespace or UID of the tenant pod as literal value, and
without `ValueFrom`; and `PodMutateDefault` leaves every variable of every
container and init container of the host pod as `mutateDownwardAPIField`
makes it, at its position. -/
theorem mutateDownwardAPIField_metadata (vPod : Pod) :
    (∀ (env : EnvVar) (valueFrom : EnvVarSource) (fieldRef : ObjectFieldSelector),
      env.valueFrom = some valueFrom → valueFrom.fieldRef = some fieldRef →
      (fieldRef.fieldPath = "metadata.name" →
        mutateDownwardAPIField env vPod =
          { name := env.name, value := vPod.meta.name, valueFrom := none }) ∧
      (fieldRef.fieldPath = "metadata.namespace" →
        mutateDownwardAPIField env vPod =
          { name := env.name, value := vPod.meta.ns, valueFrom := none }) ∧
      (fieldRef.fieldPath = "metadata.uid" →
        mutateDownwardAPIField env vPod =
          { name := env.name, value := vPod.meta.uid, valueFrom := none })) ∧
    (∀ (ext : Ext) (rt : GoRuntime) (vSASecret SASecret : Secret) (services : List Service)
      (nameServer : String) (p : podMutateCtx) (i j : Nat) (c : Container) (env : EnvVar),
      c.env[j]? = some env →
      (p.pPod.spec.containers[i]? = some c →
        ∃ c1, (PodMutateDefault ext rt vPod vSASecret SASecret services nameServer
            p).1.pPod.spec.containers[i]? = some c1 ∧
          c1.env[j]? = some (mutateDownwardAPIField env vPod)) ∧
      (p.pPod.spec.initContainers[i]? = some c →
        ∃ c1, (PodMutateDefault ext rt vPod vSASecret SASecret services nameServer
            p).1.pPod.spec.initContainers[i]? = some c1 ∧
          c1.env[j]? = some (mutateDownwardAPIField env vPod))) := by
  refine ⟨?_, ?_⟩
  · intro env valueFrom fieldRef hvf hfr
    refine ⟨?_, ?_, ?_⟩
    · intro hp
      simp only [mutateDownwardAPIField, hvf, hfr, hp]
      have : HasPrefix "metadata.name" "metadata" = true := by decide
      simp [this]
    · intro hp
      simp only [mutateDownwardAPIField, hvf, hfr, hp]
      have : HasPrefix "metadata.namespace" "metadata" = true := by decide
      simp [this]
    · intro hp
      simp only [mutateDownwardAPIField, hvf, hfr, hp]
      have : HasPrefix "metadata.uid" "metadata" = true := by decide
      simp [this]
  · intro ext rt vSASecret SASecret services nameServer p i j c env henv
    obtain ⟨hc, hi, _, _⟩ :=
      PodMutateDefault_lists ext rt vPod vSASecret SASecret services nameServer p
    refine ⟨?_, ?_⟩
    · intro hci
      rw [hc, List.getElem?_mapIdx, hci]
      refine ⟨_, rfl, ?_⟩
      rw [mutateContainerSecret_env]
      exact mutateContainerEnv_getElem c vPod _ j env henv
    · intro hci
      rw [hi, List.getElem?_mapIdx, hci]
      refine ⟨_, rfl, ?_⟩
      rw [mutateContainerSecret_env]
      exact mutateContainerEnv_getElem c vPod _ j env henv

/-- Claim C13 on the variable `POD_NAME` of the container of `exDraftPod`, for
the tenant pod `ns1/pod1`. -/
theorem mutateDownwardAPIField_metadata_witness :
    mutateDownwardAPIField
        { name := "POD_NAME"
          valueFrom := some { fieldRef := some { fieldPath := "metadata.name" } } }
        exTenantPod = { name := "POD_NAME", value := "pod1", valueFrom := none } ∧
    ∃ c1, (PodMutateDefault exExt exRt exTenantPod exTenantSecret exHostSecret [] ""
        { exCtx with pPod := exDraftPod }).1.pPod.spec.containers[0]? = some c1 ∧
      c1.env[0]? = some { name := "POD_NAME", value := "pod1", valueFrom := none } := by
  have h1 := ((mutateDownwardAPIField_metadata exTenantPod).1
    { name := "POD_NAME"
      valueFrom := some { fieldRef := some { fieldPath := "metadata.name" } } }
    { fieldRef := some { fieldPath := "metadata.name" } } { fieldPath := "metadata.name" }
    rfl rfl).1 rfl
  refine ⟨h1, ?_⟩
  have h2 := ((mutateDownwardAPIField_metadata exTenantPod).2 exExt exRt exTenantSecret
    exHostSecret [] "" { exCtx with pPod := exDraftPod } 0 0
    { name := "main"
      env := [{ name := "POD_NAME"
                valueFrom := some { fieldRef := some { fieldPath := "metadata.name" } } }]
      volumeMounts := [{ name := "default-token", mountPath := "/var/run/secrets" },
                       { name := "data", mountPath := "/data" }] }
    { name := "POD_NAME"
      valueFrom := some { fieldRef := some { fieldPath := "metadata.name" } } } rfl).1 rfl
  rw [h1] at h2
  exact h2

/-! ### `PodMutateDefault`: the identity secret -/

/-- The loop over the volumes does not panic when every volume named like the
tenant secret is a secret volume, and then renames exactly those. -/
theorem mutateVolumes_of_secret (vSASecret SASecret : Secret) (volumes : List Volume)
    (hsec : ∀ v ∈ volumes, v.name = vSASecret.meta.name → v.secret ≠ none) :
    mutateVolumes vSASecret SASecret volumes =
      (volumes.map (fun v =>
        if v.name = vSASecret.meta.name then
          { v with name := SASecret.meta.name
                   secret := v.secret.map (fun src =>
                     { src with secretName := SASecret.meta.name }) }
        else v), false) := by
  induction volumes with
  | nil => rfl
  | cons v volumes ih =>
    have ih1 := ih (fun w hw => hsec w (List.mem_cons_of_mem _ hw))
    unfold mutateVolumes
    by_cases hn : v.name = vSASecret.meta.name
    · have hs := hsec v (List.mem_cons_self _ _) hn
      cases hsrc : v.secret with
      | none => exact absurd hsrc hs
      | some src => simp [hn, ih1, hsrc]
    · simp [hn, ih1]

/-- Claim C14: when every volume of the host pod named like the tenant identity
secret is a secret volume, `PodMutateDefault` does not panic and leaves every
such volume, at its position, named like the host identity secret and reading
that secret, every volume mount of that name in every container and init
container named like the host identity secret, and every other volume and
volume mount as it was. -/
theorem PodMutateDefault_identity_secret (ext : Ext) (rt : GoRuntime) (vPod : Pod)
    (vSASecret SASecret : Secret) (services : List Service) (nameServer : String)
    (p : podMutateCtx)
    (hsec : ∀ v ∈ p.pPod.spec.volumes, v.name = vSASecret.meta.name → v.secret ≠ none) :
    (PodMutateDefault ext rt vPod vSASecret SASecret services nameServer p).2 ≠ Ret.panic ∧
    (PodMutateDefault ext rt vPod vSASecret SASecret services nameServer
        p).1.pPod.spec.volumes.length = p.pPod.spec.volumes.length ∧
    (∀ (k : Nat) (v : Volume), p.pPod.spec.volumes[k]? = some v →
      (v.name = vSASecret.meta.name →
        ∃ v1, (PodMutateDefault ext rt vPod vSASecret SASecret services nameServer
            p).1.pPod.spec.volumes[k]? = some v1 ∧
          v1.name = SASecret.meta.name ∧
          (∃ src, v1.secret = some src ∧ src.secretName = SASecret.meta.name) ∧
          v1.other = v.other) ∧
      (v.name ≠ vSASecret.meta.name →
        (PodMutateDefault ext rt vPod vSASecret SASecret services nameServer
          p).1.pPod.spec.volumes[k]? = some v)) ∧
    (∀ (i : Nat) (c : Container),
      (p.pPod.spec.containers[i]? = some c →
        ∃ c1, (PodMutateDefault ext rt vPod vSASecret SASecret services nameServer
            p).1.pPod.spec.containers[i]? = some c1 ∧
          c1.volumeMounts.length = c.volumeMounts.length ∧
          ∀ (j : Nat) (m : VolumeMount), c.volumeMounts[j]? = some m →
            c1.volumeMounts[j]? =
              some (if m.name = vSASecret.meta.name then { m with name := SASecret.meta.name }
                else m)) ∧
      (p.pPod.spec.initContainers[i]? = some c →
        ∃ c1, (PodMutateDefault ext rt vPod vSASecret SASecret services nameServer
            p).1.pPod.spec.initContainers[i]? = some c1 ∧
          c1.volumeMounts.length = c.volumeMounts.length ∧
          ∀ (j : Nat) (m : VolumeMount), c.volumeMounts[j]? = some m →
            c1.volumeMounts[j]? =
              some (if m.name = vSASecret.meta.name then { m with name := SASecret.meta.name }
                else m))) := by
  obtain ⟨hc, hi, hv, hpanic⟩ :=
    PodMutateDefault_lists ext rt vPod vSASecret SASecret services nameServer p
  have hvol := mutateVolumes_of_secret vSASecret SASecret p.pPod.spec.volumes hsec
  have hmount : ∀ (c : Container) (m1 : List (String × String)),
      (mutateContainerSecret (mutateContainerEnv c vPod m1) vSASecret SASecret).volumeMounts =
        c.volumeMounts.map (fun m =>
          if m.name = vSASecret.meta.name then { m with name := SASecret.meta.name } else m) := by
    intro c m1
    simp only [mutateContainerSecret, mutateContainerEnv_volumeMounts]
  refine ⟨?_, ?_, ?_, ?_⟩
  · intro h
    have := hpanic.1 h
    rw [hvol] at this
    cases this
  · rw [hv, hvol]
    simp
  · intro k v hk
    rw [hv, hvol]
    dsimp only
    rw [List.getElem?_map, hk]
    refine ⟨?_, ?_⟩
    · intro hn
      have hs := hsec v (List.getElem?_mem hk) hn
      cases hsrc : v.secret with
      | none => exact absurd hsrc hs
      | some src =>
        refine ⟨_, rfl, ?_⟩
        simp [hn, hsrc]
    · intro hn
      simp [hn]
  · intro i c
    refine ⟨?_, ?_⟩
    · intro hci
      rw [hc, List.getElem?_mapIdx, hci]
      refine ⟨_, rfl, ?_, ?_⟩
      · rw [hmount]
        simp
      · intro j m hj
        rw [hmount, List.getElem?_map, hj]
        rfl
    · intro hci
      rw [hi, List.getElem?_mapIdx, hci]
      refine ⟨_, rfl, ?_, ?_⟩
      · rw [hmount]
        simp
      · intro j m hj
        rw [hmount, List.getElem?_map, hj]
        rfl

/-- Claim C14 on `exDraftPod`: the token volume and its mount are renamed to
the host secret, the data volume and its mount are left alone. -/
theorem PodMutateDefault_identity_secret_witness :
    (PodMutateDefault exExt exRt exTenantPod exTenantSecret exHostSecret [] ""
        { exCtx with pPod := exDraftPod }).1.pPod.spec.volumes =
      [{ name := "default-token-x7", secret := some { secretName := "default-token-x7" } },
       { name := "data", other := some "emptyDir" }] ∧
    (PodMutateDefault exExt exRt exTenantPod exTenantSecret exHostSecret [] ""
        { exCtx with pPod := exDraftPod }).2 ≠ Ret.panic :=
  ⟨rfl, (PodMutateDefault_identity_secret exExt exRt exTenantPod exTenantSecret exHostSecret [] ""
    { exCtx with pPod := exDraftPod } (by decide)).1⟩

/-! ### `reconcilePodUpdate`: synchronisation and lookup errors -/

/-- Claim C17: for an Update with the host pod in the cache and the tenant pod
not marked for deletion, a host update is issued exactly when `CheckPodEquality`
returns a candidate, and with that candidate; when the update fails its error
is returned and nothing is enqueued; otherwise the host pod (the one returned
by the update, or the cached one when there was no update) is enqueued exactly
when its status differs from the status of the tenant pod, and nil is
returned. -/
theorem reconcilePodUpdate_sync (c : controller) (ext : Ext) (cluster ns name : String)
    (vPod pPod : Pod)
    (hhost : c.podLister (ext.ToSuperMasterNamespace cluster ns) name = Except.ok pPod)
    (hdel : vPod.meta.deletionTimestamp = none) :
    (∀ updatedPod, ext.CheckPodEquality pPod vPod = some updatedPod →
      (∀ err, c.client.podsUpdate (ext.ToSuperMasterNamespace cluster ns) updatedPod =
          Except.error err →
        reconcilePodUpdate c ext cluster ns name vPod =
          ([Call.hostPodUpdate (ext.ToSuperMasterNamespace cluster ns) updatedPod (some err)],
            Ret.err err)) ∧
      (∀ pPod1, c.client.podsUpdate (ext.ToSuperMasterNamespace cluster ns) updatedPod =
          Except.ok pPod1 →
        reconcilePodUpdate c ext cluster ns name vPod =
          (Call.hostPodUpdate (ext.ToSuperMasterNamespace cluster ns) updatedPod none ::
              (if ext.SemanticDeepEqual vPod.status pPod1.status then []
                else [Call.enqueuePod pPod1]),
            Ret.nil))) ∧
    (ext.CheckPodEquality pPod vPod = none →
      reconcilePodUpdate c ext cluster ns name vPod =
        ((if ext.SemanticDeepEqual vPod.status pPod.status then [] else [Call.enqueuePod pPod]),
          Ret.nil)) := by
  refine ⟨?_, ?_⟩
  · intro updatedPod hcheck
    refine ⟨?_, ?_⟩
    · intro err hupd
      simp only [reconcilePodUpdate, hhost, hdel, ne_eq, not_true_eq_false, if_false, hcheck, hupd]
    · intro pPod1 hupd
      simp only [reconcilePodUpdate, hhost, hdel, ne_eq, not_true_eq_false, if_false, hcheck, hupd]
      cases ext.SemanticDeepEqual vPod.status pPod1.status <;> simp
  · intro hcheck
    simp only [reconcilePodUpdate, hhost, hdel, ne_eq, not_true_eq_false, if_false, hcheck]
    cases ext.SemanticDeepEqual vPod.status pPod.status <;> simp

/-- Claim C17 on the running tenant pod `ns1/pod1`, a comparison that proposes
a candidate and a host API that accepts it: the candidate is sent and, its
status being empty, the returned host pod is enqueued. -/
theorem reconcilePodUpdate_sync_witness :
    reconcilePodUpdate exControllerHostPresent exExtPatch "west" "ns1" "pod1" exRunningPod =
      ([Call.hostPodUpdate "west-ns1" exHostPod none, Call.enqueuePod exHostPod], Ret.nil) :=
  ((reconcilePodUpdate_sync exControllerHostPresent exExtPatch "west" "ns1" "pod1" exRunningPod
    exHostPod rfl rfl).1 exHostPod rfl).2 exHostPod rfl

/-- Claim C18: when the host cache lookup of an Update answers not-found,
`reconcilePodUpdate` issues no call and returns nil, whether or not the tenant
pod is marked for deletion; any other lookup error is returned as it is, again
without a call. -/
theorem reconcilePodUpdate_lookup_error (c : controller) (ext : Ext) (cluster ns name : String)
    (vPod : Pod) (e : Err)
    (hlookup : c.podLister (ext.ToSuperMasterNamespace cluster ns) name = Except.error e) :
    (e.reason = "NotFound" → reconcilePodUpdate c ext cluster ns name vPod = ([], Ret.nil)) ∧
    (e.reason ≠ "NotFound" → reconcilePodUpdate c ext cluster ns name vPod = ([], Ret.err e)) := by
  refine ⟨?_, ?_⟩
  · intro h
    simp [reconcilePodUpdate, hlookup, IsNotFound, h]
  · intro h
    simp [reconcilePodUpdate, hlookup, IsNotFound, h]

/-- Claim C18 on a host cache without the pod, and on one whose lookup fails. -/
theorem reconcilePodUpdate_lookup_error_witness :
    reconcilePodUpdate exControllerCreate exExt "west" "ns1" "pod1" exDeletingPod =
      ([], Ret.nil) ∧
    reconcilePodUpdate exControllerBrokenCache exExt "west" "ns1" "pod1" exTenantPod =
      ([], Ret.err (Errorf "cache is broken")) :=
  ⟨(reconcilePodUpdate_lookup_error exControllerCreate exExt "west" "ns1" "pod1" exDeletingPod
      exNotFound rfl).1 rfl,
   (reconcilePodUpdate_lookup_error exControllerBrokenCache exExt "west" "ns1" "pod1" exTenantPod
      (Errorf "cache is broken") rfl).2 (by decide)⟩

/-! ### `reconcilePodRemove`: the Delete event -/

/-- Claim C19: for a Delete event `reconcilePodRemove` issues exactly one call,
the host delete of the pod at the mapped namespace and the name; the call and
the outcome do not depend on the host cache or on the tenant snapshot; the
outcome is nil when the delete succeeds or answers not-found and the error of
the delete otherwise, and then `Reconcile` returns that error with a requeue. -/
theorem reconcilePodRemove_spec (c : controller) (ext : Ext) (rt : GoRuntime)
    (cluster ns name : String) (vPod : Pod) :
    (∃ opts, (reconcilePodRemove c ext cluster ns name vPod).1 =
      [Call.hostPodDelete (ext.ToSuperMasterNamespace cluster ns) name opts
        (c.client.podsDelete (ext.ToSuperMasterNamespace cluster ns) name opts)] ∧
      (c.client.podsDelete (ext.ToSuperMasterNamespace cluster ns) name opts = none →
        (reconcilePodRemove c ext cluster ns name vPod).2 = Ret.nil ∧
        (Reconcile c ext rt ⟨cluster, ns, name, EventType.DeleteEvent, vPod⟩).2 =
          ({ requeue := false }, Ret.nil)) ∧
      (∀ e, c.client.podsDelete (ext.ToSuperMasterNamespace cluster ns) name opts = some e →
        (e.reason = "NotFound" →
          (reconcilePodRemove c ext cluster ns name vPod).2 = Ret.nil ∧
          (Reconcile c ext rt ⟨cluster, ns, name, EventType.DeleteEvent, vPod⟩).2 =
            ({ requeue := false }, Ret.nil)) ∧
        (e.reason ≠ "NotFound" →
          (reconcilePodRemove c ext cluster ns name vPod).2 = Ret.err e ∧
          (Reconcile c ext rt ⟨cluster, ns, name, EventType.DeleteEvent, vPod⟩).2 =
            ({ requeue := true }, Ret.err e)))) ∧
    (∀ (lister : String → String → Except Err Pod) (vPod2 : Pod),
      reconcilePodRemove { c with podLister := lister } ext cluster ns name vPod2 =
        reconcilePodRemove c ext cluster ns name vPod) := by
  refine ⟨⟨{ propagationPolicy := some ext.consts.DefaultDeletionPolicy }, ?_, ?_, ?_⟩, ?_⟩
  · simp only [reconcilePodRemove]
    split_ifs <;> rfl
  · intro hnone
    have h : (reconcilePodRemove c ext cluster ns name vPod).2 = Ret.nil := by
      simp [reconcilePodRemove, hnone, IsNotFound, Ret.ofErr]
    refine ⟨h, ?_⟩
    simp only [Reconcile, h]
  · intro e he
    refine ⟨?_, ?_⟩
    · intro hr
      have h : (reconcilePodRemove c ext cluster ns name vPod).2 = Ret.nil := by
        simp [reconcilePodRemove, he, IsNotFound, hr]
      refine ⟨h, ?_⟩
      simp only [Reconcile, h]
    · intro hr
      have h : (reconcilePodRemove c ext cluster ns name vPod).2 = Ret.err e := by
        simp [reconcilePodRemove, he, IsNotFound, hr, Ret.ofErr]
      refine ⟨h, ?_⟩
      simp only [Reconcile, h]
  · intro lister vPod2
    rfl

/-- Claim C19 on a host API that refuses the delete: `Reconcile` returns the
error with a requeue. -/
theorem reconcilePodRemove_spec_witness :
    (Reconcile exControllerNoDelete exExt exRt
      ⟨"west", "ns1", "pod1", EventType.DeleteEvent, exTenantPod⟩).2 =
      ({ requeue := true }, Ret.err (Errorf "delete refused")) := by
  obtain ⟨⟨opts, hlog, _, herr⟩, _⟩ :=
    reconcilePodRemove_spec exControllerNoDelete exExt exRt "west" "ns1" "pod1" exTenantPod
  exact ((herr (Errorf "delete refused") rfl).2 (by decide)).2

/-! ### `PodAddExtensionMeta` -/

theorem mapLookup_mapSet_self (m : List (String × String)) (k v : String) :
    mapLookup (mapSet m k v) k = some v := by
  unfold mapLookup mapSet
  by_cases hany : m.any (fun kv => kv.1 == k) = true
  · rw [if_pos hany]
    induction m with
    | nil => simp at hany
    | cons a m ih =>
      rw [List.map_cons, List.find?_cons]
      cases ha : (a.1 == k) with
      | true => simp
      | false =>
        have hany1 : m.any (fun kv => kv.1 == k) = true := by
          simpa [ha] using hany
        simp only [Bool.false_eq_true, if_false, ha]
        exact ih hany1
  · rw [if_neg hany, List.find?_append]
    have hnone : m.find? (fun kv => kv.1 == k) = none := by
      rw [List.find?_eq_none]
      intro x hx hk
      exact hany (List.any_eq_true.2 ⟨x, hx, hk⟩)
    simp [hnone]

theorem mapLookup_mapSet_ne (m : List (String × String)) (k v k1 : String) (h : k1 ≠ k) :
    mapLookup (mapSet m k v) k1 = mapLookup m k1 := by
  unfold mapLookup mapSet
  have hk : (k == k1) = false := by
    simpa using fun h1 : k = k1 => h h1.symm
  by_cases hany : m.any (fun kv => kv.1 == k) = true
  · rw [if_pos hany]
    congr 1
    clear hany
    induction m with
    | nil => rfl
    | cons a m ih =>
      rw [List.map_cons, List.find?_cons, List.find?_cons, ih]
      cases ha : (a.1 == k) with
      | true =>
        have ha1 : (a.1 == k1) = false := by
          have hak : a.1 = k := by simpa using ha
          rw [hak]
          exact hk
        simp only [if_true, hk, ha1]
      | false => simp only [Bool.false_eq_true, if_false]
  · rw [if_neg hany, List.find?_append]
    simp [hk]

/-- Claim C20: `PodAddExtensionMeta` returns nil and leaves the context as it
is, whatever the tenant cluster would answer, unless the first owner reference
of the tenant pod has kind `ReplicaSet`.  In that case it returns an error,
leaving the context as it is, exactly when the tenant client cannot be
obtained or the replica set cannot be fetched; a replica set without owner
gives nil and no change; otherwise it returns nil and changes only the labels
of the host pod: the deployment-name and deployment-UID labels (two different
keys) are bound to the name and UID of the first owner of the replica set and
every other key is bound as before. -/
theorem PodAddExtensionMeta_spec (ext : Ext) (vPod : Pod) (p : podMutateCtx) :
    (vPod.meta.ownerReferences = [] → PodAddExtensionMeta ext vPod p = (p, Ret.nil)) ∧
    (∀ owner rest, vPod.meta.ownerReferences = owner :: rest →
      (owner.kind ≠ "ReplicaSet" → PodAddExtensionMeta ext vPod p = (p, Ret.nil)) ∧
      (owner.kind = "ReplicaSet" →
        (∀ err, p.mc.GetClusterClient p.clusterName = Except.error err →
          PodAddExtensionMeta ext vPod p =
            (p, Ret.err (Errorf ("vc " ++ p.clusterName ++ " failed to get client: " ++
              err.msg)))) ∧
        (∀ client, p.mc.GetClusterClient p.clusterName = Except.ok client →
          (∀ err, client.replicaSetsGet vPod.meta.ns owner.name = Except.error err →
            PodAddExtensionMeta ext vPod p =
              (p, Ret.err (Errorf ("vc " ++ p.clusterName ++
                " failed to get replicaset object " ++ owner.name ++ " in " ++ vPod.meta.ns ++
                ": " ++ err.msg)))) ∧
          (∀ rs, client.replicaSetsGet vPod.meta.ns owner.name = Except.ok rs →
            (rs.meta.ownerReferences = [] → PodAddExtensionMeta ext vPod p = (p, Ret.nil)) ∧
            (∀ rsOwner rest1, rs.meta.ownerReferences = rsOwner :: rest1 →
              (PodAddExtensionMeta ext vPod p).2 = Ret.nil ∧
              (PodAddExtensionMeta ext vPod p).1 =
                { p with pPod := { p.pPod with meta := { p.pPod.meta with
                    labels := (PodAddExtensionMeta ext vPod p).1.pPod.meta.labels } } } ∧
              mapLookup (PodAddExtensionMeta ext vPod p).1.pPod.meta.labels
                ext.consts.LabelExtendDeploymentUID = some rsOwner.uid ∧
              (ext.consts.LabelExtendDeploymentName ≠ ext.consts.LabelExtendDeploymentUID →
                mapLookup (PodAddExtensionMeta ext vPod p).1.pPod.meta.labels
                  ext.consts.LabelExtendDeploymentName = some rsOwner.name) ∧
              (∀ k, k ≠ ext.consts.LabelExtendDeploymentName →
                k ≠ ext.consts.LabelExtendDeploymentUID →
                mapLookup (PodAddExtensionMeta ext vPod p).1.pPod.meta.labels k =
                  mapLookup p.pPod.meta.labels k)))) ∧
        ((∃ e, (PodAddExtensionMeta ext vPod p).2 = Ret.err e) ↔
          ((∃ err, p.mc.GetClusterClient p.clusterName = Except.error err) ∨
            ∃ client err, p.mc.GetClusterClient p.clusterName = Except.ok client ∧
              client.replicaSetsGet vPod.meta.ns owner.name = Except.error err)))) := by
  refine ⟨?_, ?_⟩
  · intro h
    simp only [PodAddExtensionMeta, h]
  · intro owner rest hown
    refine ⟨?_, ?_⟩
    · intro hk
      simp only [PodAddExtensionMeta, hown, hk, ne_eq, not_false_eq_true, if_true]
    · intro hk
      have hrun : PodAddExtensionMeta ext vPod p =
          match p.mc.GetClusterClient p.clusterName with
          | Except.error err =>
            (p, Ret.err (Errorf ("vc " ++ p.clusterName ++ " failed to get client: " ++
              err.msg)))
          | Except.ok client =>
            match client.replicaSetsGet vPod.meta.ns owner.name with
            | Except.error err =>
              (p, Ret.err (Errorf ("vc " ++ p.clusterName ++
                " failed to get replicaset object " ++ owner.name ++ " in " ++ vPod.meta.ns ++
                ": " ++ err.msg)))
            | Except.ok replicaSetObj =>
              match replicaSetObj.meta.ownerReferences with
              | [] => (p, Ret.nil)
              | rsOwner :: _ =>
                ({ p with pPod := { p.pPod with meta := { p.pPod.meta with
                    labels := mapSet
                      (mapSet p.pPod.meta.labels ext.consts.LabelExtendDeploymentName
                        rsOwner.name)
                      ext.consts.LabelExtendDeploymentUID rsOwner.uid } } }, Ret.nil) := by
        simp only [PodAddExtensionMeta, hown, hk, ne_eq, not_true_eq_false, if_false]
      refine ⟨?_, ?_, ?_⟩
      · intro err hc
        rw [hrun, hc]
      · intro client hc
        refine ⟨?_, ?_⟩
        · intro err hrs
          rw [hrun, hc]
          dsimp only
          rw [hrs]
        · intro rs hrs
          have hrun1 : PodAddExtensionMeta ext vPod p =
              match rs.meta.ownerReferences with
              | [] => (p, Ret.nil)
              | rsOwner :: _ =>
                ({ p with pPod := { p.pPod with meta := { p.pPod.meta with
                    labels := mapSet
                      (mapSet p.pPod.meta.labels ext.consts.LabelExtendDeploymentName
                        rsOwner.name)
                      ext.consts.LabelExtendDeploymentUID rsOwner.uid } } }, Ret.nil) := by
            rw [hrun, hc]
            dsimp only
            rw [hrs]
          refine ⟨?_, ?_⟩
          · intro hnil
            rw [hrun1, hnil]
          · intro rsOwner rest1 hcons
            rw [hrun1, hcons]
            dsimp only
            refine ⟨rfl, rfl, ?_, ?_, ?_⟩
            · exact mapLookup_mapSet_self _ _ _
            · intro hne
              rw [mapLookup_mapSet_ne _ _ _ _ hne]
              exact mapLookup_mapSet_self _ _ _
            · intro k hk1 hk2
              rw [mapLookup_mapSet_ne _ _ _ _ hk2, mapLookup_mapSet_ne _ _ _ _ hk1]
      · rw [hrun]
        cases hc : p.mc.GetClusterClient p.clusterName with
        | error err => exact ⟨fun _ => Or.inl ⟨err, rfl⟩, fun _ => ⟨_, rfl⟩⟩
        | ok client =>
          dsimp only
          cases hrs : client.replicaSetsGet vPod.meta.ns owner.name with
          | error err =>
            exact ⟨fun _ => Or.inr ⟨client, err, rfl, hrs⟩, fun _ => ⟨_, rfl⟩⟩
          | ok rs =>
            dsimp only
            have hno : ¬ ((∃ err, (Except.ok client : Except Err TenantClient) =
                Except.error err) ∨
                ∃ client1 err, (Except.ok client : Except Err TenantClient) =
                  Except.ok client1 ∧
                  client1.replicaSetsGet vPod.meta.ns owner.name = Except.error err) := by
              rintro (⟨err, h1⟩ | ⟨client1, err, h1, h2⟩)
              · cases h1
              · injection h1 with h1
                subst h1
                rw [hrs] at h2
                cases h2
            cases rs.meta.ownerReferences with
            | nil => exact ⟨fun ⟨e, he⟩ => (by cases he), fun h1 => absurd h1 hno⟩
            | cons rsOwner rest1 => exact ⟨fun ⟨e, he⟩ => (by cases he), fun h1 => absurd h1 hno⟩

/-- Claim C20 on the tenant pod of the replica set `web-5d4`, which the
deployment `web` owns: the host pod keeps its label `app` and gets the two
extension labels. -/
theorem PodAddExtensionMeta_spec_witness :
    PodAddExtensionMeta exExt exReplicaPod
        { mc := exMCDeployment, clusterName := "west"
          pPod := { meta := { name := "web-5d4-x", labels := [("app", "web")] } } } =
      ({ mc := exMCDeployment, clusterName := "west"
         pPod := { meta := { name := "web-5d4-x"
                             labels := [("app", "web"),
                               ("tenancy.x-k8s.io/extend.deployment.name", "web"),
                               ("tenancy.x-k8s.io/extend.deployment.uid", "d1")] } } },
        Ret.nil) := by
  obtain ⟨_, h⟩ := PodAddExtensionMeta_spec exExt exReplicaPod
    { mc := exMCDeployment, clusterName := "west"
      pPod := { meta := { name := "web-5d4-x", labels := [("app", "web")] } } }
  obtain ⟨_, h1, _⟩ := (h { kind := "ReplicaSet", name := "web-5d4", uid := "r1" } [] rfl).2 rfl
  obtain ⟨hnil, hframe, _⟩ := ((h1 _ rfl).2 _ rfl).2
    { kind := "Deployment", name := "web", uid := "d1" } [] rfl
  rw [Prod.ext_iff]
  refine ⟨?_, hnil⟩
  rw [hframe]
  rfl

/-! ### `PodMutateKubeConfig` -/

/-- Claim C21: `PodMutateKubeConfig` returns nil, appends to the volumes of the
pod exactly one volume, a secret volume that reads the given secret and is
named `vc-kubeconfig-` followed by the new UUID, and appends to the volume
mounts of every container and every init container exactly one mount, which
names that volume, is read-only and has the given mount path; the volumes and
mounts that were there stay in their order, and nothing else changes. -/
theorem PodMutateKubeConfig_spec (rt : GoRuntime) (vPod : Pod) (secret : Secret)
    (mountPath : String) (p : podMutateCtx) :
    (PodMutateKubeConfig rt vPod secret mountPath p).2 = Ret.nil ∧
    (PodMutateKubeConfig rt vPod secret mountPath p).1.pPod.spec.volumes =
      p.pPod.spec.volumes ++
        [{ name := "vc-kubeconfig-" ++ rt.NewUUID
           secret := some { secretName := secret.meta.name }, other := none }] ∧
    (PodMutateKubeConfig rt vPod secret mountPath p).1.pPod.spec.containers.length =
      p.pPod.spec.containers.length ∧
    (PodMutateKubeConfig rt vPod secret mountPath p).1.pPod.spec.initContainers.length =
      p.pPod.spec.initContainers.length ∧
    (∀ (i : Nat) (c : Container),
      (p.pPod.spec.containers[i]? = some c →
        (PodMutateKubeConfig rt vPod secret mountPath p).1.pPod.spec.containers[i]? =
          some { c with volumeMounts := c.volumeMounts ++
            [{ name := "vc-kubeconfig-" ++ rt.NewUUID, readOnly := true
               mountPath := mountPath }] }) ∧
      (p.pPod.spec.initContainers[i]? = some c →
        (PodMutateKubeConfig rt vPod secret mountPath p).1.pPod.spec.initContainers[i]? =
          some { c with volumeMounts := c.volumeMounts ++
            [{ name := "vc-kubeconfig-" ++ rt.NewUUID, readOnly := true
               mountPath := mountPath }] })) ∧
    (PodMutateKubeConfig rt vPod secret mountPath p).1 =
      { p with pPod := { p.pPod with spec := { p.pPod.spec with
          volumes := (PodMutateKubeConfig rt vPod secret mountPath p).1.pPod.spec.volumes
          containers := (PodMutateKubeConfig rt vPod secret mountPath p).1.pPod.spec.containers
          initContainers :=
            (PodMutateKubeConfig rt vPod secret mountPath p).1.pPod.spec.initContainers } } } := by
  refine ⟨rfl, rfl, ?_, ?_, ?_, rfl⟩
  · simp [PodMutateKubeConfig]
  · simp [PodMutateKubeConfig]
  · intro i c
    refine ⟨?_, ?_⟩
    · intro h
      simp [PodMutateKubeConfig, List.getElem?_map, h]
    · intro h
      simp [PodMutateKubeConfig, List.getElem?_map, h]

/-- Claim C21 on `exDraftPod`, for the mount path `/etc/kubeconfig`. -/
theorem PodMutateKubeConfig_spec_witness :
    (PodMutateKubeConfig exRt exTenantPod exHostSecret "/etc/kubeconfig"
        { exCtx with pPod := exDraftPod }).1.pPod.spec.containers[0]? =
      some { name := "main"
             env := [{ name := "POD_NAME"
                       valueFrom := some { fieldRef := some { fieldPath := "metadata.name" } } }]
             volumeMounts := [{ name := "default-token", mountPath := "/var/run/secrets" },
                              { name := "data", mountPath := "/data" },
                              { name := "vc-kubeconfig-0000", readOnly := true
                                mountPath := "/etc/kubeconfig" }] } :=
  ((PodMutateKubeConfig_spec exRt exTenantPod exHostSecret "/etc/kubeconfig"
    { exCtx with pPod := exDraftPod }).2.2.2.2.1 0 _).1 rfl

/-! ### `PodMutateDefault`: status, node name and subdomain -/

/-- Claim C23: whenever `PodMutateDefault` returns nil, the host pod has the
empty status, no node name and no subdomain, whatever the draft carried. -/
theorem PodMutateDefault_cleared (ext : Ext) (rt : GoRuntime) (vPod : Pod)
    (vSASecret SASecret : Secret) (services : List Service) (nameServer : String)
    (p : podMutateCtx)
    (hnil : (PodMutateDefault ext rt vPod vSASecret SASecret services nameServer p).2 = Ret.nil) :
    (PodMutateDefault ext rt vPod vSASecret SASecret services nameServer p).1.pPod.status = {} ∧
    (PodMutateDefault ext rt vPod vSASecret SASecret services nameServer p).1.pPod.spec.nodeName =
      "" ∧
    (PodMutateDefault ext rt vPod vSASecret SASecret services nameServer p).1.pPod.spec.subdomain =
      "" := by
  unfold PodMutateDefault at hnil ⊢
  dsimp only at hnil ⊢
  cases hv : (mutateVolumes vSASecret SASecret p.pPod.spec.volumes).2 with
  | true =>
    rw [hv] at hnil
    simp at hnil
  | false =>
    rw [hv] at hnil
    simp only [Bool.false_eq_true, if_false] at hnil ⊢
    cases hd : p.mc.GetClusterDomain p.clusterName with
    | error e =>
      rw [hd] at hnil
      simp at hnil
    | ok clusterDomain =>
      dsimp only
      split_ifs with hsub
      · dsimp only
        rw [mutateDNSConfig_frame]
        exact ⟨rfl, rfl, rfl⟩
      · refine ⟨?_, ?_, ?_⟩
        · rw [mutateDNSConfig_frame]
        · rw [mutateDNSConfig_frame]
        · simpa using hsub

/-- Claim C23 on a draft that carries a status, a node name and a subdomain. -/
theorem PodMutateDefault_cleared_witness :
    (PodMutateDefault exExt exRt exTenantPod exTenantSecret exHostSecret [] ""
        { exCtx with pPod := { exDraftPod with
            status := { phase := "Running" }
            spec := { exDraftPod.spec with nodeName := "n1", subdomain := "web" } } }).1.pPod.status =
      {} ∧
    (PodMutateDefault exExt exRt exTenantPod exTenantSecret exHostSecret [] ""
        { exCtx with pPod := { exDraftPod with
            status := { phase := "Running" }
            spec := { exDraftPod.spec with nodeName := "n1", subdomain := "web" } } }).1.pPod.spec.nodeName =
      "" ∧
    (PodMutateDefault exExt exRt exTenantPod exTenantSecret exHostSecret [] ""
        { exCtx with pPod := { exDraftPod with
            status := { phase := "Running" }
            spec := { exDraftPod.spec with nodeName := "n1", subdomain := "web" } } }).1.pPod.spec.subdomain =
      "" :=
  PodMutateDefault_cleared exExt exRt exTenantPod exTenantSecret exHostSecret [] ""
    { exCtx with pPod := { exDraftPod with
        status := { phase := "Running" }
        spec := { exDraftPod.spec with nodeName := "n1", subdomain := "web" } } } rfl

/-! ### `mutateDownwardAPIField`: the variables left alone -/

/-- Claim C26: `mutateDownwardAPIField` changes a variable only when its
`ValueFrom` has a `FieldRef` whose `FieldPath` starts with `metadata`: a
variable without `ValueFrom`, without `FieldRef`, or with another path, such as
`status.podIP` or `spec.nodeName`, comes back as it was; and for a path that
starts with `metadata` and is none of `metadata.name`, `metadata.namespace` and
`metadata.uid`, the `ValueFrom` is cleared and the name and the value stay. -/
theorem mutateDownwardAPIField_frame (env : EnvVar) (vPod : Pod) :
    (env.valueFrom = none → mutateDownwardAPIField env vPod = env) ∧
    (∀ valueFrom : EnvVarSource, env.valueFrom = some valueFrom →
      valueFrom.fieldRef = none → mutateDownwardAPIField env vPod = env) ∧
    (∀ (valueFrom : EnvVarSource) (fieldRef : ObjectFieldSelector),
      env.valueFrom = some valueFrom → valueFrom.fieldRef = some fieldRef →
      (HasPrefix fieldRef.fieldPath "metadata" = false →
        mutateDownwardAPIField env vPod = env) ∧
      (HasPrefix fieldRef.fieldPath "metadata" = true →
        fieldRef.fieldPath ≠ "metadata.name" → fieldRef.fieldPath ≠ "metadata.namespace" →
        fieldRef.fieldPath ≠ "metadata.uid" →
        mutateDownwardAPIField env vPod =
          { name := env.name, value := env.value, valueFrom := none })) ∧
    (mutateDownwardAPIField env vPod ≠ env →
      ∃ (valueFrom : EnvVarSource) (fieldRef : ObjectFieldSelector),
        env.valueFrom = some valueFrom ∧ valueFrom.fieldRef = some fieldRef ∧
        HasPrefix fieldRef.fieldPath "metadata" = true) ∧
    HasPrefix "status.podIP" "metadata" = false ∧
    HasPrefix "spec.nodeName" "metadata" = false := by
  refine ⟨?_, ?_, ?_, ?_, by decide, by decide⟩
  · intro h
    simp only [mutateDownwardAPIField, h]
  · intro valueFrom h1 h2
    simp only [mutateDownwardAPIField, h1, h2]
  · intro valueFrom fieldRef h1 h2
    refine ⟨?_, ?_⟩
    · intro hp
      simp [mutateDownwardAPIField, h1, h2, hp]
    · intro hp hn hns hu
      simp [mutateDownwardAPIField, h1, h2, hp, hn, hns, hu]
  · intro hne
    cases h1 : env.valueFrom with
    | none =>
      exact absurd (by simp only [mutateDownwardAPIField, h1]) hne
    | some valueFrom =>
      cases h2 : valueFrom.fieldRef with
      | none =>
        exact absurd (by simp only [mutateDownwardAPIField, h1, h2]) hne
      | some fieldRef =>
        cases hp : HasPrefix fieldRef.fieldPath "metadata" with
        | false =>
          exact absurd (by simp [mutateDownwardAPIField, h1, h2, hp]) hne
        | true => exact ⟨valueFrom, fieldRef, rfl, h2, hp⟩

/-- Claim C26 on three variables: one that reads `status.podIP`, which stays,
one that reads a label, whose `ValueFrom` is cleared while its value stays, and
one with a literal value, which stays. -/
theorem mutateDownwardAPIField_frame_witness :
    mutateDownwardAPIField
        { name := "POD_IP", value := "old"
          valueFrom := some { fieldRef := some { fieldPath := "status.podIP" } } }
        exTenantPod =
      { name := "POD_IP", value := "old"
        valueFrom := some { fieldRef := some { fieldPath := "status.podIP" } } } ∧
    mutateDownwardAPIField
        { name := "APP", value := "old"
          valueFrom := some { fieldRef := some { fieldPath := "metadata.labels[\x27app\x27]" } } }
        exTenantPod =
      { name := "APP", value := "old", valueFrom := none } ∧
    mutateDownwardAPIField { name := "MODE", value := "fast" } exTenantPod =
      { name := "MODE", value := "fast" } :=
  ⟨((mutateDownwardAPIField_frame
      { name := "POD_IP", value := "old"
        valueFrom := some { fieldRef := some { fieldPath := "status.podIP" } } }
      exTenantPod).2.2.1 _ _ rfl rfl).1 (by decide),
   ((mutateDownwardAPIField_frame
      { name := "APP", value := "old"
        valueFrom := some { fieldRef := some { fieldPath := "metadata.labels[\x27app\x27]" } } }
      exTenantPod).2.2.1 _ _ rfl rfl).2 (by decide) (by decide) (by decide) (by decide),
   (mutateDownwardAPIField_frame { name := "MODE", value := "fast" } exTenantPod).1 rfl⟩

/-! ### `getServiceEnvVarMap`: the services that contribute -/

theorem mem_mapSet {β : Type} (m : List (String × β)) (k : String) (v : β) (x : String × β)
    (hx : x ∈ mapSet m k v) : x ∈ m ∨ x = (k, v) := by
  unfold mapSet at hx
  split_ifs at hx with hany
  · obtain ⟨y, hy, hyx⟩ := List.mem_map.1 hx
    split_ifs at hyx with hk
    · exact Or.inr hyx.symm
    · exact Or.inl (hyx ▸ hy)
  · rcases List.mem_append.1 hx with h | h
    · exact Or.inl h
    · exact Or.inr (by simpa using h)

theorem any_mapSet_self {β : Type} (m : List (String × β)) (k : String) (v : β) :
    (mapSet m k v).any (fun kv => kv.1 == k) = true := by
  unfold mapSet
  split_ifs with hany
  · obtain ⟨x, hx, hk⟩ := List.any_eq_true.1 hany
    refine List.any_eq_true.2 ⟨(k, v), List.mem_map.2 ⟨x, hx, ?_⟩, by simp⟩
    rw [if_pos hk]
  · simp

theorem any_mapSet_of_any {β : Type} (m : List (String × β)) (k : String) (v : β) (k1 : String)
    (h : m.any (fun kv => kv.1 == k1) = true) :
    (mapSet m k v).any (fun kv => kv.1 == k1) = true := by
  obtain ⟨x, hx, hk1⟩ := List.any_eq_true.1 h
  unfold mapSet
  split_ifs with hany
  · by_cases hk : (x.1 == k) = true
    · refine List.any_eq_true.2 ⟨(k, v), List.mem_map.2 ⟨x, hx, by rw [if_pos hk]⟩, ?_⟩
      have h1 : x.1 = k := by simpa using hk
      have h2 : x.1 = k1 := by simpa using hk1
      simp [← h1, h2]
    · exact List.any_eq_true.2 ⟨x, List.mem_map.2 ⟨x, hx, by rw [if_neg hk]⟩, hk1⟩
  · exact List.any_eq_true.2 ⟨x, List.mem_append_left _ hx, hk1⟩

theorem mapFind_of_any {β : Type} (m : List (String × β)) (k : String)
    (h : m.any (fun kv => kv.1 == k) = true) :
    ∃ kv, kv ∈ m ∧ kv.1 = k ∧ mapFind m k = some kv.2 := by
  unfold mapFind
  cases hf : m.find? (fun kv => kv.1 == k) with
  | none =>
    obtain ⟨x, hx, hk⟩ := List.any_eq_true.1 h
    exact absurd hk (by simpa using List.find?_eq_none.1 hf x hx)
  | some kv =>
    exact ⟨kv, List.mem_of_find?_eq_some hf, by simpa using List.find?_some hf, rfl⟩

theorem selectServices_snoc (ext : Ext) (ns tenantMasterSvcNs : String)
    (enableServiceLinks : Option Bool) (services : List Service) (service : Service) :
    selectServices ext ns tenantMasterSvcNs enableServiceLinks (services ++ [service]) =
      if !IsServiceIPSet service then
        selectServices ext ns tenantMasterSvcNs enableServiceLinks services
      else if service.meta.ns = tenantMasterSvcNs ∧
          ext.consts.masterServices.contains service.meta.name then
        (service.clusterIP,
          if (selectServices ext ns tenantMasterSvcNs enableServiceLinks services).2.any
              (fun kv => kv.1 == service.meta.name) then
            (selectServices ext ns tenantMasterSvcNs enableServiceLinks services).2
          else
            mapSet (selectServices ext ns tenantMasterSvcNs enableServiceLinks services).2
              service.meta.name service)
      else if service.meta.ns = ns ∧ enableServiceLinks = some true then
        ((selectServices ext ns tenantMasterSvcNs enableServiceLinks services).1,
          mapSet (selectServices ext ns tenantMasterSvcNs enableServiceLinks services).2
            service.meta.name service)
      else selectServices ext ns tenantMasterSvcNs enableServiceLinks services := by
  simp only [selectServices, List.foldl_append, List.foldl_cons, List.foldl_nil]

theorem selectServices_filter (ext : Ext) (ns tenantMasterSvcNs : String)
    (enableServiceLinks : Option Bool) (services : List Service) :
    selectServices ext ns tenantMasterSvcNs enableServiceLinks (services.filter IsServiceIPSet) =
      selectServices ext ns tenantMasterSvcNs enableServiceLinks services := by
  induction services using List.reverseRecOn with
  | nil => rfl
  | append_singleton l a ih =>
    rw [List.filter_append, selectServices_snoc]
    cases ha : IsServiceIPSet a with
    | false => simpa [List.filter_cons, ha] using ih
    | true =>
      have hf : List.filter IsServiceIPSet [a] = [a] := by simp [List.filter_cons, ha]
      rw [hf, selectServices_snoc, ih]
      simp only [ha]

theorem selectServices_entries (ext : Ext) (ns tenantMasterSvcNs : String)
    (enableServiceLinks : Option Bool) (services : List Service) (kv : String × Service)
    (hkv : kv ∈ (selectServices ext ns tenantMasterSvcNs enableServiceLinks services).2) :
    kv.2 ∈ services ∧ kv.2.meta.name = kv.1 ∧ IsServiceIPSet kv.2 = true ∧
    ((kv.2.meta.ns = tenantMasterSvcNs ∧ ext.consts.masterServices.contains kv.1 = true) ∨
      (kv.2.meta.ns = ns ∧ enableServiceLinks = some true)) := by
  induction services using List.reverseRecOn with
  | nil => simp [selectServices] at hkv
  | append_singleton l a ih =>
    have old : kv ∈ (selectServices ext ns tenantMasterSvcNs enableServiceLinks l).2 →
        kv.2 ∈ l ++ [a] ∧ kv.2.meta.name = kv.1 ∧ IsServiceIPSet kv.2 = true ∧
        ((kv.2.meta.ns = tenantMasterSvcNs ∧ ext.consts.masterServices.contains kv.1 = true) ∨
          (kv.2.meta.ns = ns ∧ enableServiceLinks = some true)) := by
      intro h
      obtain ⟨h1, h2⟩ := ih h
      exact ⟨List.mem_append_left _ h1, h2⟩
    rw [selectServices_snoc] at hkv
    cases ha : IsServiceIPSet a with
    | false =>
      rw [ha] at hkv
      exact old hkv
    | true =>
      rw [ha] at hkv
      simp only [Bool.not_true, Bool.false_eq_true, if_false] at hkv
      split_ifs at hkv with hm hany hp
      · exact old hkv
      · rcases mem_mapSet _ _ _ _ hkv with h | h
        · exact old h
        · subst h
          exact ⟨by simp, rfl, ha, Or.inl hm⟩
      · rcases mem_mapSet _ _ _ _ hkv with h | h
        · exact old h
        · subst h
          exact ⟨by simp, rfl, ha, Or.inr hp⟩
      · exact old hkv

theorem selectServices_master_key (ext : Ext) (ns tenantMasterSvcNs : String)
    (enableServiceLinks : Option Bool) (services : List Service) (s : Service)
    (hs : s ∈ services) (hip : IsServiceIPSet s = true) (hns : s.meta.ns = tenantMasterSvcNs)
    (hmaster : ext.consts.masterServices.contains s.meta.name = true) :
    (selectServices ext ns tenantMasterSvcNs enableServiceLinks services).2.any
      (fun kv => kv.1 == s.meta.name) = true := by
  induction services using List.reverseRecOn with
  | nil => simp at hs
  | append_singleton l a ih =>
    rw [selectServices_snoc]
    rcases List.mem_append.1 hs with h | h
    · have hl := ih h
      cases ha : IsServiceIPSet a with
      | false => simpa using hl
      | true =>
        simp only [Bool.not_true, Bool.false_eq_true, if_false]
        split_ifs with hm hany hp
        · exact hl
        · exact any_mapSet_of_any _ _ _ _ hl
        · exact any_mapSet_of_any _ _ _ _ hl
        · exact hl
    · have hsa : s = a := by simpa using h
      subst hsa
      simp only [hip, Bool.not_true, Bool.false_eq_true, if_false]
      rw [if_pos ⟨hns, hmaster⟩]
      split_ifs with hany
      · exact hany
      · exact any_mapSet_self _ _ _

/-- Claim C22, counterexample: with `enableServiceLinks` true, the IP-set master
service `kubernetes` of the master-service namespace `west-default` is in the
list, and yet the service bound to the name `kubernetes`, from which the
variables of that name are derived, is the service `kubernetes` of the
namespace `west-ns1` of the pod, which comes later in the list: the host
variable carries its cluster IP, while the API server address returned is
that of the master service. -/
theorem getServiceEnvVarMap_shadowed :
    exMasterService ∈ [exMasterService, exShadowService] ∧
    IsServiceIPSet exMasterService = true ∧
    exMasterService.meta.ns =
      exExtEnv.ToSuperMasterNamespace "west" exExtEnv.consts.masterServiceNamespace ∧
    exExtEnv.consts.masterServices.contains exMasterService.meta.name = true ∧
    mapFind (selectServices exExtEnv "west-ns1"
        (exExtEnv.ToSuperMasterNamespace "west" exExtEnv.consts.masterServiceNamespace)
        (some true) [exMasterService, exShadowService]).2 "kubernetes" = some exShadowService ∧
    exShadowService.meta.ns ≠
      exExtEnv.ToSuperMasterNamespace "west" exExtEnv.consts.masterServiceNamespace ∧
    getServiceEnvVarMap exExtEnv exRt "west-ns1" "west" (some true)
        [exMasterService, exShadowService] =
      ("10.0.0.1", [("kubernetes_SERVICE_HOST", "10.9.9.9")]) := by
  refine ⟨by decide, by decide, by decide, by decide, by decide, by decide, by decide⟩

/-- Claim C22, amended: for every service list and every `enableServiceLinks`,
`getServiceEnvVarMap` ignores the services without a cluster IP set and derives
the variables from the services bound in its service map; every service bound
there is an IP-set service of the list, bound to its own name, and is either a
master service of the master-service namespace or a service of the namespace of
the pod with `enableServiceLinks` non-nil and true, so that a service of any
other namespace never contributes; and when the list holds an IP-set master
service of the master-service namespace, its name is bound, to a service of
the master-service namespace when `enableServiceLinks` is nil or false, or
when the namespace of the pod holds no IP-set service of that name outside
the master-service namespace. -/
theorem getServiceEnvVarMap_selection (ext : Ext) (rt : GoRuntime) (ns cluster : String)
    (enableServiceLinks : Option Bool) (services : List Service) :
    getServiceEnvVarMap ext rt ns cluster enableServiceLinks
        (services.filter IsServiceIPSet) =
      getServiceEnvVarMap ext rt ns cluster enableServiceLinks services ∧
    (getServiceEnvVarMap ext rt ns cluster enableServiceLinks services).2 =
      envVarMapOf (ext.FromServices ((rt.rangeServiceMap (selectServices ext ns
        (ext.ToSuperMasterNamespace cluster ext.consts.masterServiceNamespace)
        enableServiceLinks services).2).map (fun kv => kv.2))) ∧
    (∀ kv : String × Service,
      kv ∈ (selectServices ext ns
        (ext.ToSuperMasterNamespace cluster ext.consts.masterServiceNamespace)
        enableServiceLinks services).2 →
      kv.2 ∈ services ∧ kv.2.meta.name = kv.1 ∧ IsServiceIPSet kv.2 = true ∧
      ((kv.2.meta.ns = ext.ToSuperMasterNamespace cluster ext.consts.masterServiceNamespace ∧
          ext.consts.masterServices.contains kv.1 = true) ∨
        (kv.2.meta.ns = ns ∧ enableServiceLinks = some true))) ∧
    (∀ s : Service, s ∈ services → IsServiceIPSet s = true →
      s.meta.ns = ext.ToSuperMasterNamespace cluster ext.consts.masterServiceNamespace →
      ext.consts.masterServices.contains s.meta.name = true →
      ∃ svc : Service,
        mapFind (selectServices ext ns
          (ext.ToSuperMasterNamespace cluster ext.consts.masterServiceNamespace)
          enableServiceLinks services).2 s.meta.name = some svc ∧
        svc ∈ services ∧ svc.meta.name = s.meta.name ∧ IsServiceIPSet svc = true ∧
        (enableServiceLinks ≠ some true →
          svc.meta.ns = ext.ToSuperMasterNamespace cluster ext.consts.masterServiceNamespace) ∧
        ((∀ t : Service, t ∈ services → IsServiceIPSet t = true →
            t.meta.name = s.meta.name → t.meta.ns = ns →
            ns = ext.ToSuperMasterNamespace cluster ext.consts.masterServiceNamespace) →
          svc.meta.ns =
            ext.ToSuperMasterNamespace cluster ext.consts.masterServiceNamespace)) := by
  refine ⟨?_, rfl, ?_, ?_⟩
  · unfold getServiceEnvVarMap
    simp only [selectServices_filter]
  · intro kv hkv
    exact selectServices_entries ext ns _ enableServiceLinks services kv hkv
  · intro s hs hip hns hmaster
    obtain ⟨kv, hkv, hk, hfind⟩ := mapFind_of_any _ _
      (selectServices_master_key ext ns _ enableServiceLinks services s hs hip hns hmaster)
    obtain ⟨h1, h2, h3, h4⟩ := selectServices_entries ext ns _ enableServiceLinks services kv hkv
    refine ⟨kv.2, hfind, h1, h2.trans hk, h3, ?_, ?_⟩
    · intro hesl
      rcases h4 with h | h
      · exact h.1
      · exact absurd h.2 hesl
    · intro hno
      rcases h4 with h | h
      · exact h.1
      · rw [h.1]
        exact hno kv.2 h1 h3 (h2.trans hk) h.1

/-- Claim C22, amended, on the list of the counterexample with
`enableServiceLinks` nil: the name `kubernetes` is bound to a service of the
master-service namespace `west-default`. -/
theorem getServiceEnvVarMap_selection_witness :
    ∃ svc : Service,
      mapFind (selectServices exExtEnv "west-ns1" "west-default" none
        [exHeadlessService, exMasterService, exShadowService]).2 "kubernetes" = some svc ∧
      svc.meta.ns = "west-default" := by
  obtain ⟨svc, h1, _, _, _, h2, _⟩ :=
    (getServiceEnvVarMap_selection exExtEnv exRt "west-ns1" "west" none
      [exHeadlessService, exMasterService, exShadowService]).2.2.2 exMasterService
      (by decide) (by decide) (by decide) (by decide)
  exact ⟨svc, h1, h2 (by decide)⟩

/-! ### `checkPVCs`: the wait group -/

theorem pendingTasks_append (tasks : List checkPVCsTask) (t : checkPVCsTask)
    (ht : t.done = false) : pendingTasks (tasks ++ [t]) = pendingTasks tasks + 1 := by
  simp [pendingTasks, List.countP_append, ht]

theorem pendingTasks_set (tasks : List checkPVCsTask) (i : Nat) (t t1 : checkPVCsTask)
    (hi : tasks[i]? = some t) :
    pendingTasks (tasks.set i t1) + (if t.done then 0 else 1) =
      pendingTasks tasks + (if t1.done then 0 else 1) := by
  induction tasks generalizing i with
  | nil => simp at hi
  | cons a tasks ih =>
    cases i with
    | zero =>
      have ha : a = t := by simpa using hi
      subst ha
      simp only [pendingTasks, List.set_cons_zero, List.countP_cons]
      cases a.done <;> cases t1.done <;> simp
    | succ i =>
      have hi1 : tasks[i]? = some t := by simpa using hi
      have h := ih i hi1
      simp only [pendingTasks, List.set_cons_succ, List.countP_cons] at h ⊢
      omega

theorem pendingTasks_zero (tasks : List checkPVCsTask) (h : pendingTasks tasks = 0)
    (t : checkPVCsTask) (ht : t ∈ tasks) : t.done = true := by
  have h1 := List.countP_eq_zero.1 h t ht
  simpa using h1

theorem map_clusterName_set (tasks : List checkPVCsTask) (i : Nat) (t t1 : checkPVCsTask)
    (hi : tasks[i]? = some t) (hname : t1.clusterName = t.clusterName) :
    (tasks.set i t1).map (fun t => t.clusterName) = tasks.map (fun t => t.clusterName) := by
  induction tasks generalizing i with
  | nil => simp
  | cons a tasks ih =>
    cases i with
    | zero =>
      have ha : a = t := by simpa using hi
      subst ha
      simp [hname]
    | succ i =>
      have hi1 : tasks[i]? = some t := by simpa using hi
      simp [ih i hi1]

theorem checkPVCOfTenantCluster_no_host_write (c : pvcController) (ext : Ext)
    (clusterName : String) (x : Call) (hx : x ∈ checkPVCOfTenantCluster c ext clusterName) :
    isHostWrite x = false := by
  unfold checkPVCOfTenantCluster at hx
  cases hl : c.multiClusterPersistentVolumeClaimController.List clusterName with
  | error e =>
    rw [hl] at hx
    simp at hx
  | ok pvcList =>
    rw [hl] at hx
    dsimp only at hx
    rw [checkPVCOfTenantCluster_loop] at hx
    simp only [List.nil_append, List.mem_map] at hx
    obtain ⟨vPVC, _, hv⟩ := hx
    rw [← hv]
    rfl

theorem checkPVCsMainStep_inv (c : pvcController) (ext : Ext) (s s1 : checkPVCsState)
    (hinv : checkPVCsInv c s) (hstep : checkPVCsMainStep c ext s = some s1) :
    checkPVCsInv c s1 := by
  obtain ⟨hwg, htasks, hpc⟩ := hinv
  unfold checkPVCsMainStep at hstep
  cases hp : s.pc with
  | start =>
    rw [hp] at hstep hpc
    dsimp only at hstep hpc
    obtain ⟨hnil, hlog⟩ := hpc
    split_ifs at hstep with hlen
    · cases hstep
      refine ⟨hwg, htasks, ?_⟩
      dsimp only [allTasksDone]
      rw [hnil]
      exact ⟨by simpa using (List.length_eq_zero.1 hlen).symm, by simp⟩
    · cases hstep
      refine ⟨hwg, htasks, ?_⟩
      dsimp only
      rw [hnil]
      exact ⟨rfl, hlog⟩
  | spawning rest =>
    rw [hp] at hstep hpc
    cases rest with
    | nil =>
      dsimp only at hstep hpc
      cases hstep
      refine ⟨hwg, htasks, ?_⟩
      dsimp only
      exact ⟨by simpa using hpc.1, hpc.2⟩
    | cons clusterName rest =>
      dsimp only at hstep hpc
      cases hstep
      refine ⟨?_, ?_, ?_⟩
      · dsimp only
        rw [pendingTasks_append _ _ rfl, hwg]
        push_cast
        rfl
      · dsimp only
        intro t ht
        rcases List.mem_append.1 ht with h | h
        · exact htasks t h
        · have ht1 : t = { clusterName := clusterName
                           todo := checkPVCOfTenantCluster c ext clusterName } := by
            simpa using h
          subst ht1
          exact ⟨fun hd => (by cases hd),
            fun x hx => checkPVCOfTenantCluster_no_host_write c ext clusterName x hx⟩
      · dsimp only
        refine ⟨?_, hpc.2⟩
        rw [← hpc.1]
        simp
  | waiting =>
    rw [hp] at hstep hpc
    dsimp only at hstep hpc
    split_ifs at hstep with hzero
    have hall : allTasksDone c s := by
      refine ⟨hpc.1, fun t ht => ?_⟩
      have hd : t.done = true :=
        pendingTasks_zero s.tasks (by rw [hwg] at hzero; exact_mod_cast hzero) t ht
      exact ⟨hd, (htasks t ht).1 hd⟩
    cases hl : c.pvcListerList with
    | error e =>
      rw [hl] at hstep
      cases hstep
      exact ⟨hwg, htasks, hall⟩
    | ok pPVCs =>
      rw [hl] at hstep
      cases hstep
      exact ⟨hwg, htasks, hall⟩
  | sweeping rest =>
    rw [hp] at hstep hpc
    cases rest with
    | nil =>
      dsimp only at hstep hpc
      cases hstep
      exact ⟨hwg, htasks, hpc⟩
    | cons pPVC rest =>
      dsimp only at hstep hpc
      cases hstep
      exact ⟨hwg, htasks, hpc⟩
  | returned =>
    rw [hp] at hstep
    cases hstep

theorem checkPVCsTaskStep_inv (c : pvcController) (i : Nat) (s s1 : checkPVCsState)
    (hinv : checkPVCsInv c s) (hstep : checkPVCsTaskStep i s = some s1) :
    checkPVCsInv c s1 := by
  obtain ⟨hwg, htasks, hpc⟩ := hinv
  unfold checkPVCsTaskStep at hstep
  cases hi : s.tasks[i]? with
  | none =>
    rw [hi] at hstep
    cases hstep
  | some t =>
    rw [hi] at hstep
    dsimp only at hstep
    have hmem : t ∈ s.tasks := List.getElem?_mem hi
    cases hd : t.done with
    | true =>
      rw [hd] at hstep
      simp at hstep
    | false =>
      rw [hd] at hstep
      simp only [Bool.false_eq_true, if_false] at hstep
      have hrunning : ¬ allTasksDone c s := by
        intro hall
        have := (hall.2 t hmem).1
        rw [hd] at this
        cases this
      cases htodo : t.todo with
      | nil =>
        rw [htodo] at hstep
        cases hstep
        refine ⟨?_, ?_, ?_⟩
        · dsimp only
          have h := pendingTasks_set s.tasks i t ⟨t.clusterName, [], true⟩ hi
          rw [hd] at h
          simp only [Bool.false_eq_true, if_false, if_true] at h
          rw [hwg]
          omega
        · dsimp only
          intro t1 ht1
          rcases List.mem_or_eq_of_mem_set ht1 with h | h
          · exact htasks t1 h
          · subst h
            exact ⟨fun _ => rfl, fun x hx => (by cases hx)⟩
        · dsimp only
          cases hp : s.pc with
          | start =>
            rw [hp] at hpc
            rw [hpc.1] at hi
            simp at hi
          | spawning rest =>
            rw [hp] at hpc
            dsimp only at hpc ⊢
            exact ⟨by rw [map_clusterName_set _ _ t ⟨t.clusterName, [], true⟩ hi rfl]; exact hpc.1,
              hpc.2⟩
          | waiting =>
            rw [hp] at hpc
            dsimp only at hpc ⊢
            exact ⟨by rw [map_clusterName_set _ _ t ⟨t.clusterName, [], true⟩ hi rfl]; exact hpc.1,
              hpc.2⟩
          | sweeping rest =>
            rw [hp] at hpc
            exact absurd hpc hrunning
          | returned =>
            rw [hp] at hpc
            exact absurd hpc hrunning
      | cons call rest =>
        rw [htodo] at hstep
        cases hstep
        have hcall : isHostWrite call = false :=
          (htasks t hmem).2 call (by rw [htodo]; exact List.mem_cons_self _ _)
        refine ⟨?_, ?_, ?_⟩
        · dsimp only
          have h := pendingTasks_set s.tasks i t ⟨t.clusterName, rest, false⟩ hi
          rw [hd] at h
          simp only [Bool.false_eq_true, if_false] at h
          rw [hwg]
          omega
        · dsimp only
          intro t1 ht1
          rcases List.mem_or_eq_of_mem_set ht1 with h | h
          · exact htasks t1 h
          · subst h
            refine ⟨fun hdone => ?_, fun x hx => ?_⟩
            · cases hdone
            · exact (htasks t hmem).2 x (by rw [htodo]; exact List.mem_cons_of_mem _ hx)
        · have hlog : noHostWrite s → noHostWrite
              { s with tasks := s.tasks.set i { t with todo := rest }
                       log := s.log ++ [call] } := by
            intro h x hx
            rcases List.mem_append.1 hx with h1 | h1
            · exact h x h1
            · have : x = call := by simpa using h1
              rw [this]
              exact hcall
          dsimp only
          cases hp : s.pc with
          | start =>
            rw [hp] at hpc
            rw [hpc.1] at hi
            simp at hi
          | spawning rest1 =>
            rw [hp] at hpc
            dsimp only at hpc ⊢
            exact ⟨by rw [map_clusterName_set _ _ t ⟨t.clusterName, rest, false⟩ hi rfl]; exact hpc.1,
              hlog hpc.2⟩
          | waiting =>
            rw [hp] at hpc
            dsimp only at hpc ⊢
            exact ⟨by rw [map_clusterName_set _ _ t ⟨t.clusterName, rest, false⟩ hi rfl]; exact hpc.1,
              hlog hpc.2⟩
          | sweeping rest1 =>
            rw [hp] at hpc
            exact absurd hpc hrunning
          | returned =>
            rw [hp] at hpc
            exact absurd hpc hrunning

theorem checkPVCsRun_snoc (c : pvcController) (ext : Ext) (sched : List Thread) (th : Thread) :
    checkPVCsRun c ext (sched ++ [th]) =
      (checkPVCsThreadStep c ext th (checkPVCsRun c ext sched)).getD
        (checkPVCsRun c ext sched) := by
  simp only [checkPVCsRun, List.foldl_append, List.foldl_cons, List.foldl_nil]

theorem checkPVCsThreadStep_inv (c : pvcController) (ext : Ext) (th : Thread)
    (s s1 : checkPVCsState) (hinv : checkPVCsInv c s)
    (hstep : checkPVCsThreadStep c ext th s = some s1) : checkPVCsInv c s1 := by
  cases th with
  | main => exact checkPVCsMainStep_inv c ext s s1 hinv hstep
  | task i => exact checkPVCsTaskStep_inv c i s s1 hinv hstep

theorem checkPVCsRun_inv (c : pvcController) (ext : Ext) (sched : List Thread) :
    checkPVCsInv c (checkPVCsRun c ext sched) := by
  induction sched using List.reverseRecOn with
  | nil =>
    refine ⟨rfl, ?_, ?_⟩
    · intro t ht
      simp [checkPVCsRun] at ht
    · refine ⟨rfl, ?_⟩
      intro x hx
      simp [checkPVCsRun] at hx
  | append_singleton sched th ih =>
    rw [checkPVCsRun_snoc]
    cases hstep : checkPVCsThreadStep c ext th (checkPVCsRun c ext sched) with
    | none => exact ih
    | some s1 => exact checkPVCsThreadStep_inv c ext th _ s1 ih hstep

/-- Claim C25: in every run of `checkPVCs`, under every schedule of its
goroutines, the counter of the wait group is the number of started goroutines
that have not ended; whenever the main goroutine is in the loop over the host
claims, and whenever the log holds a host write, a goroutine has been started
for every known tenant cluster and each of them has issued all the calls of
`checkPVCOfTenantCluster` and has ended; and a step that issues a host write
is a step of the main goroutine in that loop, taken from such a state. -/
theorem checkPVCs_barrier (c : pvcController) (ext : Ext) (sched : List Thread) :
    (checkPVCsRun c ext sched).wg = (pendingTasks (checkPVCsRun c ext sched).tasks : Int) ∧
    (∀ rest : List PersistentVolumeClaim,
      (checkPVCsRun c ext sched).pc = checkPVCsPc.sweeping rest →
      allTasksDone c (checkPVCsRun c ext sched)) ∧
    (∀ x : Call, x ∈ (checkPVCsRun c ext sched).log → isHostWrite x = true →
      allTasksDone c (checkPVCsRun c ext sched)) ∧
    (∀ (th : Thread) (s1 : checkPVCsState) (calls : List Call) (x : Call),
      checkPVCsThreadStep c ext th (checkPVCsRun c ext sched) = some s1 →
      s1.log = (checkPVCsRun c ext sched).log ++ calls → x ∈ calls → isHostWrite x = true →
      th = Thread.main ∧
      (∃ (pPVC : PersistentVolumeClaim) (rest : List PersistentVolumeClaim),
        (checkPVCsRun c ext sched).pc = checkPVCsPc.sweeping (pPVC :: rest)) ∧
      allTasksDone c (checkPVCsRun c ext sched)) := by
  have hinv := checkPVCsRun_inv c ext sched
  generalize checkPVCsRun c ext sched = s at hinv ⊢
  obtain ⟨hwg, htasks, hpc⟩ := hinv
  refine ⟨hwg, ?_, ?_, ?_⟩
  · intro rest hp
    rw [hp] at hpc
    exact hpc
  · intro x hx hw
    cases hp : s.pc with
    | start =>
      rw [hp] at hpc
      rw [hpc.2 x hx] at hw
      cases hw
    | spawning rest =>
      rw [hp] at hpc
      rw [hpc.2 x hx] at hw
      cases hw
    | waiting =>
      rw [hp] at hpc
      rw [hpc.2 x hx] at hw
      cases hw
    | sweeping rest =>
      rw [hp] at hpc
      exact hpc
    | returned =>
      rw [hp] at hpc
      exact hpc
  · intro th s1 calls x hstep hlog hx hw
    have hnone : s1.log = s.log → False := by
      intro h
      rw [h] at hlog
      rw [List.self_eq_append_right.1 hlog] at hx
      cases hx
    cases th with
    | task i =>
      exfalso
      simp only [checkPVCsThreadStep, checkPVCsTaskStep] at hstep
      cases hi : s.tasks[i]? with
      | none =>
        rw [hi] at hstep
        cases hstep
      | some t =>
        rw [hi] at hstep
        dsimp only at hstep
        split_ifs at hstep with hd
        cases htodo : t.todo with
        | nil =>
          rw [htodo] at hstep
          cases hstep
          exact hnone rfl
        | cons call rest =>
          rw [htodo] at hstep
          cases hstep
          have hc : calls = [call] := (List.append_cancel_left hlog).symm
          rw [hc] at hx
          have hxc : x = call := by simpa using hx
          have := (htasks t (List.getElem?_mem hi)).2 call
            (by rw [htodo]; exact List.mem_cons_self _ _)
          rw [hxc, this] at hw
          cases hw
    | main =>
      simp only [checkPVCsThreadStep, checkPVCsMainStep] at hstep
      cases hp : s.pc with
      | start =>
        rw [hp] at hstep
        dsimp only at hstep
        split_ifs at hstep <;> cases hstep <;> exact (hnone rfl).elim
      | spawning rest =>
        rw [hp] at hstep
        cases rest <;> cases hstep <;> exact (hnone rfl).elim
      | waiting =>
        rw [hp] at hstep
        dsimp only at hstep
        split_ifs at hstep
        cases hl : c.pvcListerList with
        | error e =>
          rw [hl] at hstep
          cases hstep
          exact (hnone rfl).elim
        | ok pPVCs =>
          rw [hl] at hstep
          cases hstep
          exact (hnone rfl).elim
      | sweeping rest =>
        rw [hp] at hstep hpc
        cases rest with
        | nil =>
          cases hstep
          exact (hnone rfl).elim
        | cons pPVC rest => exact ⟨rfl, ⟨pPVC, rest, rfl⟩, hpc⟩
      | returned =>
        rw [hp] at hstep
        cases hstep

/-- Claim C25 on `exSchedule` for two tenant clusters: the main goroutine has
passed `wg.Wait()` and is about to visit the orphan host claim; both
goroutines have issued their requeue and have ended, and the next step of the
main goroutine issues the delete, after both requeues. -/
theorem checkPVCs_barrier_witness :
    (checkPVCsRun exPVCControllerTwo exExt exSchedule).pc =
      checkPVCsPc.sweeping [exOrphanPVC] ∧
    allTasksDone exPVCControllerTwo (checkPVCsRun exPVCControllerTwo exExt exSchedule) ∧
    (checkPVCsRun exPVCControllerTwo exExt (exSchedule ++ [Thread.main])).log =
      [Call.requeueObject "west" exTenantPVC1 EventType.AddEvent none,
       Call.requeueObject "east" exTenantPVC1 EventType.AddEvent none,
       Call.hostPVCDelete "west-team-a" "c1" { preconditions := some { uid := some "p1" } }
         none] :=
  ⟨rfl, (checkPVCs_barrier exPVCControllerTwo exExt exSchedule).2.1 [exOrphanPVC] rfl, rfl⟩

/-! ### `checkPVCs`: the runs and the call log -/

theorem map_set_same {β : Type} (f : checkPVCsTask → β) (tasks : List checkPVCsTask) (i : Nat)
    (t t1 : checkPVCsTask) (hi : tasks[i]? = some t) (hf : f t1 = f t) :
    (tasks.set i t1).map f = tasks.map f := by
  induction tasks generalizing i with
  | nil => simp
  | cons a tasks ih =>
    cases i with
    | zero =>
      have ha : a = t := by simpa using hi
      subst ha
      simp [hf]
    | succ i =>
      have hi1 : tasks[i]? = some t := by simpa using hi
      simp [ih i hi1]

theorem todo_flatten_set (tasks : List checkPVCsTask) (i : Nat) (t t1 : checkPVCsTask)
    (call : Call) (hi : tasks[i]? = some t) (htodo : t.todo = call :: t1.todo) :
    List.Perm (call :: ((tasks.set i t1).map (fun t => t.todo)).flatten)
      ((tasks.map (fun t => t.todo)).flatten) := by
  induction tasks generalizing i with
  | nil => simp at hi
  | cons a tasks ih =>
    cases i with
    | zero =>
      have ha : a = t := by simpa using hi
      subst ha
      simp [htodo]
    | succ i =>
      have hi1 : tasks[i]? = some t := by simpa using hi
      simp only [List.set_cons_succ, List.map_cons, List.flatten_cons]
      exact (List.perm_middle.symm).trans (List.Perm.append_left _ (ih i hi1))

theorem checkPVCsMainStep_logInv (c : pvcController) (ext : Ext) (s s1 : checkPVCsState)
    (hlog : checkPVCsLogInv c ext s) (hstep : checkPVCsMainStep c ext s = some s1) :
    checkPVCsLogInv c ext s1 := by
  obtain ⟨pre, post, hl, hperm, hpc⟩ := hlog
  unfold checkPVCsMainStep at hstep
  cases hp : s.pc with
  | start =>
    rw [hp] at hstep hpc
    dsimp only at hstep hpc
    split_ifs at hstep with hlen
    · cases hstep
      refine ⟨pre, post, hl, hperm, ?_⟩
      dsimp only
      rw [if_pos hlen]
      exact hpc
    · cases hstep
      exact ⟨pre, post, hl, hperm, hpc, hlen⟩
  | spawning rest =>
    rw [hp] at hstep hpc
    cases rest with
    | nil =>
      cases hstep
      exact ⟨pre, post, hl, hperm, hpc⟩
    | cons clusterName rest =>
      cases hstep
      refine ⟨pre, post, hl, ?_, hpc⟩
      dsimp only
      simp only [List.map_append, List.map_cons, List.map_nil, List.flatten_append,
        List.flatten_cons, List.flatten_nil, List.append_nil]
      rw [← List.append_assoc]
      exact hperm.append_right _
  | waiting =>
    rw [hp] at hstep hpc
    dsimp only at hstep hpc
    split_ifs at hstep with hzero
    cases hlist : c.pvcListerList with
    | error e =>
      rw [hlist] at hstep
      cases hstep
      refine ⟨pre, post, hl, hperm, ?_⟩
      dsimp only
      rw [if_neg hpc.2, hlist]
      exact hpc.1
    | ok pPVCs =>
      rw [hlist] at hstep
      cases hstep
      exact ⟨pre, post, hl, hperm, hpc.2, [], hlist, hpc.1⟩
  | sweeping rest =>
    rw [hp] at hstep hpc
    obtain ⟨hlen, visited, hlist, hpost⟩ := hpc
    cases rest with
    | nil =>
      cases hstep
      refine ⟨pre, post, hl, hperm, ?_⟩
      dsimp only
      rw [if_neg hlen, hlist, List.append_nil]
      exact hpost
    | cons pPVC rest =>
      cases hstep
      refine ⟨pre, post ++ checkPVCsStep c ext pPVC, ?_, hperm, hlen, visited ++ [pPVC], ?_, ?_⟩
      · dsimp only
        rw [hl, List.append_assoc]
      · rw [hlist]
        simp
      · rw [hpost]
        simp [checkPVCsSweep, List.foldl_append]
  | returned =>
    rw [hp] at hstep
    cases hstep

theorem checkPVCsTaskStep_logInv (c : pvcController) (ext : Ext) (i : Nat)
    (s s1 : checkPVCsState) (hinv : checkPVCsInv c s) (hlog : checkPVCsLogInv c ext s)
    (hstep : checkPVCsTaskStep i s = some s1) : checkPVCsLogInv c ext s1 := by
  obtain ⟨pre, post, hl, hperm, hpc⟩ := hlog
  obtain ⟨_, _, hpc1⟩ := hinv
  unfold checkPVCsTaskStep at hstep
  cases hi : s.tasks[i]? with
  | none =>
    rw [hi] at hstep
    cases hstep
  | some t =>
    rw [hi] at hstep
    dsimp only at hstep
    have hmem : t ∈ s.tasks := List.getElem?_mem hi
    cases hd : t.done with
    | true =>
      rw [hd] at hstep
      simp at hstep
    | false =>
      rw [hd] at hstep
      simp only [Bool.false_eq_true, if_false] at hstep
      have hrunning : ¬ allTasksDone c s := by
        intro hall
        have := (hall.2 t hmem).1
        rw [hd] at this
        cases this
      have hpost : post = [] := by
        cases hp : s.pc with
        | start =>
          rw [hp] at hpc
          exact hpc
        | spawning rest =>
          rw [hp] at hpc
          exact hpc.1
        | waiting =>
          rw [hp] at hpc
          exact hpc.1
        | sweeping rest =>
          rw [hp] at hpc1
          exact absurd hpc1 hrunning
        | returned =>
          rw [hp] at hpc1
          exact absurd hpc1 hrunning
      cases htodo : t.todo with
      | nil =>
        rw [htodo] at hstep
        cases hstep
        refine ⟨pre, post, hl, ?_, hpc⟩
        dsimp only
        rw [map_set_same (fun t => t.todo) _ _ t ⟨t.clusterName, [], true⟩ hi htodo.symm,
          map_set_same (fun t => t.clusterName) _ _ t ⟨t.clusterName, [], true⟩ hi rfl]
        exact hperm
      | cons call rest =>
        rw [htodo] at hstep
        cases hstep
        refine ⟨pre ++ [call], post, ?_, ?_, hpc⟩
        · dsimp only
          rw [hl, hpost]
          simp
        · dsimp only
          rw [map_set_same (fun t => t.clusterName) _ _ t ⟨t.clusterName, rest, false⟩ hi rfl]
          refine List.Perm.trans ?_ hperm
          rw [List.append_assoc]
          exact List.Perm.append_left _
            (todo_flatten_set s.tasks i t ⟨t.clusterName, rest, false⟩ call hi htodo)

theorem checkPVCsRun_logInv (c : pvcController) (ext : Ext) (sched : List Thread) :
    checkPVCsLogInv c ext (checkPVCsRun c ext sched) := by
  induction sched using List.reverseRecOn with
  | nil => exact ⟨[], [], rfl, List.Perm.refl _, rfl⟩
  | append_singleton sched th ih =>
    rw [checkPVCsRun_snoc]
    cases hstep : checkPVCsThreadStep c ext th (checkPVCsRun c ext sched) with
    | none => exact ih
    | some s1 =>
      cases th with
      | main => exact checkPVCsMainStep_logInv c ext _ s1 ih hstep
      | task i =>
        exact checkPVCsTaskStep_logInv c ext i _ s1 (checkPVCsRun_inv c ext sched) ih hstep

/-- When a run of `checkPVCs` has returned, its call log is the log of the
function `checkPVCs` for a run time that merges the calls of the goroutines
into some order of theirs. -/
theorem checkPVCsRun_returned (c : pvcController) (ext : Ext) (sched : List Thread)
    (hret : (checkPVCsRun c ext sched).pc = checkPVCsPc.returned) :
    ∃ merged : List Call,
      List.Perm merged ((c.multiClusterPersistentVolumeClaimController.GetClusterNames.map
        (checkPVCOfTenantCluster c ext)).flatten) ∧
      ∀ rt : GoRuntime,
        rt.schedule (c.multiClusterPersistentVolumeClaimController.GetClusterNames.map
          (fun clusterName => checkPVCOfTenantCluster c ext clusterName)) = merged →
        (checkPVCsRun c ext sched).log = checkPVCs c ext rt := by
  have hinv := checkPVCsRun_inv c ext sched
  have hlog := checkPVCsRun_logInv c ext sched
  generalize checkPVCsRun c ext sched = s at hinv hlog hret
  obtain ⟨pre, post, hl, hperm, hpc⟩ := hlog
  obtain ⟨_, _, hpc1⟩ := hinv
  rw [hret] at hpc hpc1
  dsimp only at hpc hpc1
  have htodo : (s.tasks.map (fun t => t.todo)).flatten = [] := by
    rw [List.flatten_eq_nil_iff]
    intro l hmem
    obtain ⟨t, ht, htl⟩ := List.mem_map.1 hmem
    rw [← htl]
    exact (hpc1.2 t ht).2
  rw [htodo, List.append_nil, hpc1.1] at hperm
  refine ⟨pre, hperm, ?_⟩
  intro rt hrt
  unfold checkPVCs
  dsimp only
  rw [hl, hpc]
  split_ifs with hlen
  · have hnames := List.length_eq_zero.1 hlen
    rw [hnames] at hperm
    simpa using hperm
  · rw [hrt]
    cases c.pvcListerList with
    | error e => simp
    | ok pPVCs => rfl

/-! ### `checkPVCs`: no known tenant cluster -/

/-- Claim C24: when no tenant cluster is known, `checkPVCs` returns at once:
its call log is empty, so nothing is requeued and no host claim is deleted,
whatever the tenant listings and the host cache hold, also when the host cache
holds claims with a back-reference that the sweep would delete for a known
cluster; and under every schedule the run is at its start or has returned
with no goroutine started, the wait group untouched and no call issued, so
that neither the tenant claims nor the host claims are listed. -/
theorem checkPVCs_no_cluster (c : pvcController) (ext : Ext) (rt : GoRuntime)
    (hnames : c.multiClusterPersistentVolumeClaimController.GetClusterNames = []) :
    checkPVCs c ext rt = [] ∧
    (∀ (list : String → Except Err (List PersistentVolumeClaim))
      (hostList : Except Err (List PersistentVolumeClaim)),
      checkPVCs
        { c with
          multiClusterPersistentVolumeClaimController :=
            { c.multiClusterPersistentVolumeClaimController with List := list }
          pvcListerList := hostList } ext rt = []) ∧
    (∀ sched : List Thread,
      checkPVCsRun c ext sched = {} ∨
      checkPVCsRun c ext sched = { pc := checkPVCsPc.returned }) := by
  refine ⟨?_, ?_, ?_⟩
  · unfold checkPVCs
    simp [hnames]
  · intro list hostList
    unfold checkPVCs
    simp [hnames]
  · intro sched
    induction sched using List.reverseRecOn with
    | nil => exact Or.inl rfl
    | append_singleton sched th ih =>
      rw [checkPVCsRun_snoc]
      rcases ih with h | h
      · rw [h]
        cases th with
        | main =>
          right
          simp [checkPVCsThreadStep, checkPVCsMainStep, hnames]
        | task i =>
          left
          simp [checkPVCsThreadStep, checkPVCsTaskStep]
      · rw [h]
        right
        cases th with
        | main => simp [checkPVCsThreadStep, checkPVCsMainStep]
        | task i => simp [checkPVCsThreadStep, checkPVCsTaskStep]

/-- Claim C24 on `exPVCController` without its cluster: the two host claims
with a back-reference, which the sweep deletes when `west` is known, stay. -/
theorem checkPVCs_no_cluster_witness :
    checkPVCs
        { exPVCController with
          multiClusterPersistentVolumeClaimController := { exMC with GetClusterNames := [] } }
        exExt exRt = [] ∧
    (checkPVCs exPVCController exExt exRt).filter isHostWrite =
      [Call.hostPVCDelete "west-team-a" "c1"
          { preconditions := some { uid := some "p1" } } (some (Errorf "delete refused")),
        Call.hostPVCDelete "west-team-a" "c3"
          { preconditions := some { uid := some "p3" } } (some (Errorf "delete refused"))] :=
  ⟨(checkPVCs_no_cluster
      { exPVCController with
        multiClusterPersistentVolumeClaimController := { exMC with GetClusterNames := [] } }
      exExt exRt rfl).1, by decide⟩

end VirtualCluster
